import Mathlib

/-!
The HA controller of `cmd/probe/internal/ha/control.go`, and three smaller
pieces of the repository: the graph of `internal/controller/dag/dag.go`, the
function `updateClusterPhaseWhenConditionsError` of
`internal/controller/lifecycle/transform_utils.go` and the function
`ReconcileActionWithComponentOps` of `controllers/dbaas/operations/ops_util.go`.

Namespace `ha` holds a shallow embedding of the reconciliation tick
`Ha.clusterControl` and of the helpers it calls (`hasLock`,
`updateLockWithRetry`, `setLeader`, `touchMember`, `isHealthiest`,
`acquireLeaderLock`, `follow`), of `Ha.Init`, of `NewHa` and of the handlers
registered by `Ha.HaControl`.

The controller talks to two collaborators that live outside this file of the
repository: the database adapter (`h.DB`) and the configuration store (`h.cs`).
Both are parameters of the embedding: every one of their operations is a
function on an abstract world state `σ`.  Every call the Go code makes on one of
them is recorded, with its arguments and its result, in a trace; the properties
of a tick are stated on that trace.

Namespace `dag` holds the graph.  A Go map is the list of its keys in the order
a `range` loop visits them, and the statements hold for every such order; the
two recursive closures take a bound on the depth of the recursion and yield
`none` when they hit it.  Namespaces `lifecycle` and `operations` hold the two
functions, with the constants and calls of packages outside this part of the
repository as parameters.
-/

namespace ha

/-- A Go `error` value: `none` is `nil`. -/
abbrev Err := Option String

/-- A Go `map[string]string`: `none` is the nil map. -/
abbrev Extra := Option (List (String × String))

/-- Modelled from the spec: the `leader` entry of the lease record (§3), whose
Go type lives in the `configuration_store` package.  `name` is what
`Leader.GetMember().GetName()` returns. -/
structure Leader where
  name : String
  renewTime : Int
  ttl : Int
  extra : Extra
deriving DecidableEq

/-- Modelled from the spec: a pending manual switchover request (§3); an empty
`target` means "any". -/
structure Switchover where
  target : String
deriving DecidableEq

/-- Modelled from the spec: the cluster lease record (§3) as cached by the
configuration store and returned by `h.cs.GetCluster()`.  `ttl` is
`Config.GetData().GetTtl()`. -/
structure Cluster where
  SysID : String
  Leader : Option Leader
  Members : List String
  Switchover : Option Switchover
  ttl : Int
deriving DecidableEq

/-- Modelled from the spec: `Cluster.HasMember(name)`, membership in the
`members` set of the record. -/
def Cluster.HasMember (c : Cluster) (name : String) : Bool :=
  c.Members.contains name

/-- The name `c.Leader.GetMember().GetName()` yields; the getters answer the
empty string on a nil leader. -/
def Cluster.leaderName (c : Cluster) : String :=
  match c.Leader with
  | some l => l.name
  | none => ""

/-- The part of a `v1.ConfigMap` the controller reads. -/
structure ConfigMap where
  Name : String
  ResourceVersion : String
  Annotations : Extra
deriving DecidableEq

/-- The suffix of the switchover marker object, `configuration_store.SwitchoverSuffix`. -/
def SwitchoverSuffix : String := "-switchover"

/-- The suffix of the lease record object, `configuration_store.LeaderSuffix`. -/
def LeaderSuffix : String := "-leader"

/-- The operations of the adapter and of the configuration store. -/
inductive Op
  | GetClusterFromKubernetes | GetCluster | GetClusterCompName | IsLocked
  | UpdateLeader | AttemptToAcquireLeaderLock | DeleteConfigMap
  | IsRunning | Start | IsLeader | GetSysID | GetOpTime | GetExtra
  | Demote | EnforcePrimaryRole | IsHealthiest
  | ProcessManualSwitchoverFromLeader | ProcessManualSwitchoverFromNoLeader
  | HandleFollow | Sleep | Init | UpdateConfigMap
deriving DecidableEq

/-- One call made by the controller, with its arguments and what it returned. -/
inductive Event
  | GetClusterFromKubernetes (err : Err)
  | GetCluster (c : Cluster)
  | GetClusterCompName (name : String)
  | IsLocked (locked : Bool)
  | UpdateLeader (pod : String) (opTime : Int) (extra : Extra) (err : Err)
  | AttemptToAcquireLeaderLock (pod : String) (err : Err)
  | DeleteConfigMap (key : String) (err : Err)
  | IsRunning (pod : String) (running : Bool)
  | Start (pod : String) (err : Err)
  | IsLeader (isLeader : Bool) (err : Err)
  | GetSysID (sysID : String) (err : Err)
  | GetOpTime (opTime : Int) (err : Err)
  | GetExtra (extra : Extra) (err : Err)
  | Demote (pod : String) (err : Err)
  | EnforcePrimaryRole (pod : String) (err : Err)
  | IsHealthiest (pod : String) (healthiest : Bool)
  | ProcessManualSwitchoverFromLeader (pod : String) (done : Bool) (err : Err)
  | ProcessManualSwitchoverFromNoLeader (pod : String) (selected : Bool)
  | HandleFollow (leader : Option Leader) (pod : String) (err : Err)
  | Sleep (seconds : Nat)
  | Init (isLeader : Bool) (sysID : String) (extra : Extra) (opTime : Int) (pod : String)
      (err : Err)
  | UpdateConfigMap (configMap : ConfigMap) (err : Err)
deriving DecidableEq

/-- The operation an event is a call of. -/
def Event.op : Event → Op
  | .GetClusterFromKubernetes _ => .GetClusterFromKubernetes
  | .GetCluster _ => .GetCluster
  | .GetClusterCompName _ => .GetClusterCompName
  | .IsLocked _ => .IsLocked
  | .UpdateLeader _ _ _ _ => .UpdateLeader
  | .AttemptToAcquireLeaderLock _ _ => .AttemptToAcquireLeaderLock
  | .DeleteConfigMap _ _ => .DeleteConfigMap
  | .IsRunning _ _ => .IsRunning
  | .Start _ _ => .Start
  | .IsLeader _ _ => .IsLeader
  | .GetSysID _ _ => .GetSysID
  | .GetOpTime _ _ => .GetOpTime
  | .GetExtra _ _ => .GetExtra
  | .Demote _ _ => .Demote
  | .EnforcePrimaryRole _ _ => .EnforcePrimaryRole
  | .IsHealthiest _ _ => .IsHealthiest
  | .ProcessManualSwitchoverFromLeader _ _ _ => .ProcessManualSwitchoverFromLeader
  | .ProcessManualSwitchoverFromNoLeader _ _ => .ProcessManualSwitchoverFromNoLeader
  | .HandleFollow _ _ _ => .HandleFollow
  | .Sleep _ => .Sleep
  | .Init _ _ _ _ _ _ => .Init
  | .UpdateConfigMap _ _ => .UpdateConfigMap

/-- The operations called in a trace, in order. -/
def ops (tr : List Event) : List Op := tr.map Event.op

/-- The database adapter `h.DB` (interface `DB` of the package), every method a
function on the world state. -/
structure DB (σ : Type) where
  IsLeader : σ → (Bool × Err) × σ
  IsRunning : String → σ → Bool × σ
  GetSysID : σ → (String × Err) × σ
  GetExtra : σ → (Extra × Err) × σ
  GetOpTime : σ → (Int × Err) × σ
  Start : String → σ → Err × σ
  Demote : String → σ → Err × σ
  EnforcePrimaryRole : String → σ → Err × σ
  IsHealthiest : String → σ → Bool × σ
  ProcessManualSwitchoverFromLeader : String → σ → (Bool × Err) × σ
  ProcessManualSwitchoverFromNoLeader : String → σ → Bool × σ
  HandleFollow : Option Leader → String → σ → Err × σ

/-- The configuration store `h.cs`, together with the clock the controller
reads (`time.Now().Unix()`, `time.Sleep`). -/
structure ConfigurationStore (σ : Type) where
  GetClusterFromKubernetes : σ → Err × σ
  GetCluster : σ → Cluster
  GetClusterCompName : σ → String
  IsLocked : Cluster → σ → Bool
  UpdateLeader : String → Int → Extra → σ → Err × σ
  AttemptToAcquireLeaderLock : String → σ → Err × σ
  DeleteConfigMap : String → σ → Err × σ
  Init : Bool → String → Extra → Int → String → σ → Err × σ
  UpdateConfigMap : ConfigMap → σ → Err × σ
  now : σ → Int
  sleep : Nat → σ → σ

/-- The collaborators of a controller. -/
structure Env (σ : Type) where
  db : DB σ
  cs : ConfigurationStore σ

/-- The fields of `Ha` a tick reads or writes. -/
structure Ha where
  podName : String
  isLeader : Int
  dbType : String
deriving DecidableEq

/-- What a piece of the controller yields when run from a state: its value, the
state of the collaborators afterwards and the calls it made, in order. -/
structure Res (σ α : Type) where
  val : α
  st : σ
  trace : List Event

/-- A piece of the controller: run from a state of the collaborators. -/
def M (σ α : Type) : Type := σ → Res σ α

/-- Finish with a value, calling nothing. -/
def M.pure {σ α : Type} (a : α) : M σ α := fun s => ⟨a, s, []⟩

/-- Run `m`, then `k` on its value from the state `m` left; the calls of `m`
come first. -/
def M.bind {σ α β : Type} (m : M σ α) (k : α → M σ β) : M σ β := fun s =>
  ⟨(k (m s).val (m s).st).val, (k (m s).val (m s).st).st,
    (m s).trace ++ (k (m s).val (m s).st).trace⟩

instance {σ : Type} : Monad (M σ) where
  pure := M.pure
  bind := M.bind

/-- Perform a call that may change the world and record it. -/
def call {σ α : Type} (f : σ → α × σ) (ev : α → Event) : M σ α := fun s =>
  ⟨(f s).1, (f s).2, [ev (f s).1]⟩

/-- The call `h.cs.GetCluster()`: read the cached record and record the read. -/
def getCluster {σ : Type} (env : Env σ) : M σ Cluster := fun s =>
  ⟨env.cs.GetCluster s, s, [Event.GetCluster (env.cs.GetCluster s)]⟩

/-- The call `h.cs.GetClusterCompName()`. -/
def getClusterCompName {σ : Type} (env : Env σ) : M σ String := fun s =>
  ⟨env.cs.GetClusterCompName s, s, [Event.GetClusterCompName (env.cs.GetClusterCompName s)]⟩

/-- The call `c.IsLocked()` on a record `c` the store returned. -/
def isLocked {σ : Type} (env : Env σ) (c : Cluster) : M σ Bool := fun s =>
  ⟨env.cs.IsLocked c s, s, [Event.IsLocked (env.cs.IsLocked c s)]⟩

/-- The clock reading `time.Now().Unix()`. -/
def now {σ : Type} (env : Env σ) : M σ Int := fun s => ⟨env.cs.now s, s, []⟩

/-- The pause `time.Sleep(time.Second * n)`. -/
def sleep {σ : Type} (env : Env σ) (n : Nat) : M σ Unit := fun s =>
  ⟨(), env.cs.sleep n s, [Event.Sleep n]⟩

/-- The method `Ha.hasLock`. -/
def hasLock {σ : Type} (env : Env σ) (h : Ha) : M σ Bool := do
  let c ← getCluster env
  pure (h.podName == c.leaderName)

/-- The loop of `Ha.updateLockWithRetry`: `n` iterations left, `err` the value
of the variable `err` on entry. -/
def updateLoop {σ : Type} (env : Env σ) (h : Ha) (opTime : Int) (extra : Extra) :
    Nat → Err → M σ Err
  | 0, err => pure err
  | n + 1, _ => do
    let err ← call (env.cs.UpdateLeader h.podName opTime extra)
      (Event.UpdateLeader h.podName opTime extra)
    if err = none then pure none else updateLoop env h opTime extra n err

/-- The method `Ha.updateLockWithRetry`. -/
def updateLockWithRetry {σ : Type} (env : Env σ) (h : Ha) (retryTimes : Nat) : M σ Err := do
  let r1 ← call env.db.GetOpTime (fun r => Event.GetOpTime r.1 r.2)
  let opTime : Int := if r1.2 ≠ none then 0 else r1.1
  let r2 ← call env.db.GetExtra (fun r => Event.GetExtra r.1 r.2)
  let extra : Extra := if r2.2 ≠ none then some [] else r2.1
  updateLoop env h opTime extra retryTimes r2.2

/-- The value an `int64` holds after an operation whose exact result is `x`:
integer arithmetic in Go wraps around. -/
def wrapInt64 (x : Int) : Int := (x + 2 ^ 63) % 2 ^ 64 - 2 ^ 63

/-- The method `Ha.setLeader`; yields the controller with `isLeader`, an `int64`,
written. -/
def setLeader {σ : Type} (env : Env σ) (h : Ha) (shouldSet : Bool) : M σ Ha :=
  if shouldSet then do
    let t ← now env
    let c ← getCluster env
    pure { h with isLeader := wrapInt64 (t + c.ttl) }
  else
    pure { h with isLeader := 0 }

/-- The method `Ha.touchMember`, an empty function in the source. -/
def touchMember {σ : Type} (_env : Env σ) (_h : Ha) : M σ Unit := pure ()

/-- The method `Ha.isHealthiest`. -/
def isHealthiest {σ : Type} (env : Env σ) (h : Ha) : M σ Bool := do
  let running ← call (env.db.IsRunning h.podName) (Event.IsRunning h.podName)
  if !running then pure false else
  let il ← call env.db.IsLeader (fun r => Event.IsLeader r.1 r.2)
  if il.1 = true ∧ il.2 = none then do
    let sid ← call env.db.GetSysID (fun r => Event.GetSysID r.1 r.2)
    if sid.2 ≠ none then pure false else
    let c ← getCluster env
    pure (sid.1 == c.SysID)
  else
  let c ← getCluster env
  if c.Switchover ≠ none then
    call (env.db.ProcessManualSwitchoverFromNoLeader h.podName)
      (Event.ProcessManualSwitchoverFromNoLeader h.podName)
  else
    call (env.db.IsHealthiest h.podName) (Event.IsHealthiest h.podName)

/-- The method `Ha.acquireLeaderLock`; yields the error and the controller afterwards. -/
def acquireLeaderLock {σ : Type} (env : Env σ) (h : Ha) : M σ (Err × Ha) := do
  let err ← call (env.cs.AttemptToAcquireLeaderLock h.podName)
    (Event.AttemptToAcquireLeaderLock h.podName)
  if err = none then do
    let h1 ← setLeader env h true
    pure (err, h1)
  else
    pure (err, h)

/-- The method `Ha.follow`. -/
def follow {σ : Type} (env : Env σ) (h : Ha) : M σ Err := do
  let err ← call env.cs.GetClusterFromKubernetes Event.GetClusterFromKubernetes
  if err ≠ none then pure err else
  let il ← call env.db.IsLeader (fun r => Event.IsLeader r.1 r.2)
  if il.1 = true ∧ il.2 = none then
    call (env.db.Demote h.podName) (Event.Demote h.podName)
  else do
    let c ← getCluster env
    call (env.db.HandleFollow c.Leader h.podName) (Event.HandleFollow c.Leader h.podName)

/-- The body of `if h.cs.GetCluster().IsLocked() { ... }` in `Ha.clusterControl`. -/
def lockedBranch {σ : Type} (env : Env σ) (h : Ha) : M σ Ha := do
  let mine ← hasLock env h
  if !mine then do
    let h1 ← setLeader env h false
    let _ ← follow env h1
    pure h1
  else
  let err ← updateLockWithRetry env h 3
  let _ ← (if err ≠ none then do
      let il ← call env.db.IsLeader (fun r => Event.IsLeader r.1 r.2)
      if il.1 = true ∧ il.2 = none then do
        let _ ← call (env.db.Demote h.podName) (Event.Demote h.podName)
        pure ()
      else pure ()
    else pure () : M σ Unit)
  let p ← call (env.db.ProcessManualSwitchoverFromLeader h.podName)
    (fun r => Event.ProcessManualSwitchoverFromLeader h.podName r.1 r.2)
  if p.1 then pure h else
  let _ ← call (env.db.EnforcePrimaryRole h.podName) (Event.EnforcePrimaryRole h.podName)
  pure h

/-- The rest of `Ha.clusterControl` after the locked case ("Process no leader
cluster"). -/
def noLeaderBranch {σ : Type} (env : Env σ) (h : Ha) : M σ Ha := do
  let healthiest ← isHealthiest env h
  if healthiest then do
    let a ← acquireLeaderLock env h
    let _ ← (if a.1 ≠ none then do
        let _ ← follow env a.2
        pure ()
      else pure () : M σ Unit)
    let c ← getCluster env
    if c.Switchover ≠ none then do
      let name ← getClusterCompName env
      let err ← call (env.cs.DeleteConfigMap (name ++ SwitchoverSuffix))
        (Event.DeleteConfigMap (name ++ SwitchoverSuffix))
      if err ≠ none then pure a.2 else
      let _ ← call (env.db.EnforcePrimaryRole h.podName) (Event.EnforcePrimaryRole h.podName)
      pure a.2
    else do
      let _ ← call (env.db.EnforcePrimaryRole h.podName) (Event.EnforcePrimaryRole h.podName)
      pure a.2
  else do
    sleep env 2
    let _ ← follow env h
    pure h

/-- The method `Ha.clusterControl`, the handler of update notifications: one tick.  Yields
the controller as the tick leaves it. -/
def clusterControl {σ : Type} (env : Env σ) (h : Ha) (oldObj newObj : ConfigMap) : M σ Ha :=
  if oldObj.ResourceVersion ≠ newObj.ResourceVersion then pure h else do
  let err ← call env.cs.GetClusterFromKubernetes Event.GetClusterFromKubernetes
  if err ≠ none then pure h else
  let running ← call (env.db.IsRunning h.podName) (Event.IsRunning h.podName)
  if !running then do
    let _ ← call (env.db.Start h.podName) (Event.Start h.podName)
    pure h
  else
  let c ← getCluster env
  (if !c.HasMember h.podName then touchMember env h else pure ())
  let c1 ← getCluster env
  let locked ← isLocked env c1
  if locked then lockedBranch env h else noLeaderBranch env h

/-- The calls of one tick started in state `s`, in order. -/
def tickTrace {σ : Type} (env : Env σ) (h : Ha) (oldObj newObj : ConfigMap) (s : σ) :
    List Event :=
  (clusterControl env h oldObj newObj s).trace

/-- The controller after one tick started in state `s`. -/
def tickHa {σ : Type} (env : Env σ) (h : Ha) (oldObj newObj : ConfigMap) (s : σ) : Ha :=
  (clusterControl env h oldObj newObj s).val

/-- The state of the collaborators after one tick started in state `s`. -/
def tickSt {σ : Type} (env : Env σ) (h : Ha) (oldObj newObj : ConfigMap) (s : σ) : σ :=
  (clusterControl env h oldObj newObj s).st

/-- The state in which a tick that got past the refresh and the `IsRunning`
check reads the record and decides: the state the two calls left. -/
def decisionState {σ : Type} (env : Env σ) (h : Ha) (s : σ) : σ :=
  (env.db.IsRunning h.podName (env.cs.GetClusterFromKubernetes s).2).2

/-- How a call of `Ha.Init` ends: it returns, or it panics with a message. -/
inductive Outcome
  | returned
  | panicked (msg : String)
deriving DecidableEq

/-- The message `panic(err)` carries for a non-nil `err`. -/
def Err.message (e : Err) : String := e.getD ""

/-- The retry loop at the head of `Ha.Init`: `n` iterations left, `r` the values
of the variables `isLeader` and `err` on entry. -/
def isLeaderLoop {σ : Type} (env : Env σ) : Nat → Bool × Err → M σ (Bool × Err)
  | 0, r => pure r
  | n + 1, _ => do
    let r ← call env.db.IsLeader (fun r => Event.IsLeader r.1 r.2)
    if r.2 = none then pure r else do
    sleep env 2
    isLeaderLoop env n r

/-- The method `Ha.Init`. -/
def Init {σ : Type} (env : Env σ) (h : Ha) : M σ Outcome := do
  let r ← isLeaderLoop env 3 (false, none)
  if r.1 then do
    let running ← call (env.db.IsRunning h.podName) (Event.IsRunning h.podName)
    if !running then pure (Outcome.panicked "db is not running") else
    let sid ← call env.db.GetSysID (fun r => Event.GetSysID r.1 r.2)
    if sid.2 ≠ none then pure (Outcome.panicked (Err.message sid.2)) else
    let ex ← call env.db.GetExtra (fun r => Event.GetExtra r.1 r.2)
    if ex.2 ≠ none then pure (Outcome.panicked (Err.message ex.2)) else
    let ot ← call env.db.GetOpTime (fun r => Event.GetOpTime r.1 r.2)
    if ot.2 ≠ none then pure (Outcome.panicked (Err.message ot.2)) else
    let err ← call (env.cs.Init r.1 sid.1 ex.1 ot.1 h.podName)
      (Event.Init r.1 sid.1 ex.1 ot.1 h.podName)
    if err ≠ none then pure (Outcome.panicked (Err.message err)) else
    pure Outcome.returned
  else do
    let err ← call (env.cs.Init false "" none 0 h.podName)
      (Event.Init false "" none 0 h.podName)
    if err ≠ none then pure (Outcome.panicked (Err.message err)) else
    pure Outcome.returned

/-- The traces `Ha.follow` can leave. -/
inductive FollowTrace (pod : String) : List Event → Prop
  | refreshFailed (e : Err) (he : e ≠ none) :
      FollowTrace pod [.GetClusterFromKubernetes e]
  | demoted (e : Err) :
      FollowTrace pod [.GetClusterFromKubernetes none, .IsLeader true none, .Demote pod e]
  | followed (b : Bool) (e : Err) (c : Cluster) (e' : Err) (hn : ¬(b = true ∧ e = none)) :
      FollowTrace pod [.GetClusterFromKubernetes none, .IsLeader b e, .GetCluster c,
        .HandleFollow c.Leader pod e']

/-- The traces `Ha.isHealthiest` can leave, with the value it returns. -/
inductive HealthTrace (pod : String) : Bool → List Event → Prop
  | notRunning : HealthTrace pod false [.IsRunning pod false]
  | sysIDFailed (sid : String) (e : Err) (he : e ≠ none) :
      HealthTrace pod false [.IsRunning pod true, .IsLeader true none, .GetSysID sid e]
  | primary (sid : String) (c : Cluster) (v : Bool) (hv : v = (sid == c.SysID)) :
      HealthTrace pod v
        [.IsRunning pod true, .IsLeader true none, .GetSysID sid none, .GetCluster c]
  | switchover (b : Bool) (e : Err) (c : Cluster) (v : Bool) (hn : ¬(b = true ∧ e = none))
      (hsw : c.Switchover ≠ none) :
      HealthTrace pod v [.IsRunning pod true, .IsLeader b e, .GetCluster c,
        .ProcessManualSwitchoverFromNoLeader pod v]
  | ranked (b : Bool) (e : Err) (c : Cluster) (v : Bool) (hn : ¬(b = true ∧ e = none))
      (hsw : c.Switchover = none) :
      HealthTrace pod v [.IsRunning pod true, .IsLeader b e, .GetCluster c,
        .IsHealthiest pod v]

/-- The traces `Ha.acquireLeaderLock` can leave, with the error it returns and
the controller before and after. -/
inductive AcquireTrace (h : Ha) : Err → Ha → List Event → Prop
  | acquired (t0 : Int) (c : Cluster) :
      AcquireTrace h none { h with isLeader := wrapInt64 (t0 + c.ttl) }
        [.AttemptToAcquireLeaderLock h.podName none, .GetCluster c]
  | lost (e : Err) (he : e ≠ none) :
      AcquireTrace h e h [.AttemptToAcquireLeaderLock h.podName e]

/-- The `UpdateLeader` calls the loop of `Ha.updateLockWithRetry` can make with
`n` iterations left: the value of `err` on entry, the error returned, the trace. -/
inductive LoopTrace (pod : String) (opTime : Int) (extra : Extra) :
    Nat → Err → Err → List Event → Prop
  | exhausted (err : Err) : LoopTrace pod opTime extra 0 err err []
  | renewed (n : Nat) (err : Err) :
      LoopTrace pod opTime extra (n + 1) err none [.UpdateLeader pod opTime extra none]
  | retried (n : Nat) (err e res : Err) (t : List Event) (he : e ≠ none)
      (hrest : LoopTrace pod opTime extra n e res t) :
      LoopTrace pod opTime extra (n + 1) err res (.UpdateLeader pod opTime extra e :: t)

/-- The traces `Ha.updateLockWithRetry` can leave, with the error it returns. -/
inductive UpdateTrace (pod : String) (n : Nat) : Err → List Event → Prop
  | mk (ot : Int) (oe : Err) (ex : Extra) (ee res : Err) (t : List Event)
      (hloop : LoopTrace pod (if oe ≠ none then 0 else ot)
        (if ee ≠ none then some [] else ex) n ee res t) :
      UpdateTrace pod n res (.GetOpTime ot oe :: .GetExtra ex ee :: t)

/-- The traces of `if err != nil { ... Demote ... }` after a renewal that
returned `err`. -/
inductive DefensiveTrace (pod : String) : Err → List Event → Prop
  | renewed : DefensiveTrace pod none []
  | demoted (err : Err) (he : err ≠ none) (e : Err) :
      DefensiveTrace pod err [.IsLeader true none, .Demote pod e]
  | kept (err : Err) (he : err ≠ none) (b : Bool) (e : Err) (hn : ¬(b = true ∧ e = none)) :
      DefensiveTrace pod err [.IsLeader b e]

/-- The traces of the end of the leader case: the manual switchover is
processed and, unless it is done, the primary role enforced. -/
inductive YieldTrace (pod : String) : List Event → Prop
  | done (e : Err) : YieldTrace pod [.ProcessManualSwitchoverFromLeader pod true e]
  | enforced (e e' : Err) :
      YieldTrace pod [.ProcessManualSwitchoverFromLeader pod false e, .EnforcePrimaryRole pod e']

/-- The traces of the locked case of a tick, with the controller before and
after. -/
inductive LockedTrace (h : Ha) : Ha → List Event → Prop
  | notMine (c : Cluster) (hc : h.podName ≠ c.leaderName) (t : List Event)
      (ht : FollowTrace h.podName t) :
      LockedTrace h { h with isLeader := 0 } (.GetCluster c :: t)
  | mine (c : Cluster) (hc : h.podName = c.leaderName) (err : Err) (u d y : List Event)
      (hu : UpdateTrace h.podName 3 err u) (hd : DefensiveTrace h.podName err d)
      (hy : YieldTrace h.podName y) :
      LockedTrace h h (.GetCluster c :: (u ++ (d ++ y)))

/-- The traces of the end of the eligible case: the switchover marker is
cleared when one is pending, then the primary role enforced. -/
inductive MarkerTrace (pod : String) : List Event → Prop
  | noMarker (c : Cluster) (hc : c.Switchover = none) (e : Err) :
      MarkerTrace pod [.GetCluster c, .EnforcePrimaryRole pod e]
  | deleteFailed (c : Cluster) (hc : c.Switchover ≠ none) (name : String) (e : Err)
      (he : e ≠ none) :
      MarkerTrace pod [.GetCluster c, .GetClusterCompName name,
        .DeleteConfigMap (name ++ SwitchoverSuffix) e]
  | deleted (c : Cluster) (hc : c.Switchover ≠ none) (name : String) (e : Err) :
      MarkerTrace pod [.GetCluster c, .GetClusterCompName name,
        .DeleteConfigMap (name ++ SwitchoverSuffix) none, .EnforcePrimaryRole pod e]

/-- The traces of the no-leader case of a tick, with the controller before and
after. -/
inductive NoLeaderTrace (h : Ha) : Ha → List Event → Prop
  | acquired (h' : Ha) (ht a m : List Event) (hh : HealthTrace h.podName true ht)
      (ha : AcquireTrace h none h' a) (hm : MarkerTrace h.podName m) :
      NoLeaderTrace h h' (ht ++ (a ++ m))
  | lost (err : Err) (he : err ≠ none) (ht a f m : List Event)
      (hh : HealthTrace h.podName true ht) (ha : AcquireTrace h err h a)
      (hf : FollowTrace h.podName f) (hm : MarkerTrace h.podName m) :
      NoLeaderTrace h h (ht ++ (a ++ (f ++ m)))
  | notEligible (ht f : List Event) (hh : HealthTrace h.podName false ht)
      (hf : FollowTrace h.podName f) :
      NoLeaderTrace h h (ht ++ .Sleep 2 :: f)

/-- The traces of a tick, with the controller before and after. -/
inductive TickTrace (h : Ha) (oldObj newObj : ConfigMap) : Ha → List Event → Prop
  | ignored (hrv : oldObj.ResourceVersion ≠ newObj.ResourceVersion) :
      TickTrace h oldObj newObj h []
  | refreshFailed (hrv : oldObj.ResourceVersion = newObj.ResourceVersion) (e : Err)
      (he : e ≠ none) :
      TickTrace h oldObj newObj h [.GetClusterFromKubernetes e]
  | started (hrv : oldObj.ResourceVersion = newObj.ResourceVersion) (e : Err) :
      TickTrace h oldObj newObj h
        [.GetClusterFromKubernetes none, .IsRunning h.podName false, .Start h.podName e]
  | locked (hrv : oldObj.ResourceVersion = newObj.ResourceVersion) (c : Cluster) (h' : Ha)
      (t : List Event) (ht : LockedTrace h h' t) :
      TickTrace h oldObj newObj h'
        (.GetClusterFromKubernetes none :: .IsRunning h.podName true :: .GetCluster c ::
          .GetCluster c :: .IsLocked true :: t)
  | noLeader (hrv : oldObj.ResourceVersion = newObj.ResourceVersion) (c : Cluster) (h' : Ha)
      (t : List Event) (ht : NoLeaderTrace h h' t) :
      TickTrace h oldObj newObj h'
        (.GetClusterFromKubernetes none :: .IsRunning h.podName true :: .GetCluster c ::
          .GetCluster c :: .IsLocked false :: t)

/-- The operations `Ha.follow` may call. -/
def followOps : List Op :=
  [.GetClusterFromKubernetes, .IsLeader, .Demote, .GetCluster, .HandleFollow]

/-- The operations `Ha.isHealthiest` may call. -/
def healthOps : List Op :=
  [.IsRunning, .IsLeader, .GetSysID, .GetCluster, .ProcessManualSwitchoverFromNoLeader,
    .IsHealthiest]

/-- The operations `Ha.acquireLeaderLock` may call. -/
def acquireOps : List Op := [.AttemptToAcquireLeaderLock, .GetCluster]

/-- The operations `Ha.updateLockWithRetry` may call. -/
def updateOps : List Op := [.GetOpTime, .GetExtra, .UpdateLeader]

/-- The operations of the defensive demotion after a failed renewal. -/
def defensiveOps : List Op := [.IsLeader, .Demote]

/-- The operations of the end of the leader case. -/
def yieldOps : List Op := [.ProcessManualSwitchoverFromLeader, .EnforcePrimaryRole]

/-- The operations of the end of the eligible case. -/
def markerOps : List Op :=
  [.GetCluster, .GetClusterCompName, .DeleteConfigMap, .EnforcePrimaryRole]

/-- The operations the locked case of a tick may call. -/
def lockedOps : List Op :=
  .GetCluster :: (followOps ++ (updateOps ++ (defensiveOps ++ yieldOps)))

/-- The operations the no-leader case of a tick may call. -/
def noLeaderOps : List Op :=
  .Sleep :: (healthOps ++ (acquireOps ++ (followOps ++ markerOps)))

/-- The traces `Ha.Init` can leave after its `IsLeader` retry loop, by the
boolean the loop ended with, and how `Init` ends. -/
inductive InitTail (pod : String) : Bool → Outcome → List Event → Prop
  | follower : InitTail pod false .returned [.Init false "" none 0 pod none]
  | followerFailed (e : Err) (he : e ≠ none) :
      InitTail pod false (.panicked (Err.message e)) [.Init false "" none 0 pod e]
  | notRunning : InitTail pod true (.panicked "db is not running") [.IsRunning pod false]
  | sysIDFailed (sid : String) (e : Err) (he : e ≠ none) :
      InitTail pod true (.panicked (Err.message e)) [.IsRunning pod true, .GetSysID sid e]
  | extraFailed (sid : String) (ex : Extra) (e : Err) (he : e ≠ none) :
      InitTail pod true (.panicked (Err.message e))
        [.IsRunning pod true, .GetSysID sid none, .GetExtra ex e]
  | opTimeFailed (sid : String) (ex : Extra) (ot : Int) (e : Err) (he : e ≠ none) :
      InitTail pod true (.panicked (Err.message e))
        [.IsRunning pod true, .GetSysID sid none, .GetExtra ex none, .GetOpTime ot e]
  | initFailed (sid : String) (ex : Extra) (ot : Int) (e : Err) (he : e ≠ none) :
      InitTail pod true (.panicked (Err.message e))
        [.IsRunning pod true, .GetSysID sid none, .GetExtra ex none, .GetOpTime ot none,
          .Init true sid ex ot pod e]
  | leader (sid : String) (ex : Extra) (ot : Int) :
      InitTail pod true .returned
        [.IsRunning pod true, .GetSysID sid none, .GetExtra ex none, .GetOpTime ot none,
          .Init true sid ex ot pod none]

/-- A small world for the examples: a backing store that holds the lease record,
the copy of it cached by the configuration store, a clock and one database
engine.  Which calls fail, and what the adapter answers, is scripted by the
fields. -/
structure Sim where
  now : Int
  store : Cluster
  cluster : Cluster
  storeAfterRace : Cluster
  compName : String
  refreshErr : Err
  updateErr : Err
  acquireErr : Err
  deleteErr : Err
  initErr : Err
  running : Bool
  primary : Bool × Err
  sysID : String × Err
  opTime : Int × Err
  extra : Extra × Err
  startErr : Err
  demoteErr : Err
  enforceErr : Err
  followErr : Err
  healthiest : Bool
  switchFromLeader : Bool × Err
  switchFromNoLeader : Bool
deriving DecidableEq

/-- The record with `pod` written as leader at time `t`. -/
def Cluster.withLeader (c : Cluster) (pod : String) (t : Int) (extra : Extra) : Cluster :=
  { c with Leader := some { name := pod, renewTime := t, ttl := c.ttl, extra := extra } }

/-- Modelled from the spec: `IsLocked`, a leader is recorded and has not expired
(expiry is `now - leader.renewTime > ttl`, §3). -/
def Cluster.lockedAt (c : Cluster) (t : Int) : Bool :=
  match c.Leader with
  | some l => decide (t - l.renewTime ≤ l.ttl)
  | none => false

/-- The collaborators of the small world.  A successful refresh copies the
store's record into the cache; a successful write changes both; an acquisition
that fails was lost to another writer, whose record the store then holds; a
successful `Init` by a leader seeds the record with it. -/
def simEnv : Env Sim where
  db :=
    { IsLeader := fun s => (s.primary, s)
      IsRunning := fun _ s => (s.running, s)
      GetSysID := fun s => (s.sysID, s)
      GetExtra := fun s => (s.extra, s)
      GetOpTime := fun s => (s.opTime, s)
      Start := fun _ s =>
        (s.startErr, if s.startErr = none then { s with running := true } else s)
      Demote := fun _ s =>
        (s.demoteErr, if s.demoteErr = none then { s with primary := (false, none) } else s)
      EnforcePrimaryRole := fun _ s =>
        (s.enforceErr, if s.enforceErr = none then { s with primary := (true, none) } else s)
      IsHealthiest := fun _ s => (s.healthiest, s)
      ProcessManualSwitchoverFromLeader := fun _ s => (s.switchFromLeader, s)
      ProcessManualSwitchoverFromNoLeader := fun _ s => (s.switchFromNoLeader, s)
      HandleFollow := fun _ _ s => (s.followErr, s) }
  cs :=
    { GetClusterFromKubernetes := fun s =>
        (s.refreshErr, if s.refreshErr = none then { s with cluster := s.store } else s)
      GetCluster := fun s => s.cluster
      GetClusterCompName := fun s => s.compName
      IsLocked := fun c s => c.lockedAt s.now
      UpdateLeader := fun pod _ extra s =>
        (s.updateErr,
          if s.updateErr = none then
            { s with store := s.store.withLeader pod s.now extra,
                     cluster := s.cluster.withLeader pod s.now extra }
          else s)
      AttemptToAcquireLeaderLock := fun pod s =>
        (s.acquireErr,
          if s.acquireErr = none then
            { s with store := s.store.withLeader pod s.now none,
                     cluster := s.cluster.withLeader pod s.now none }
          else { s with store := s.storeAfterRace })
      DeleteConfigMap := fun _ s =>
        (s.deleteErr,
          if s.deleteErr = none then { s with store := { s.store with Switchover := none } }
          else s)
      Init := fun isLeader sysID extra _ pod s =>
        (s.initErr,
          if s.initErr = none ∧ isLeader = true then
            { s with store := { s.store with SysID := sysID }.withLeader pod s.now extra }
          else s)
      UpdateConfigMap := fun _ s => (s.updateErr, s)
      now := fun s => s.now
      sleep := fun n s => { s with now := s.now + n } }

/-- The lease record of group `pg-cluster`: members `pod-0` and `pod-1`, no
leader recorded, no switchover pending. -/
def recNoLeader : Cluster :=
  { SysID := "sys-1", Leader := none, Members := ["pod-0", "pod-1"], Switchover := none,
    ttl := 30 }

/-- The record with `pod-1` as leader, renewed at time 995. -/
def recLeader1 : Cluster := recNoLeader.withLeader "pod-1" 995 none

/-- The record with `pod-0` as leader, renewed at time 995. -/
def recLeader0 : Cluster := recNoLeader.withLeader "pod-0" 995 none

/-- The record with `pod-0` as leader, written at time 1000. -/
def recLeader0At1000 : Cluster := recNoLeader.withLeader "pod-0" 1000 none

/-- The record with `pod-0` as leader and a switchover to `pod-1` pending. -/
def recLeader0Switch1 : Cluster := { recLeader0 with Switchover := some { target := "pod-1" } }

/-- The record without leader and a switchover to `pod-1` pending. -/
def recSwitch1 : Cluster := { recNoLeader with Switchover := some { target := "pod-1" } }

/-- The record without leader and a switchover to `pod-0` pending. -/
def recSwitch0 : Cluster := { recNoLeader with Switchover := some { target := "pod-0" } }

/-- The record with `pod-1` as leader and the switchover to `pod-0` still
pending. -/
def recLeader1Switch0 : Cluster := { recLeader1 with Switchover := some { target := "pod-0" } }

/-- A healthy world around `pod-0` at time 1000: every call succeeds, the engine
runs as a replica, nobody holds the lease; were an acquisition lost, `pod-1`
would be the winner. -/
def simBase : Sim :=
  { now := 1000, store := recNoLeader, cluster := recNoLeader, storeAfterRace := recLeader1
    compName := "pg-cluster"
    refreshErr := none, updateErr := none, acquireErr := none, deleteErr := none
    initErr := none
    running := true, primary := (false, none), sysID := ("sys-1", none)
    opTime := (7, none), extra := (some [("lsn", "42")], none)
    startErr := none, demoteErr := none, enforceErr := none, followErr := none
    healthiest := true, switchFromLeader := (false, none), switchFromNoLeader := false }

/-- The controller of `pod-0`. -/
def ha0 : Ha := { podName := "pod-0", isLeader := 0, dbType := "postgresql" }

/-- The lease record object as a resync delivers it: old and new object carry
the same resource version. -/
def cmResync : ConfigMap :=
  { Name := "pg-cluster-leader", ResourceVersion := "41", Annotations := none }

/-- The lease record object after a write: a new resource version. -/
def cmChanged : ConfigMap :=
  { Name := "pg-cluster-leader", ResourceVersion := "42", Annotations := none }

/-- The world in which `pod-0` is eligible, but loses the acquisition to `pod-1`. -/
def simLostRace : Sim := { simBase with acquireErr := some "conflict" }

/-- The world in which `pod-0` holds the lease and runs as primary while every
renewal write conflicts. -/
def simRenewFails : Sim :=
  { simBase with store := recLeader0, cluster := recLeader0, primary := (true, none),
                 updateErr := some "conflict" }

/-- The world in which `pod-1` holds the lease while the engine of `pod-0` still
runs as primary. -/
def simFormerLeader : Sim :=
  { simBase with store := recLeader1, cluster := recLeader1, primary := (true, none) }

/-- The world in which `pod-0` holds the lease and a switchover to `pod-1` is
pending; the adapter completes it. -/
def simLeaderSwitchover : Sim :=
  { simBase with store := recLeader0Switch1,
                 primary := (true, none), switchFromLeader := (true, none) }

/-- Nobody holds the lease, a switchover to `pod-1` is pending, and the engine
of `pod-0` runs as primary of the same system. -/
def simPrimaryNoLease : Sim :=
  { simBase with store := recSwitch1,
                 primary := (true, none) }

/-- Nobody holds the lease, a switchover to `pod-1` is pending, and `pod-0` is a
replica the adapter does not select. -/
def simNotSelected : Sim :=
  { simBase with store := recSwitch1 }

/-- Nobody holds the lease, a switchover to `pod-0` is pending and `pod-0` is
selected; deleting the marker fails. -/
def simDeleteFails : Sim :=
  { simBase with store := recSwitch0,
                 switchFromNoLeader := true, deleteErr := some "timeout" }

/-- Nobody holds the lease, a switchover to `pod-0` is pending and `pod-0` is
selected, but `pod-1` wins the acquisition. -/
def simLostRaceSwitchover : Sim :=
  { simBase with store := recSwitch0,
                 storeAfterRace := recLeader1Switch0,
                 switchFromNoLeader := true, acquireErr := some "conflict" }

/-- The engine of `pod-0` is down and cannot be started. -/
def simStopped : Sim := { simBase with running := false, startErr := some "exit status 1" }

/-- The world in which the backing store cannot be reached. -/
def simStoreDown : Sim := { simBase with refreshErr := some "timeout" }

/-- The record with `pod-1` as leader in which `pod-0` is not yet a member. -/
def recLeader1Alone : Cluster := { recLeader1 with Members := ["pod-1"] }

/-- The world in which `pod-1` holds the lease and `pod-0`, a running replica,
is not yet listed in the members of the record. -/
def simNotMember : Sim := { simBase with store := recLeader1Alone }

/-- The world in which nobody holds the lease and the adapter ranks `pod-0` as
not the healthiest. -/
def simNotHealthiest : Sim := { simBase with healthiest := false }

/-- The world in which `pod-0` holds the lease and runs as primary, every call
succeeds and no switchover is pending. -/
def simLeader : Sim := { simBase with store := recLeader0, primary := (true, none) }

/-- The world in which `pod-0` holds the lease and the adapter can report
neither its operation time nor its metadata. -/
def simNoProgress : Sim :=
  { simBase with store := recLeader0, primary := (true, none),
                 opTime := (99, some "timeout"), extra := (none, some "timeout") }

/-- The world at startup in which every `IsLeader` query fails and carries the
boolean `true`. -/
def simAmbiguousRole : Sim := { simBase with primary := (true, some "connection refused") }

/-- The world at startup in which the engine reports itself leader and its
`GetSysID` query fails. -/
def simSysIDDown : Sim :=
  { simBase with primary := (true, none), sysID := ("", some "connection refused") }

/-- The world at startup in which every `IsLeader` query fails and carries the
boolean `true`, and the engine is down. -/
def simAmbiguousRoleStopped : Sim := { simAmbiguousRole with running := false }


/-- The Go assignment `m[k] = v` on a non-nil map held as its list of entries. -/
def setEntry (m : List (String × String)) (k v : String) : List (String × String) :=
  if m.any (fun e => e.1 = k) then m.map (fun e => if e.1 = k then (k, v) else e)
  else m ++ [(k, v)]

/-- The call `strconv.FormatInt(i, 10)`. -/
def FormatInt (i : Int) : String := toString i

/-- The filter `FilterFunc` registered by `Ha.HaControl`. -/
def FilterFunc {σ : Type} (env : Env σ) (configMap : ConfigMap) : M σ Bool := do
  let name ← getClusterCompName env
  pure (configMap.Name == name ++ LeaderSuffix)

/-- The handler `AddFunc` registered by `Ha.HaControl`, with `RenewTime` the key
`configuration_store.RenewTime`.  Go evaluates the right-hand side, an `int64`
sum, then assigns; the assignment to an entry of a nil map is a run-time
panic. -/
def AddFunc {σ : Type} (env : Env σ) (RenewTime : String) (obj : ConfigMap) : M σ Outcome := do
  let t ← now env
  match obj.Annotations with
  | none => pure (Outcome.panicked "assignment to entry in nil map")
  | some m =>
    let configMap : ConfigMap :=
      { obj with Annotations := some (setEntry m RenewTime (FormatInt (wrapInt64 (t + 1)))) }
    let _ ← call (env.cs.UpdateConfigMap configMap) (Event.UpdateConfigMap configMap)
    pure Outcome.returned

/-- The adapters `newDbInterface` can build. -/
inductive Adapter
  | postgres
  | mysql
deriving DecidableEq

/-- How a step of the start-up ends: it returns, it panics, or the process has
been ended by the logger. -/
inductive Started (α : Type)
  | returned (a : α)
  | panicked (msg : String)
  | exited (msg : String)
deriving DecidableEq

/-- The adapter operations and pauses of `NewHa`. -/
inductive StartOp
  | Init
  | InitDelay
  | Sleep
deriving DecidableEq

/-- What `NewHa` finds when the process starts: the results of the client set-up
calls, the environment variables `util.HostName` and
`util.KbServiceCharacterType`, the identifiers `binding.Postgresql` and
`binding.Mysql`, whether the logger's `Fatalf` ends the process, and what the
`i`-th call of `InitDelay` returns. -/
structure Startup where
  inClusterConfigErr : Err
  buildConfigErr : Err
  newForConfigErr : Err
  hostName : String
  characterType : String
  Postgresql : String
  Mysql : String
  fatalfExits : Bool
  initDelayErr : Nat → Err

/-- The method `Ha.newDbInterface`; `none` is the nil interface it returns after
`Fatalf`. -/
def newDbInterface (w : Startup) (h : Ha) : Started (Option Adapter) :=
  if h.dbType = w.Postgresql then Started.returned (some Adapter.postgres)
  else if h.dbType = w.Mysql then Started.returned (some Adapter.mysql)
  else if w.fatalfExits then Started.exited ("unknown db type:" ++ h.dbType)
  else Started.returned none

/-- The loop of `NewHa` that calls `InitDelay`: `n` iterations left, `i` calls made. -/
def initDelayLoop (initDelayErr : Nat → Err) : Nat → Nat → List StartOp
  | 0, _ => []
  | n + 1, i =>
    if initDelayErr i = none then [StartOp.InitDelay]
    else StartOp.InitDelay :: StartOp.Sleep :: initDelayLoop initDelayErr n (i + 1)

/-- The function `NewHa`: the controller with its adapter, or how the start-up
ended, and the adapter operations it ran. -/
def NewHa (w : Startup) : Started (Ha × Adapter) × List StartOp :=
  if w.inClusterConfigErr ≠ none ∧ w.buildConfigErr ≠ none then
    (Started.panicked (Err.message w.buildConfigErr), [])
  else if w.newForConfigErr ≠ none then
    (Started.panicked (Err.message w.newForConfigErr), [])
  else
    let ha : Ha := { podName := w.hostName, isLeader := 0, dbType := w.characterType }
    match newDbInterface w ha with
    | Started.exited msg => (Started.exited msg, [])
    | Started.panicked msg => (Started.panicked msg, [])
    | Started.returned none => (Started.panicked "unknown db type", [])
    | Started.returned (some db) =>
      (Started.returned (ha, db), StartOp.Init :: initDelayLoop w.initDelayErr 3 0)

/-- A start-up in which the client set-up succeeds and the engine type is `t`. -/
def startupOf (t : String) (fatalfExits : Bool) : Startup :=
  { inClusterConfigErr := none, buildConfigErr := none, newForConfigErr := none,
    hostName := "pod-0", characterType := t, Postgresql := "postgresql", Mysql := "mysql",
    fatalfExits := fatalfExits, initDelayErr := fun _ => none }

/-- Modelled from the spec: the backing object of the Lease Store, the record
together with its concurrency token (§3, "any write must supply the version it
read and fails if stale"). -/
structure LeaseObject where
  record : Cluster
  token : Nat
deriving DecidableEq

/-- The state the members of a group share: the stored object and the clock. -/
structure Shared where
  object : LeaseObject
  now : Int
deriving DecidableEq

/-- Modelled from the spec: `TryAcquireLeader(member)` (§4.2) by a member that
loaded `view`: a compare-and-swap write that sets the leader only if the loaded
record has no valid leader, and fails with `Conflict` if the token it read is
stale.  A write that succeeds gives the stored object a new token. -/
def TryAcquireLeader (member : String) (view : LeaseObject) (s : Shared) : Err × Shared :=
  if view.record.lockedAt s.now then (some "leader exists", s)
  else if view.token ≠ s.object.token then (some "Conflict", s)
  else
    (none,
      { s with object :=
          { record := view.record.withLeader member s.now none, token := s.object.token + 1 } })

/-- An adapter whose engine is up and answers every query without error. -/
def idleDB {σ : Type} : DB σ :=
  { IsLeader := fun s => ((false, none), s)
    IsRunning := fun _ s => (true, s)
    GetSysID := fun s => (("", none), s)
    GetExtra := fun s => ((none, none), s)
    GetOpTime := fun s => ((0, none), s)
    Start := fun _ s => (none, s)
    Demote := fun _ s => (none, s)
    EnforcePrimaryRole := fun _ s => (none, s)
    IsHealthiest := fun _ s => (true, s)
    ProcessManualSwitchoverFromLeader := fun _ s => ((false, none), s)
    ProcessManualSwitchoverFromNoLeader := fun _ s => (true, s)
    HandleFollow := fun _ _ s => (none, s) }

/-- The collaborators of a member that loaded `view` and does not reload: its
acquisition is the compare-and-swap on the shared object. -/
def casEnv (view : LeaseObject) : Env Shared where
  db := idleDB
  cs :=
    { GetClusterFromKubernetes := fun s => (none, s)
      GetCluster := fun _ => view.record
      GetClusterCompName := fun _ => ""
      IsLocked := fun c s => c.lockedAt s.now
      UpdateLeader := fun _ _ _ s => (none, s)
      AttemptToAcquireLeaderLock := fun pod s => TryAcquireLeader pod view s
      DeleteConfigMap := fun _ s => (none, s)
      Init := fun _ _ _ _ _ s => (none, s)
      UpdateConfigMap := fun _ s => (none, s)
      now := fun s => s.now
      sleep := fun _ s => s }

/-- The members `hs`, each holding the same loaded `view`, call
`acquireLeaderLock` one after the other on the shared object: for each call the
controller that made it, the error it returned and the controller it left. -/
def acquireAll (view : LeaseObject) : List Ha → Shared → List (Ha × Err × Ha)
  | [], _ => []
  | h :: hs, s =>
    (h, (acquireLeaderLock (casEnv view) h s).val) ::
      acquireAll view hs (acquireLeaderLock (casEnv view) h s).st

/-- The tick gets as far as reading the record: the notification is a resync
(old and new resource version agree), the refresh succeeds and the engine is
running. -/
def ReadsRecord {σ : Type} (env : Env σ) (h : Ha) (o n : ConfigMap) (s : σ) : Prop :=
  o.ResourceVersion = n.ResourceVersion ∧ (env.cs.GetClusterFromKubernetes s).1 = none ∧
    (env.db.IsRunning h.podName (env.cs.GetClusterFromKubernetes s).2).1 = true

/-- Whether the record the tick reads shows a valid leader: the answer of
`IsLocked` in the state in which the tick decides. -/
def recordLocked {σ : Type} (env : Env σ) (h : Ha) (s : σ) : Bool :=
  env.cs.IsLocked (env.cs.GetCluster (decisionState env h s)) (decisionState env h s)

/-- The state in which `isHealthiest`, called by the tick, asks the engine for
its role. -/
def roleState {σ : Type} (env : Env σ) (h : Ha) (s : σ) : σ :=
  (env.db.IsRunning h.podName (decisionState env h s)).2

/-- The state that query leaves. -/
def afterRole {σ : Type} (env : Env σ) (h : Ha) (s : σ) : σ :=
  (env.db.IsLeader (roleState env h s)).2

/-- The engine of the member is running and reports itself primary, without
error, and the sysID it reports, without error, is the record's: what
`isHealthiest` finds on its first way to true. -/
def SelfPrimary {σ : Type} (env : Env σ) (h : Ha) (s : σ) : Prop :=
  (env.db.IsRunning h.podName (decisionState env h s)).1 = true ∧
    (env.db.IsLeader (roleState env h s)).1 = (true, none) ∧
    (env.db.GetSysID (afterRole env h s)).1.2 = none ∧
    (env.db.GetSysID (afterRole env h s)).1.1 =
      (env.cs.GetCluster (env.db.GetSysID (afterRole env h s)).2).SysID

/-- The state right after the acquisition call of a tick that gets to it. -/
def acquiredState {σ : Type} (env : Env σ) (h : Ha) (s : σ) : σ :=
  (env.cs.AttemptToAcquireLeaderLock h.podName
    (isHealthiest env h (decisionState env h s)).st).2

/-- What the acquisition call of a tick that gets to it returns. -/
def acquisitionResult {σ : Type} (env : Env σ) (h : Ha) (s : σ) : Err :=
  (env.cs.AttemptToAcquireLeaderLock h.podName
    (isHealthiest env h (decisionState env h s)).st).1

/-- The state in which a tick that found the member not eligible starts
`follow`, after the pause. -/
def followState {σ : Type} (env : Env σ) (h : Ha) (s : σ) : σ :=
  env.cs.sleep 2 (isHealthiest env h (decisionState env h s)).st

/-- What the refresh at the head of that `follow` returns. -/
def followRefresh {σ : Type} (env : Env σ) (h : Ha) (s : σ) : Err :=
  (env.cs.GetClusterFromKubernetes (followState env h s)).1

/-- The state in which that `follow`, its refresh done, asks the engine for its
role. -/
def followRoleState {σ : Type} (env : Env σ) (h : Ha) (s : σ) : σ :=
  (env.cs.GetClusterFromKubernetes (followState env h s)).2

/-- The role the engine reports to that `follow`. -/
def followRole {σ : Type} (env : Env σ) (h : Ha) (s : σ) : Bool × Err :=
  (env.db.IsLeader (followRoleState env h s)).1

/-- The record as that `follow` reads it, after its refresh and the role
query. -/
def followRecord {σ : Type} (env : Env σ) (h : Ha) (s : σ) : Cluster :=
  env.cs.GetCluster (env.db.IsLeader (followRoleState env h s)).2

/-- The collaborators of the small world, with an adapter that selects a member
for a pending switchover exactly when the switchover names it. -/
def targetEnv : Env Sim where
  db :=
    { simEnv.db with
      ProcessManualSwitchoverFromNoLeader := fun pod s =>
        (match s.cluster.Switchover with
          | some sw => sw.target == pod
          | none => false, s) }
  cs := simEnv.cs

/-- Nobody holds the lease and the engine of `pod-0` runs as primary of another
system than the record's: it is not eligible. -/
def simRoguePrimary : Sim := { simBase with primary := (true, none), sysID := ("sys-2", none) }

/-- The controller of `pod-0` that believes it holds the lease until 1025. -/
def ha0Leader : Ha := { podName := "pod-0", isLeader := 1025, dbType := "postgresql" }

/-- The record without leader whose ttl is the largest `int64`. -/
def recHugeTtl : Cluster := { recNoLeader with ttl := 9223372036854775807 }

/-- The world `simBase` with the record `recHugeTtl`. -/
def simHugeTtl : Sim := { simBase with store := recHugeTtl, cluster := recHugeTtl }

/-- The lease object that holds `recNoLeader` under token 7. -/
def objNoLeader : LeaseObject := { record := recNoLeader, token := 7 }

/-- The controller of member `pod-1`. -/
def ha1 : Ha := { podName := "pod-1", isLeader := 0, dbType := "postgresql" }

/-- A lease record object that carries no annotations. -/
def cmBare : ConfigMap := { Name := "pg-cluster-leader", ResourceVersion := "1", Annotations := none }

/-- A lease record object with an annotation. -/
def cmAnnotated : ConfigMap :=
  { Name := "pg-cluster-leader", ResourceVersion := "1", Annotations := some [("ttl", "30")] }

end ha

namespace dag

/-- A value held in the empty interface `Vertex`: the nil interface, an int, or
any other comparable value, told apart by a name. -/
inductive Vertex
  | nil
  | int (i : Int)
  | obj (name : String)
deriving DecidableEq

/-- An edge (`realEdge`) with the endpoints it reports. -/
structure Edge where
  F : Vertex
  T : Vertex
deriving DecidableEq

/-- The method `From` of an edge. -/
def Edge.From (e : Edge) : Vertex := e.F

/-- The method `To` of an edge. -/
def Edge.To (e : Edge) : Vertex := e.T

/-- The graph `DAG`: the keys of its two maps, each as the list in the order in
which a `range` loop visits them. -/
structure DAG where
  vertices : List Vertex
  edges : List Edge
deriving DecidableEq

/-- An `error` value: `none` is nil. -/
abbrev Err := Option String

/-- The method `DAG.AddVertex`. -/
def DAG.AddVertex (d : DAG) (v : Vertex) : Bool × DAG :=
  if v = Vertex.nil then (false, d)
  else (true, { d with vertices := if v ∈ d.vertices then d.vertices else d.vertices ++ [v] })

/-- The method `DAG.RemoveVertex`. -/
def DAG.RemoveVertex (d : DAG) (v : Vertex) : Bool × DAG :=
  if v = Vertex.int 0 then (true, d)
  else (true, { d with edges := d.edges.filter (fun k => ¬ (k.From = v ∨ k.To = v)) })

/-- The method `DAG.Connect`; the new edge is a key the map did not hold. -/
def DAG.Connect (d : DAG) (src dst : Vertex) : Bool × DAG :=
  if src = Vertex.nil ∨ dst = Vertex.nil then (false, d)
  else if d.edges.any (fun k => k.From = src ∧ k.To = dst) then (true, d)
  else (true, { d with edges := d.edges ++ [{ F := src, T := dst }] })

/-- The method `DAG.outAdj`: the vertices `v` points to. -/
def DAG.outAdj (d : DAG) (v : Vertex) : List Vertex :=
  (d.edges.filter (fun e => e.From = v)).map Edge.To

/-- The method `DAG.inAdj`: the vertices that point to `v`. -/
def DAG.inAdj (d : DAG) (v : Vertex) : List Vertex :=
  (d.edges.filter (fun e => e.To = v)).map Edge.From

/-- The method `DAG.root`. -/
def DAG.root (d : DAG) : Vertex :=
  let roots := d.vertices.filter (fun n => (d.inAdj n).length = 0)
  if roots.length ≠ 1 then Vertex.nil else roots.headD Vertex.nil

/-- A `for _, vertex := range vs` loop whose body `f` may not come back. -/
def forEach {σ : Type} (f : Vertex → σ → Option σ) : List Vertex → σ → Option σ
  | [], s => some s
  | v :: vs, s =>
    match f v s with
    | none => none
    | some s1 => forEach f vs s1

/-- The two maps of `validate`, each as the list of its keys set to true. -/
structure Marks where
  walked : List Vertex
  marked : List Vertex
deriving DecidableEq

/-- The closure `walk` of `validate`, run with a bound `fuel` on the depth of
the recursion; `none` when the bound is hit.  The value a nested call returns is
dropped, as in the source. -/
def validateWalk (d : DAG) : Nat → Vertex → Marks → Option (Err × Marks)
  | 0, _, _ => none
  | fuel + 1, v, m =>
    if v ∈ m.walked then some (none, m)
    else if v ∈ m.marked then some (some "cycle found", m)
    else
      match forEach (fun vertex m1 => (validateWalk d fuel vertex m1).map Prod.snd) (d.outAdj v)
          { m with marked := v :: m.marked } with
      | none => none
      | some m1 =>
        some (none, { walked := v :: m1.walked, marked := m1.marked.filter (fun x => x ≠ v) })

/-- The last loop of `validate`, over the vertices. -/
def validateLoop (d : DAG) (fuel : Nat) : List Vertex → Marks → Option Err
  | [], _ => some none
  | v :: vs, m =>
    match validateWalk d fuel v m with
    | none => none
    | some (some e, _) => some (some e)
    | some (none, m1) => validateLoop d fuel vs m1

/-- The method `DAG.validate`: the error it returns, or `none` when the bound on
the recursion is hit. -/
def DAG.validate (fuel : Nat) (d : DAG) : Option Err :=
  if d.root = Vertex.nil then some (some "no single root found")
  else if d.edges.any (fun e => e.From = e.To) then some (some "self-cycle found")
  else validateLoop d fuel d.vertices { walked := [], marked := [] }

/-- The variables `walked` and `orders` of `topologicalOrder`. -/
structure Walk where
  walked : List Vertex
  orders : List Vertex
deriving DecidableEq

/-- The slice `adjacent` in the closure `walk` of `topologicalOrder`. -/
def DAG.adjacent (d : DAG) (reverse : Bool) (v : Vertex) : List Vertex :=
  if reverse then d.outAdj v else d.inAdj v

/-- The closure `walk` of `topologicalOrder`, run with a bound `fuel` on the
depth of the recursion; `none` when the bound is hit. -/
def topoWalk (d : DAG) (reverse : Bool) : Nat → Vertex → Walk → Option Walk
  | 0, _, _ => none
  | fuel + 1, v, w =>
    if v ∈ w.walked then some w
    else
      match forEach (fun vertex w1 => topoWalk d reverse fuel vertex w1) (d.adjacent reverse v) w with
      | none => none
      | some w1 => some { walked := v :: w1.walked, orders := w1.orders ++ [v] }

/-- The method `DAG.topologicalOrder`. -/
def DAG.topologicalOrder (fuel : Nat) (d : DAG) (reverse : Bool) : Option (List Vertex) :=
  (forEach (fun v w => topoWalk d reverse fuel v w) d.vertices { walked := [], orders := [] }).map
    Walk.orders

/-- The loop of `WalkTopoOrder` over `orders`: the error returned, the vertices
`walkFunc` was called on, in order, and the state it left. -/
def walkAll {σ : Type} (walkFunc : Vertex → σ → Err × σ) : List Vertex → σ → Err × List Vertex × σ
  | [], s => (none, [], s)
  | v :: vs, s =>
    match walkFunc v s with
    | (some e, s1) => (some e, [v], s1)
    | (none, s1) => ((walkAll walkFunc vs s1).1, v :: (walkAll walkFunc vs s1).2.1,
        (walkAll walkFunc vs s1).2.2)

/-- The body shared by `WalkTopoOrder` and `WalkReverseTopoOrder`. -/
def DAG.walkOrder {σ : Type} (fuel : Nat) (d : DAG) (reverse : Bool)
    (walkFunc : Vertex → σ → Err × σ) (s : σ) : Option (Err × List Vertex × σ) :=
  match d.validate fuel with
  | none => none
  | some (some e) => some (some e, [], s)
  | some none =>
    match d.topologicalOrder fuel reverse with
    | none => none
    | some orders => some (walkAll walkFunc orders s)

/-- The method `DAG.WalkTopoOrder`. -/
def DAG.WalkTopoOrder {σ : Type} (fuel : Nat) (d : DAG) (walkFunc : Vertex → σ → Err × σ)
    (s : σ) : Option (Err × List Vertex × σ) :=
  d.walkOrder fuel false walkFunc s

/-- The method `DAG.WalkReverseTopoOrder`. -/
def DAG.WalkReverseTopoOrder {σ : Type} (fuel : Nat) (d : DAG)
    (walkFunc : Vertex → σ → Err × σ) (s : σ) : Option (Err × List Vertex × σ) :=
  d.walkOrder fuel true walkFunc s

/-- There is an edge from `a` to `b`. -/
def DAG.HasEdge (d : DAG) (a b : Vertex) : Prop := ∃ e ∈ d.edges, e.From = a ∧ e.To = b

/-- No vertex is reached from itself along one or more edges. -/
def DAG.Acyclic (d : DAG) : Prop := ∀ v, ¬ Relation.TransGen d.HasEdge v v

/-- Both endpoints of every edge are in the vertex set. -/
def DAG.Closed (d : DAG) : Prop := ∀ e ∈ d.edges, e.From ∈ d.vertices ∧ e.To ∈ d.vertices

/-- Exactly one vertex has no edge into it. -/
def DAG.SingleRoot (d : DAG) : Prop :=
  ∃ r ∈ d.vertices, ∀ v ∈ d.vertices, (∀ e ∈ d.edges, e.To ≠ v) ↔ v = r

/-- The vertex map holds every key once, and never nil (`AddVertex` refuses it). -/
def DAG.WellFormed (d : DAG) : Prop := d.vertices.Nodup ∧ Vertex.nil ∉ d.vertices

/-- The order in which `topologicalOrder` has appended vertices so far is good
for the relation `R`: each vertex was appended once, after everything that `R`
puts before it. -/
inductive GoodOrder (R : Vertex → Vertex → Prop) : List Vertex → Prop
  | nil : GoodOrder R []
  | snoc (l : List Vertex) (v : Vertex) : GoodOrder R l → v ∉ l → (∀ u, R u v → u ∈ l) →
      GoodOrder R (l ++ [v])

/-- The state of `topologicalOrder` is good: the order is, and `walked` marks
the vertices in it. -/
def GoodWalk (R : Vertex → Vertex → Prop) (w : Walk) : Prop :=
  GoodOrder R w.orders ∧ ∀ x, x ∈ w.walked ↔ x ∈ w.orders

/-- The vertices `root`, `a`, `b`, `c` of the examples. -/
def vRoot : Vertex := Vertex.obj "root"

/-- The vertex `a`. -/
def vA : Vertex := Vertex.obj "a"

/-- The vertex `b`. -/
def vB : Vertex := Vertex.obj "b"

/-- The vertex `c`. -/
def vC : Vertex := Vertex.obj "c"

/-- The graph root → a → b → a: one root, and a cycle of length two. -/
def dCycle : DAG :=
  { vertices := [vRoot, vA, vB],
    edges := [{ F := vA, T := vB }, { F := vB, T := vA }, { F := vRoot, T := vA }] }

/-- The diamond root → a → c, root → b → c. -/
def dDiamond : DAG :=
  { vertices := [vC, vA, vRoot, vB],
    edges := [{ F := vRoot, T := vA }, { F := vRoot, T := vB }, { F := vA, T := vC },
      { F := vB, T := vC }] }

/-- The place of each vertex of the diamond, counted from the root. -/
def diamondRank : Vertex → Nat
  | Vertex.obj "root" => 0
  | Vertex.obj "a" => 1
  | Vertex.obj "b" => 1
  | _ => 2

/-- A walk function that writes down the vertices it is called on, in order,
and never fails. -/
def recordCall (v : Vertex) (l : List Vertex) : Err × List Vertex := (none, l ++ [v])

/-- A walk function that counts its calls and never fails. -/
def countCalls (_v : Vertex) (n : Nat) : Err × Nat := (none, n + 1)

end dag

namespace lifecycle

/-- An `error` value: `none` is nil. -/
abbrev Err := Option String

/-- The type `appsv1alpha1.Phase`. -/
abbrev Phase := String

/-- The phase constants of `appsv1alpha1` the function reads. -/
structure Phases where
  ConditionsErrorPhase : Phase
  CreatingPhase : Phase
  SpecUpdatingPhase : Phase
deriving DecidableEq

/-- An entry of the slice `opsutil.GetOpsRequestSliceFromCluster` returns. -/
structure OpsRecorder where
  Name : String
  ToClusterPhase : Phase
deriving DecidableEq

/-- The status of a cluster, `appsv1alpha1.ClusterStatus`. -/
structure ClusterStatus where
  Phase : Phase
  ObservedGeneration : Int
  Message : String
deriving DecidableEq

/-- The object `appsv1alpha1.Cluster`. -/
structure Cluster where
  Name : String
  Generation : Int
  Annotations : List (String × String)
  Status : ClusterStatus
deriving DecidableEq

/-- The assignment `cluster.Status.Phase = p`. -/
def Cluster.setPhase (cluster : Cluster) (p : Phase) : Cluster :=
  { cluster with Status := { cluster.Status with Phase := p } }

/-- The function `updateClusterPhaseWhenConditionsError`, with `k` the phase
constants and `GetOpsRequestSliceFromCluster` the function of `opsutil` it
calls, whose error it drops; the match is the test `len(opsRequestSlice) == 0`
followed by `opsRequestSlice[0]`. -/
def updateClusterPhaseWhenConditionsError (k : Phases)
    (GetOpsRequestSliceFromCluster : Cluster → List OpsRecorder × Err) (cluster : Cluster) :
    Cluster :=
  if cluster.Status.Phase ≠ k.ConditionsErrorPhase then cluster
  else if cluster.Status.ObservedGeneration = 0 then cluster.setPhase k.CreatingPhase
  else
    match (GetOpsRequestSliceFromCluster cluster).1 with
    | [] => cluster.setPhase k.SpecUpdatingPhase
    | r :: _ => cluster.setPhase r.ToClusterPhase

/-- The phase constants by their names. -/
def phases : Phases :=
  { ConditionsErrorPhase := "ConditionsError", CreatingPhase := "Creating",
    SpecUpdatingPhase := "SpecUpdating" }

/-- A cluster in phase `ConditionsError` that has been observed before. -/
def clusterInError : Cluster :=
  { Name := "pg", Generation := 2, Annotations := [],
    Status := { Phase := "ConditionsError", ObservedGeneration := 1, Message := "apply failed" } }

end lifecycle

namespace operations

/-- An `error` value: `none` is nil. -/
abbrev Err := Option String

/-- The type `dbaasv1alpha1.Phase`. -/
abbrev Phase := String

/-- An entry of `OpsRequest.Spec.ComponentOpsList`. -/
structure ComponentOps where
  ComponentNames : List String
deriving DecidableEq

/-- An entry of `OpsRequest.Status.Components`. -/
structure OpsRequestStatusComponent where
  Phase : Phase
deriving DecidableEq

/-- An entry of `Cluster.Status.Components`. -/
structure ClusterStatusComponent where
  Phase : Phase
  Message : String
deriving DecidableEq

/-- The fields of `OpsRequest` the function reads or writes; `none` is a nil
slice or a nil map, and a map is the list of its entries. -/
structure OpsRequest where
  Name : String
  ComponentOpsList : Option (List ComponentOps)
  StatusComponents : Option (List (String × OpsRequestStatusComponent))
deriving DecidableEq

/-- The fields of `Cluster` the function reads: the map `Status.Components` as
the list of its entries in the order a `range` loop visits them. -/
structure Cluster where
  StatusComponents : List (String × ClusterStatusComponent)
deriving DecidableEq

/-- The argument `OpsResource`. -/
structure OpsResource where
  OpsRequest : OpsRequest
  Cluster : Cluster
deriving DecidableEq

/-- The Go assignment `m[k] = v` on a map held as the list of its entries. -/
def mapSet {α : Type} : List (String × α) → String → α → List (String × α)
  | [], k, v => [(k, v)]
  | e :: m, k, v => if k = e.1 then (k, v) :: m else e :: mapSet m k v

/-- The function `getAllComponentsNameMap`. -/
def getAllComponentsNameMap (opsRequest : OpsRequest) : List (String × ComponentOps) :=
  match opsRequest.ComponentOpsList with
  | none => []
  | some l =>
    l.foldl (fun m componentOps => componentOps.ComponentNames.foldl
      (fun m1 v => mapSet m1 v componentOps) m) []

/-- The variables the loop of `ReconcileActionWithComponentOps` updates: the two
flags, the map `opsRequest.Status.Components` and the events sent. -/
structure LoopState where
  isOk : Bool
  isChanged : Bool
  components : List (String × OpsRequestStatusComponent)
  events : List (String × Phase)
deriving DecidableEq

/-- One pass of the loop body of `ReconcileActionWithComponentOps`. -/
def loopBody (RunningPhase : Phase) (componentNameMap : List (String × ComponentOps))
    (st : LoopState) (kv : String × ClusterStatusComponent) : LoopState :=
  match componentNameMap.lookup kv.1 with
  | none => st
  | some _ =>
    let st1 := if kv.2.Phase ≠ RunningPhase then { st with isOk := false } else st
    match st1.components.lookup kv.1 with
    | none =>
      { st1 with isChanged := true, components := mapSet st1.components kv.1 { Phase := kv.2.Phase },
                 events := st1.events ++ [(kv.1, kv.2.Phase)] }
    | some statusComponent =>
      if statusComponent.Phase ≠ kv.2.Phase then
        { st1 with isChanged := true,
                   components := mapSet st1.components kv.1 { Phase := kv.2.Phase },
                   events := st1.events ++ [(kv.1, kv.2.Phase)] }
      else st1

/-- The function `ReconcileActionWithComponentOps`, with `Patch` the call
`opsRes.Client.Status().Patch` and `RunningPhase` the constant of
`dbaasv1alpha1`: the error returned, the request as left, the events sent. -/
def ReconcileActionWithComponentOps (Patch : OpsRequest → Err) (RunningPhase : Phase)
    (opsRes : OpsResource) : Err × OpsRequest × List (String × Phase) :=
  let opsRequest := opsRes.OpsRequest
  let componentNameMap := getAllComponentsNameMap opsRequest
  let st := opsRes.Cluster.StatusComponents.foldl (loopBody RunningPhase componentNameMap)
    { isOk := true, isChanged := false, components := opsRequest.StatusComponents.getD [],
      events := [] }
  let opsRequest1 := { opsRequest with StatusComponents := some st.components }
  if st.isChanged ∧ Patch opsRequest1 ≠ none then (Patch opsRequest1, opsRequest1, st.events)
  else if !st.isOk then (some "opsRequest is not completed", opsRequest1, st.events)
  else (none, opsRequest1, st.events)

/-- Whether the component `k` is named in the request's `ComponentOpsList`. -/
def OpsRequest.Names (opsRequest : OpsRequest) (k : String) : Bool :=
  (opsRequest.ComponentOpsList.getD []).any (fun c => decide (k ∈ c.ComponentNames))

/-- A request on the components `mysql` and `proxy`, with no status yet. -/
def opsTwo : OpsRequest :=
  { Name := "restart", ComponentOpsList := some [{ ComponentNames := ["mysql"] },
      { ComponentNames := ["proxy"] }], StatusComponents := none }

/-- A cluster whose named components run while `etcd` is updating. -/
def clusterRunning : Cluster :=
  { StatusComponents := [("mysql", { Phase := "Running", Message := "" }),
      ("etcd", { Phase := "Updating", Message := "" }),
      ("proxy", { Phase := "Running", Message := "" })] }

end operations

namespace ha
theorem ite_run {σ α : Type} (c : Prop) [Decidable c] (a b : M σ α) (s : σ) :
    (if c then a else b) s = if c then a s else b s := by
  split <;> rfl

theorem bind_trace {σ α β : Type} (m : M σ α) (k : α → M σ β) (s : σ) :
    ((m >>= k) s).trace = (m s).trace ++ (k (m s).val (m s).st).trace := rfl

theorem bind_val {σ α β : Type} (m : M σ α) (k : α → M σ β) (s : σ) :
    ((m >>= k) s).val = (k (m s).val (m s).st).val := rfl

theorem bind_st {σ α β : Type} (m : M σ α) (k : α → M σ β) (s : σ) :
    ((m >>= k) s).st = (k (m s).val (m s).st).st := rfl

theorem pure_trace {σ α : Type} (a : α) (s : σ) : ((pure a : M σ α) s).trace = [] := rfl

theorem pure_val {σ α : Type} (a : α) (s : σ) : ((pure a : M σ α) s).val = a := rfl

theorem pure_st {σ α : Type} (a : α) (s : σ) : ((pure a : M σ α) s).st = s := rfl

theorem call_trace {σ α : Type} (f : σ → α × σ) (ev : α → Event) (s : σ) :
    (call f ev s).trace = [ev (f s).1] := rfl

theorem call_val {σ α : Type} (f : σ → α × σ) (ev : α → Event) (s : σ) :
    (call f ev s).val = (f s).1 := rfl

theorem call_st {σ α : Type} (f : σ → α × σ) (ev : α → Event) (s : σ) :
    (call f ev s).st = (f s).2 := rfl

theorem getCluster_trace {σ : Type} (env : Env σ) (s : σ) :
    (getCluster env s).trace = [Event.GetCluster (env.cs.GetCluster s)] := rfl

theorem getCluster_val {σ : Type} (env : Env σ) (s : σ) :
    (getCluster env s).val = env.cs.GetCluster s := rfl

theorem getCluster_st {σ : Type} (env : Env σ) (s : σ) : (getCluster env s).st = s := rfl

theorem getClusterCompName_trace {σ : Type} (env : Env σ) (s : σ) :
    (getClusterCompName env s).trace = [Event.GetClusterCompName (env.cs.GetClusterCompName s)] :=
  rfl

theorem getClusterCompName_val {σ : Type} (env : Env σ) (s : σ) :
    (getClusterCompName env s).val = env.cs.GetClusterCompName s := rfl

theorem getClusterCompName_st {σ : Type} (env : Env σ) (s : σ) :
    (getClusterCompName env s).st = s := rfl

theorem isLocked_trace {σ : Type} (env : Env σ) (c : Cluster) (s : σ) :
    (isLocked env c s).trace = [Event.IsLocked (env.cs.IsLocked c s)] := rfl

theorem isLocked_val {σ : Type} (env : Env σ) (c : Cluster) (s : σ) :
    (isLocked env c s).val = env.cs.IsLocked c s := rfl

theorem isLocked_st {σ : Type} (env : Env σ) (c : Cluster) (s : σ) :
    (isLocked env c s).st = s := rfl

theorem touchMember_trace {σ : Type} (env : Env σ) (h : Ha) (s : σ) :
    (touchMember env h s).trace = [] := rfl

theorem touchMember_st {σ : Type} (env : Env σ) (h : Ha) (s : σ) :
    (touchMember env h s).st = s := rfl

theorem now_trace {σ : Type} (env : Env σ) (s : σ) : (now env s).trace = [] := rfl

theorem now_val {σ : Type} (env : Env σ) (s : σ) : (now env s).val = env.cs.now s := rfl

theorem now_st {σ : Type} (env : Env σ) (s : σ) : (now env s).st = s := rfl

theorem sleep_trace {σ : Type} (env : Env σ) (n : Nat) (s : σ) :
    (sleep env n s).trace = [Event.Sleep n] := rfl

theorem sleep_st {σ : Type} (env : Env σ) (n : Nat) (s : σ) :
    (sleep env n s).st = env.cs.sleep n s := rfl

theorem follow_shape {σ : Type} (env : Env σ) (h : Ha) (s : σ) :
    FollowTrace h.podName (follow env h s).trace := by
  simp only [follow, ite_run, bind_trace, bind_val, bind_st, pure_trace, call_trace, call_val,
    call_st, apply_ite Res.trace, getCluster_trace, getCluster_val, getCluster_st,
    List.singleton_append, List.append_nil]
  split_ifs with h1 h2
  · exact .refreshFailed _ h1
  · rw [not_not.mp h1, h2.1, h2.2]
    exact .demoted _
  · rw [not_not.mp h1]
    exact .followed _ _ _ _ h2

theorem isHealthiest_shape {σ : Type} (env : Env σ) (h : Ha) (s : σ) :
    HealthTrace h.podName (isHealthiest env h s).val (isHealthiest env h s).trace := by
  simp only [isHealthiest, ite_run, bind_trace, bind_val, bind_st, pure_trace, pure_val,
    call_trace, call_val, call_st, apply_ite Res.trace, apply_ite Res.val,
    getCluster_trace, getCluster_val, getCluster_st, List.singleton_append, List.append_nil]
  split_ifs with h1 h2 h3 h4
  · simp only [Bool.not_eq_true'] at h1
    rw [h1]
    exact .notRunning
  · simp only [Bool.not_eq_true', Bool.not_eq_false] at h1
    rw [h1, h2.1, h2.2]
    exact .sysIDFailed _ _ h3
  · simp only [Bool.not_eq_true', Bool.not_eq_false] at h1
    rw [h1, h2.1, h2.2, not_not.mp h3]
    exact .primary _ _ _ rfl
  · simp only [Bool.not_eq_true', Bool.not_eq_false] at h1
    rw [h1]
    exact .switchover _ _ _ _ h2 h4
  · simp only [Bool.not_eq_true', Bool.not_eq_false] at h1
    rw [h1]
    exact .ranked _ _ _ _ h2 (not_not.mp h4)

theorem acquireLeaderLock_shape {σ : Type} (env : Env σ) (h : Ha) (s : σ) :
    AcquireTrace h (acquireLeaderLock env h s).val.1 (acquireLeaderLock env h s).val.2
      (acquireLeaderLock env h s).trace := by
  simp only [acquireLeaderLock, setLeader, if_true, ite_run, bind_trace, bind_val, bind_st,
    pure_trace, pure_val, call_trace, call_val, call_st, apply_ite Res.trace, apply_ite Res.val,
    apply_ite Prod.fst, apply_ite Prod.snd,
    getCluster_trace, getCluster_val, getCluster_st, now_trace, now_val, now_st,
    List.singleton_append, List.append_nil, List.nil_append]
  split_ifs with h1
  · rw [h1]
    exact .acquired _ _
  · exact .lost _ h1

theorem updateLoop_shape {σ : Type} (env : Env σ) (h : Ha) (opTime : Int) (extra : Extra)
    (n : Nat) : ∀ (err : Err) (s : σ),
    LoopTrace h.podName opTime extra n err (updateLoop env h opTime extra n err s).val
      (updateLoop env h opTime extra n err s).trace := by
  induction n with
  | zero =>
    intro err s
    exact .exhausted err
  | succ n ih =>
    intro err s
    simp only [updateLoop, ite_run, bind_trace, bind_val, bind_st, pure_trace, pure_val,
      call_trace, call_val, call_st, apply_ite Res.trace, apply_ite Res.val,
      List.singleton_append, List.append_nil]
    split_ifs with h1
    · rw [h1]
      exact .renewed n err
    · exact .retried n err _ _ _ h1 (ih _ _)

theorem updateLockWithRetry_shape {σ : Type} (env : Env σ) (h : Ha) (n : Nat) (s : σ) :
    UpdateTrace h.podName n (updateLockWithRetry env h n s).val
      (updateLockWithRetry env h n s).trace := by
  simp only [updateLockWithRetry, bind_trace, bind_val, bind_st, call_trace, call_val, call_st,
    List.singleton_append]
  exact .mk _ _ _ _ _ _ (updateLoop_shape env h _ _ n _ _)

theorem acquireLeaderLock_podName {σ : Type} (env : Env σ) (h : Ha) (s : σ) :
    (acquireLeaderLock env h s).val.2.podName = h.podName := by
  have hs := acquireLeaderLock_shape env h s
  generalize (acquireLeaderLock env h s).val.1 = e at hs
  generalize (acquireLeaderLock env h s).val.2 = h' at hs
  generalize (acquireLeaderLock env h s).trace = t at hs
  cases hs <;> rfl

theorem lockedBranch_shape {σ : Type} (env : Env σ) (h : Ha) (s : σ) :
    LockedTrace h (lockedBranch env h s).val (lockedBranch env h s).trace := by
  have hu := updateLockWithRetry_shape env h 3 s
  simp only [lockedBranch, hasLock, setLeader, ite_run, bind_trace, bind_val, bind_st,
    pure_trace, pure_val, pure_st, call_trace, call_val, call_st, apply_ite Res.trace,
    apply_ite Res.val, apply_ite Res.st, getCluster_trace, getCluster_val, getCluster_st,
    List.singleton_append, List.append_nil, List.nil_append, Bool.false_eq_true, if_false,
    Bool.not_eq_true', beq_eq_false_iff_ne, ne_eq]
  split_ifs with h1 h2 h3 h4 h5 h6
  · rw [h2] at hu
    rw [h3]
    exact .mine _ h1 none _ [] _ hu .renewed (.done _)
  · rw [h2] at hu
    rw [Bool.not_eq_true] at h3
    rw [h3]
    exact .mine _ h1 none _ [] _ hu .renewed (.enforced _ _)
  · rw [h4.1, h4.2, h5]
    exact .mine _ h1 _ _ _ _ hu (.demoted _ h2 _) (.done _)
  · rw [Bool.not_eq_true] at h5
    rw [h4.1, h4.2, h5]
    exact .mine _ h1 _ _ _ _ hu (.demoted _ h2 _) (.enforced _ _)
  · rw [h6]
    exact .mine _ h1 _ _ _ _ hu (.kept _ h2 _ _ h4) (.done _)
  · rw [Bool.not_eq_true] at h6
    rw [h6]
    exact .mine _ h1 _ _ _ _ hu (.kept _ h2 _ _ h4) (.enforced _ _)
  · exact .notMine _ h1 _ (follow_shape env _ s)

theorem AcquireTrace.lost_eq {h h' : Ha} {e : Err} {t : List Event}
    (ha : AcquireTrace h e h' t) (he : e ≠ none) : h' = h := by
  cases ha with
  | acquired t0 c => exact absurd rfl he
  | lost e he' => rfl

theorem noLeaderBranch_shape {σ : Type} (env : Env σ) (h : Ha) (s : σ) :
    NoLeaderTrace h (noLeaderBranch env h s).val (noLeaderBranch env h s).trace := by
  have hh := isHealthiest_shape env h s
  have ha := acquireLeaderLock_shape env h (isHealthiest env h s).st
  simp only [noLeaderBranch, ite_run, bind_trace, bind_val, bind_st,
    pure_trace, pure_val, pure_st, call_trace, call_val, call_st, apply_ite Res.trace,
    apply_ite Res.val, apply_ite Res.st, getCluster_trace, getCluster_val, getCluster_st,
    getClusterCompName_trace, getClusterCompName_val, getClusterCompName_st,
    sleep_trace, sleep_st,
    List.singleton_append, List.append_nil, List.nil_append, ne_eq]
  split_ifs with h1 h2 h3 h4 h5 h6
  · rw [h1] at hh
    rw [h2] at ha
    exact .acquired _ _ _ _ hh ha (.noMarker _ h3 _)
  · rw [h1] at hh
    rw [h2] at ha
    rw [h4]
    exact .acquired _ _ _ _ hh ha (.deleted _ h3 _ _)
  · rw [h1] at hh
    rw [h2] at ha
    exact .acquired _ _ _ _ hh ha (.deleteFailed _ h3 _ _ h4)
  · rw [h1] at hh
    have hv := ha.lost_eq h2
    rw [hv] at ha h5 ⊢
    exact .lost _ h2 _ _ _ _ hh ha (follow_shape env h _) (.noMarker _ h5 _)
  · rw [h1] at hh
    have hv := ha.lost_eq h2
    rw [hv] at ha h5 h6 ⊢
    rw [h6]
    exact .lost _ h2 _ _ _ _ hh ha (follow_shape env h _) (.deleted _ h5 _ _)
  · rw [h1] at hh
    have hv := ha.lost_eq h2
    rw [hv] at ha h5 h6 ⊢
    exact .lost _ h2 _ _ _ _ hh ha (follow_shape env h _) (.deleteFailed _ h5 _ _ h6)
  · rw [Bool.not_eq_true] at h1
    rw [h1] at hh
    exact .notEligible _ _ hh (follow_shape env h _)

theorem clusterControl_shape {σ : Type} (env : Env σ) (h : Ha) (o n : ConfigMap) (s : σ) :
    TickTrace h o n (tickHa env h o n s) (tickTrace env h o n s) := by
  simp only [tickHa, tickTrace, clusterControl, ite_run, bind_trace, bind_val, bind_st,
    pure_trace, pure_val, pure_st, call_trace, call_val, call_st, apply_ite Res.trace,
    apply_ite Res.val, apply_ite Res.st, getCluster_trace, getCluster_val, getCluster_st,
    isLocked_trace, isLocked_val, isLocked_st, touchMember_trace, touchMember_st, ite_self,
    List.singleton_append, List.append_nil, List.nil_append]
  split_ifs with h1 h2 h3 h4
  · exact .ignored h1
  · exact .refreshFailed (not_not.mp h1) _ h2
  · rw [Bool.not_eq_true'] at h3
    rw [not_not.mp h2, h3]
    exact .started (not_not.mp h1) _
  · rw [Bool.not_eq_true', Bool.not_eq_false] at h3
    rw [not_not.mp h2, h3, h4]
    exact .locked (not_not.mp h1) _ _ _ (lockedBranch_shape env h _)
  · rw [Bool.not_eq_true', Bool.not_eq_false] at h3
    rw [Bool.not_eq_true] at h4
    rw [not_not.mp h2, h3, h4]
    exact .noLeader (not_not.mp h1) _ _ _ (noLeaderBranch_shape env h _)

theorem FollowTrace.ops_mem_follow {pod : String} {t : List Event} (hf : FollowTrace pod t) :
    ∀ e ∈ t, e.op ∈ followOps := by
  cases hf <;> simp [followOps, Event.op]

theorem HealthTrace.ops_mem_health {pod : String} {v : Bool} {t : List Event}
    (hh : HealthTrace pod v t) : ∀ e ∈ t, e.op ∈ healthOps := by
  cases hh <;> simp [healthOps, Event.op]

theorem AcquireTrace.ops_mem_acquire {h h' : Ha} {err : Err} {t : List Event}
    (ha : AcquireTrace h err h' t) : ∀ e ∈ t, e.op ∈ acquireOps := by
  cases ha <;> simp [acquireOps, Event.op]

theorem AcquireTrace.lost_trace {h h' : Ha} {err : Err} {t : List Event}
    (ha : AcquireTrace h err h' t) (he : err ≠ none) :
    t = [Event.AttemptToAcquireLeaderLock h.podName err] := by
  cases ha with
  | acquired t0 c => exact absurd rfl he
  | lost e he' => rfl

theorem AcquireTrace.acquired_trace {h h' : Ha} {t : List Event}
    (ha : AcquireTrace h none h' t) :
    ∃ c, t = [Event.AttemptToAcquireLeaderLock h.podName none, Event.GetCluster c] := by
  cases ha with
  | acquired t0 c => exact ⟨c, rfl⟩
  | lost e he' => exact absurd rfl he'

theorem LoopTrace.ops_mem_loop {pod : String} {opTime : Int} {extra : Extra} {n : Nat}
    {err res : Err} {t : List Event} (hl : LoopTrace pod opTime extra n err res t) :
    ∀ e ∈ t, e.op = Op.UpdateLeader := by
  induction hl with
  | exhausted err => simp
  | renewed n err => simp [Event.op]
  | retried n err e res t he hrest ih =>
    intro x hx
    rcases List.mem_cons.mp hx with rfl | hx
    · rfl
    · exact ih x hx

theorem LoopTrace.length_le {pod : String} {opTime : Int} {extra : Extra} {n : Nat}
    {err res : Err} {t : List Event} (hl : LoopTrace pod opTime extra n err res t) :
    t.length ≤ n ∧ (0 < n → 0 < t.length) := by
  induction hl with
  | exhausted err => simp
  | renewed n err => simp
  | retried n err e res t he hrest ih =>
    simp only [List.length_cons]
    omega

theorem UpdateTrace.ops_mem_update {pod : String} {n : Nat} {err : Err} {t : List Event}
    (hu : UpdateTrace pod n err t) : ∀ e ∈ t, e.op ∈ updateOps := by
  cases hu with
  | mk ot oe ex ee res t hloop =>
    intro e he
    rcases List.mem_cons.mp he with rfl | he
    · simp [updateOps, Event.op]
    rcases List.mem_cons.mp he with rfl | he
    · simp [updateOps, Event.op]
    · rw [hloop.ops_mem_loop e he]
      simp [updateOps]

theorem DefensiveTrace.ops_mem_defensive {pod : String} {err : Err} {t : List Event}
    (hd : DefensiveTrace pod err t) : ∀ e ∈ t, e.op ∈ defensiveOps := by
  cases hd <;> simp [defensiveOps, Event.op]

theorem YieldTrace.ops_mem_yield {pod : String} {t : List Event} (hy : YieldTrace pod t) :
    ∀ e ∈ t, e.op ∈ yieldOps := by
  cases hy <;> simp [yieldOps, Event.op]

theorem MarkerTrace.ops_mem_marker {pod : String} {t : List Event} (hm : MarkerTrace pod t) :
    ∀ e ∈ t, e.op ∈ markerOps := by
  cases hm <;> simp [markerOps, Event.op]

theorem LockedTrace.ops_mem_locked {h h' : Ha} {t : List Event} (ht : LockedTrace h h' t) :
    ∀ e ∈ t, e.op ∈ lockedOps := by
  cases ht with
  | notMine c hc t hf =>
    intro e he
    rcases List.mem_cons.mp he with rfl | he
    · simp [lockedOps, Event.op]
    · have := hf.ops_mem_follow e he
      simp [lockedOps, this]
  | mine c hc err u d y hu hd hy =>
    intro e he
    rcases List.mem_cons.mp he with rfl | he
    · simp [lockedOps, Event.op]
    rcases List.mem_append.mp he with he | he
    · have := hu.ops_mem_update e he
      simp [lockedOps, this]
    rcases List.mem_append.mp he with he | he
    · have := hd.ops_mem_defensive e he
      simp [lockedOps, this]
    · have := hy.ops_mem_yield e he
      simp [lockedOps, this]

theorem NoLeaderTrace.ops_mem_noLeader {h h' : Ha} {t : List Event} (ht : NoLeaderTrace h h' t) :
    ∀ e ∈ t, e.op ∈ noLeaderOps := by
  cases ht with
  | acquired h' ht a m hh ha hm =>
    intro e he
    rcases List.mem_append.mp he with he | he
    · have := hh.ops_mem_health e he
      simp [noLeaderOps, this]
    rcases List.mem_append.mp he with he | he
    · have := ha.ops_mem_acquire e he
      simp [noLeaderOps, this]
    · have := hm.ops_mem_marker e he
      simp [noLeaderOps, this]
  | lost err he' ht a f m hh ha hf hm =>
    intro e he
    rcases List.mem_append.mp he with he | he
    · have := hh.ops_mem_health e he
      simp [noLeaderOps, this]
    rcases List.mem_append.mp he with he | he
    · have := ha.ops_mem_acquire e he
      simp [noLeaderOps, this]
    rcases List.mem_append.mp he with he | he
    · have := hf.ops_mem_follow e he
      simp [noLeaderOps, this]
    · have := hm.ops_mem_marker e he
      simp [noLeaderOps, this]
  | notEligible ht f hh hf =>
    intro e he
    rcases List.mem_append.mp he with he | he
    · have := hh.ops_mem_health e he
      simp [noLeaderOps, this]
    rcases List.mem_cons.mp he with rfl | he
    · simp [noLeaderOps, Event.op]
    · have := hf.ops_mem_follow e he
      simp [noLeaderOps, this]

/-- An operation outside the allowed ones of a trace is not called in it. -/
theorem not_mem_ops {t : List Event} {allowed : List Op} (hall : ∀ e ∈ t, e.op ∈ allowed)
    {op : Op} (hop : op ∉ allowed) : op ∉ ops t := by
  intro hmem
  obtain ⟨e, he, rfl⟩ := List.mem_map.mp hmem
  exact hop (hall e he)

theorem UpdateTrace.count_le {pod : String} {n : Nat} {err : Err} {t : List Event}
    (hu : UpdateTrace pod n err t) :
    (ops t).count Op.UpdateLeader ≤ n ∧ (0 < n → 1 ≤ (ops t).count Op.UpdateLeader) := by
  cases hu with
  | mk ot oe ex ee res t hloop =>
    have hall : ∀ b ∈ ops t, Op.UpdateLeader = b := by
      intro b hb
      obtain ⟨e, he, rfl⟩ := List.mem_map.mp hb
      exact (hloop.ops_mem_loop e he).symm
    have hcount : (ops t).count Op.UpdateLeader = t.length := by
      rw [List.count_eq_length.mpr hall]
      simp [ops]
    have hlen := hloop.length_le
    simp only [ops, List.map_cons, Event.op] at hcount ⊢
    rw [List.count_cons_of_ne (by decide), List.count_cons_of_ne (by decide), hcount]
    exact ⟨hlen.1, fun hn => hlen.2 hn⟩

/-- An event whose operation is outside the allowed ones of a trace is not in
it. -/
theorem not_mem_of_op (op : Op) {t : List Event} {allowed : List Op}
    (hall : ∀ e ∈ t, e.op ∈ allowed) {ev : Event} (hev : ev.op = op) (hop : op ∉ allowed) :
    ev ∉ t := by
  intro hmem
  exact hop (hev ▸ hall ev hmem)

/-- The loop of `updateLockWithRetry` seen as the list of the errors its attempts
returned. -/
theorem LoopTrace.attempts {pod : String} {opTime : Int} {extra : Extra} {n : Nat}
    {err res : Err} {t : List Event} (hl : LoopTrace pod opTime extra n err res t) :
    ∃ errs : List Err, t = errs.map (Event.UpdateLeader pod opTime extra) ∧
      errs.length ≤ n ∧ (0 < n → 1 ≤ errs.length) ∧
      (∀ e ∈ errs.dropLast, e ≠ none) ∧
      errs.getLast?.getD err = res ∧
      (res ≠ none → errs.length = n) ∧
      (err ≠ none ∨ 0 < n → (res = none ↔ none ∈ errs)) := by
  induction hl with
  | exhausted err =>
    refine ⟨[], rfl, by simp, by simp, by simp, by simp, by simp, ?_⟩
    intro h0
    rcases h0 with h0 | h0
    · simp [h0]
    · exact absurd h0 (by decide)
  | renewed n err =>
    exact ⟨[none], rfl, by simp, by simp, by simp, by simp, by simp, by simp⟩
  | retried n err e res t he hrest ih =>
    obtain ⟨errs, ht, hlen, hpos, hdrop, hlast, hfull, hiff⟩ := ih
    refine ⟨e :: errs, by simp [ht], by simp [hlen], by simp, ?_, ?_, ?_, ?_⟩
    · intro x hx
      cases errs with
      | nil => simp at hx
      | cons y ys =>
        rw [List.dropLast_cons₂] at hx
        rcases List.mem_cons.mp hx with rfl | hx
        · exact he
        · exact hdrop x hx
    · cases errs with
      | nil => simpa using hlast
      | cons y ys => simpa [List.getLast?_cons_cons] using hlast
    · intro hres
      simp [hfull hres]
    · intro _
      rw [hiff (Or.inl he)]
      simp [Ne.symm he]

/-- What `updateLockWithRetry` read and what it passed to `UpdateLeader`. -/
theorem UpdateTrace.args {pod : String} {n : Nat} {err : Err} {u : List Event}
    (hu : UpdateTrace pod n err u) :
    ∃ (ot : Int) (oe : Err) (ex : Extra) (ee : Err),
      (∀ a b, Event.GetOpTime a b ∈ u → a = ot ∧ b = oe) ∧
      (∀ a b, Event.GetExtra a b ∈ u → a = ex ∧ b = ee) ∧
      (∀ p t x e, Event.UpdateLeader p t x e ∈ u →
        p = pod ∧ t = (if oe ≠ none then 0 else ot) ∧
          x = (if ee ≠ none then some [] else ex)) ∧
      (0 < n → Op.UpdateLeader ∈ ops u) := by
  cases hu with
  | mk ot oe ex ee res t hloop =>
    obtain ⟨errs, ht, hlen, hpos, hdrop, hlast, hfull, hiff⟩ := hloop.attempts
    subst ht
    refine ⟨ot, oe, ex, ee, ?_, ?_, ?_, ?_⟩
    · intro a b hab
      simpa using hab
    · intro a b hab
      simpa using hab
    · intro p t x e hmem
      simp only [List.mem_cons, reduceCtorEq, false_or, List.mem_map,
        Event.UpdateLeader.injEq] at hmem
      obtain ⟨_, _, h1, h2, h3, _⟩ := hmem
      exact ⟨h1.symm, h2.symm, h3.symm⟩
    · intro hn
      have h1 := hpos hn
      cases errs with
      | nil => simp at h1
      | cons y ys => simp [ops, Event.op]

/-- A tick that reads `IsLocked` as false is a tick that got past the refresh and
the `IsRunning` check and ran the no-leader case from the decision state. -/
theorem tick_of_isLocked_false {σ : Type} (env : Env σ) (h : Ha) (o n : ConfigMap) (s : σ)
    (hnl : Event.IsLocked false ∈ tickTrace env h o n s) :
    ∃ c, tickTrace env h o n s =
      Event.GetClusterFromKubernetes none :: Event.IsRunning h.podName true ::
        Event.GetCluster c :: Event.GetCluster c :: Event.IsLocked false ::
          (noLeaderBranch env h (decisionState env h s)).trace := by
  simp only [tickTrace, clusterControl, ite_run, bind_trace, bind_val, bind_st,
    pure_trace, pure_val, pure_st, call_trace, call_val, call_st, apply_ite Res.trace,
    apply_ite Res.val, apply_ite Res.st, getCluster_trace, getCluster_val, getCluster_st,
    isLocked_trace, isLocked_val, isLocked_st, touchMember_trace, touchMember_st, ite_self,
    List.singleton_append, List.append_nil, List.nil_append] at hnl ⊢
  split_ifs at hnl ⊢ with h1 h2 h3 h4
  · simp at hnl
  · simp at hnl
  · simp at hnl
  · have hl := (lockedBranch_shape env h
      (env.db.IsRunning h.podName (env.cs.GetClusterFromKubernetes s).2).2).ops_mem_locked
    have hno : Event.IsLocked false ∉ (lockedBranch env h
        (env.db.IsRunning h.podName (env.cs.GetClusterFromKubernetes s).2).2).trace :=
      not_mem_of_op Op.IsLocked hl rfl (by decide)
    rw [h4] at hnl
    simp [hno] at hnl
  · rw [Bool.not_eq_true', Bool.not_eq_false] at h3
    rw [Bool.not_eq_true] at h4
    rw [not_not.mp h2, h3, h4]
    exact ⟨_, rfl⟩

/-- The two ways the no-leader case of a tick runs, by what `isHealthiest`
returned: the member acquires and goes on, or it waits and follows. -/
theorem noLeaderBranch_cases {σ : Type} (env : Env σ) (h : Ha) (s : σ) :
    ((isHealthiest env h s).val = true ∧
        ∃ ht a rest err h', HealthTrace h.podName true ht ∧ AcquireTrace h err h' a ∧
          (∀ e ∈ rest, e.op ∈ followOps ++ markerOps) ∧
          (noLeaderBranch env h s).trace = ht ++ (a ++ rest)) ∨
      ((isHealthiest env h s).val = false ∧
        ∃ ht f, HealthTrace h.podName false ht ∧ FollowTrace h.podName f ∧
          (noLeaderBranch env h s).trace = ht ++ Event.Sleep 2 :: f) := by
  have hh := isHealthiest_shape env h s
  have ha := acquireLeaderLock_shape env h (isHealthiest env h s).st
  have hrest : ∀ (f : List Event) (m : List Event), FollowTrace h.podName f →
      (∀ e ∈ m, e.op ∈ markerOps) → ∀ e ∈ f ++ m, e.op ∈ followOps ++ markerOps := by
    intro f m hf hm e he
    rcases List.mem_append.mp he with he | he
    · exact List.mem_append.mpr (Or.inl (hf.ops_mem_follow e he))
    · exact List.mem_append.mpr (Or.inr (hm e he))
  simp only [noLeaderBranch, ite_run, bind_trace, bind_val, bind_st,
    pure_trace, pure_val, pure_st, call_trace, call_val, call_st, apply_ite Res.trace,
    apply_ite Res.val, apply_ite Res.st, getCluster_trace, getCluster_val, getCluster_st,
    getClusterCompName_trace, getClusterCompName_val, getClusterCompName_st,
    sleep_trace, sleep_st,
    List.singleton_append, List.append_nil, List.nil_append, ne_eq]
  split_ifs with h1 h2 h3 h4 h5 h6
  · rw [h1] at hh
    refine Or.inl ⟨h1, _, _, _, _, _, hh, ha, ?_, rfl⟩
    simp [followOps, markerOps, Event.op]
  · rw [h1] at hh
    refine Or.inl ⟨h1, _, _, _, _, _, hh, ha, ?_, rfl⟩
    simp [followOps, markerOps, Event.op]
  · rw [h1] at hh
    refine Or.inl ⟨h1, _, _, _, _, _, hh, ha, ?_, rfl⟩
    simp [followOps, markerOps, Event.op]
  · rw [h1] at hh
    refine Or.inl ⟨h1, _, _, _, _, _, hh, ha, ?_, rfl⟩
    have hf := follow_shape env (acquireLeaderLock env h (isHealthiest env h s).st).val.2
      (acquireLeaderLock env h (isHealthiest env h s).st).st
    rw [acquireLeaderLock_podName] at hf
    exact hrest _ _ hf (by simp [markerOps, Event.op])
  · rw [h1] at hh
    refine Or.inl ⟨h1, _, _, _, _, _, hh, ha, ?_, rfl⟩
    have hf := follow_shape env (acquireLeaderLock env h (isHealthiest env h s).st).val.2
      (acquireLeaderLock env h (isHealthiest env h s).st).st
    rw [acquireLeaderLock_podName] at hf
    exact hrest _ _ hf (by simp [markerOps, Event.op])
  · rw [h1] at hh
    refine Or.inl ⟨h1, _, _, _, _, _, hh, ha, ?_, rfl⟩
    have hf := follow_shape env (acquireLeaderLock env h (isHealthiest env h s).st).val.2
      (acquireLeaderLock env h (isHealthiest env h s).st).st
    rw [acquireLeaderLock_podName] at hf
    exact hrest _ _ hf (by simp [markerOps, Event.op])
  · rw [Bool.not_eq_true] at h1
    rw [h1] at hh
    exact Or.inr ⟨h1, _, _, hh, follow_shape env h _, rfl⟩

theorem AcquireTrace.count_acquire {h h' : Ha} {err : Err} {a : List Event}
    (ha : AcquireTrace h err h' a) : (ops a).count Op.AttemptToAcquireLeaderLock = 1 := by
  cases ha <;> simp [ops, Event.op]

/-- An operation outside the allowed ones of a trace is counted zero times in
it. -/
theorem count_ops_eq_zero {t : List Event} {allowed : List Op}
    (hall : ∀ e ∈ t, e.op ∈ allowed) {op : Op} (hop : op ∉ allowed) :
    (ops t).count op = 0 :=
  List.count_eq_zero_of_not_mem (not_mem_ops hall hop)

theorem isLeaderLoop_ops_mem {σ : Type} (env : Env σ) (n : Nat) :
    ∀ (r : Bool × Err) (s : σ), ∀ e ∈ (isLeaderLoop env n r s).trace,
      e.op ∈ [Op.IsLeader, Op.Sleep] := by
  induction n with
  | zero =>
    intro r s e he
    simp [isLeaderLoop, pure_trace] at he
  | succ n ih =>
    intro r s e he
    simp only [isLeaderLoop, ite_run, bind_trace, bind_val, bind_st, pure_trace, call_trace,
      call_val, call_st, apply_ite Res.trace, sleep_trace, sleep_st, List.singleton_append,
      List.append_nil] at he
    split_ifs at he with h1
    · simp only [List.mem_singleton] at he
      subst he
      simp [Event.op]
    · rcases List.mem_cons.mp he with rfl | he
      · simp [Event.op]
      rcases List.mem_cons.mp he with rfl | he
      · simp [Event.op]
      · exact ih _ _ e he

/-- The run of `Init`: its retry loop, then one of the ends of `InitTail`. -/
theorem Init_shape {σ : Type} (env : Env σ) (h : Ha) (s : σ) :
    (∀ e ∈ (isLeaderLoop env 3 (false, none) s).trace, e.op ∈ [Op.IsLeader, Op.Sleep]) ∧
      ∃ tail, InitTail h.podName (isLeaderLoop env 3 (false, none) s).val.1 (Init env h s).val
          tail ∧
        (Init env h s).trace = (isLeaderLoop env 3 (false, none) s).trace ++ tail := by
  refine ⟨isLeaderLoop_ops_mem env 3 (false, none) s, ?_⟩
  simp only [Init, ite_run, bind_trace, bind_val, bind_st, pure_trace, pure_val, pure_st,
    call_trace, call_val, call_st, apply_ite Res.trace, apply_ite Res.val, apply_ite Res.st,
    List.singleton_append, List.append_nil, List.nil_append]
  split_ifs with h1 h2 h3 h4 h5 h6 h7
  · rw [Bool.not_eq_true'] at h2
    rw [h1, h2]
    exact ⟨_, .notRunning, rfl⟩
  · rw [Bool.not_eq_true', Bool.not_eq_false] at h2
    rw [h1, h2]
    exact ⟨_, .sysIDFailed _ _ h3, rfl⟩
  · rw [Bool.not_eq_true', Bool.not_eq_false] at h2
    rw [h1, h2, not_not.mp h3]
    exact ⟨_, .extraFailed _ _ _ h4, rfl⟩
  · rw [Bool.not_eq_true', Bool.not_eq_false] at h2
    rw [h1, h2, not_not.mp h3, not_not.mp h4]
    exact ⟨_, .opTimeFailed _ _ _ _ h5, rfl⟩
  · rw [Bool.not_eq_true', Bool.not_eq_false] at h2
    rw [h1] at h6
    rw [h1, h2, not_not.mp h3, not_not.mp h4, not_not.mp h5]
    exact ⟨_, .initFailed _ _ _ _ h6, rfl⟩
  · rw [Bool.not_eq_true', Bool.not_eq_false] at h2
    rw [h1] at h6
    rw [h1, h2, not_not.mp h3, not_not.mp h4, not_not.mp h5, not_not.mp h6]
    exact ⟨_, .leader _ _ _, rfl⟩
  · rw [Bool.not_eq_true] at h1
    rw [h1]
    exact ⟨_, .followerFailed _ h7, rfl⟩
  · rw [Bool.not_eq_true] at h1
    rw [h1, not_not.mp h7]
    exact ⟨_, .follower, rfl⟩


/-- What `acquireLeaderLock` returns and leaves, by the result of the store's
acquisition call. -/
theorem acquireLeaderLock_run {σ : Type} (env : Env σ) (h : Ha) (s : σ) :
    (acquireLeaderLock env h s).val.1 = (env.cs.AttemptToAcquireLeaderLock h.podName s).1 ∧
      (acquireLeaderLock env h s).st = (env.cs.AttemptToAcquireLeaderLock h.podName s).2 ∧
      (acquireLeaderLock env h s).val.2 =
        (if (env.cs.AttemptToAcquireLeaderLock h.podName s).1 = none then
          { h with isLeader :=
              wrapInt64 (env.cs.now (env.cs.AttemptToAcquireLeaderLock h.podName s).2 +
                (env.cs.GetCluster (env.cs.AttemptToAcquireLeaderLock h.podName s).2).ttl) }
        else h) ∧
      ∃ tail, (acquireLeaderLock env h s).trace =
          Event.AttemptToAcquireLeaderLock h.podName
            (env.cs.AttemptToAcquireLeaderLock h.podName s).1 :: tail ∧
        ∀ e ∈ tail, e.op = Op.GetCluster := by
  by_cases h1 : (env.cs.AttemptToAcquireLeaderLock h.podName s).1 = none
  · simp only [acquireLeaderLock, setLeader, if_true, ite_run, bind_trace, bind_val, bind_st,
      pure_trace, pure_val, pure_st, call_trace, call_val, call_st,
      getCluster_trace, getCluster_val, getCluster_st, now_trace, now_val, now_st,
      List.singleton_append, List.append_nil, List.nil_append, h1]
    exact ⟨trivial, trivial, trivial, _, rfl, by simp [Event.op]⟩
  · simp only [acquireLeaderLock, setLeader, if_true, ite_run, bind_trace, bind_val, bind_st,
      pure_trace, pure_val, pure_st, call_trace, call_val, call_st,
      getCluster_trace, getCluster_val, getCluster_st, now_trace, now_val, now_st,
      List.singleton_append, List.append_nil, List.nil_append, h1, if_false]
    exact ⟨trivial, trivial, trivial, _, rfl, by simp⟩

/-- The controller `lockedBranch` leaves: reset when the leader is another
member, untouched when it is this one. -/
theorem lockedBranch_val {σ : Type} (env : Env σ) (h : Ha) (s : σ) :
    (lockedBranch env h s).val =
      if h.podName = (env.cs.GetCluster s).leaderName then h else { h with isLeader := 0 } := by
  simp only [lockedBranch, hasLock, setLeader, ite_run, bind_trace, bind_val, bind_st,
    pure_trace, pure_val, pure_st, call_trace, call_val, call_st,
    apply_ite Res.val, apply_ite Res.st, getCluster_trace, getCluster_val, getCluster_st,
    Bool.false_eq_true, if_false, ite_self]
  by_cases hm : h.podName = (env.cs.GetCluster s).leaderName
  · simp [hm]
  · simp [hm]

/-- The two ways the no-leader case of a tick runs, with the controller it
leaves and the place of the acquisition in its trace. -/
theorem noLeaderBranch_run {σ : Type} (env : Env σ) (h : Ha) (s : σ) :
    ((isHealthiest env h s).val = true ∧
        (noLeaderBranch env h s).val = (acquireLeaderLock env h (isHealthiest env h s).st).val.2 ∧
        ∃ rest, (∀ e ∈ rest, e.op ∈ followOps ++ markerOps) ∧
          (noLeaderBranch env h s).trace = (isHealthiest env h s).trace ++
            ((acquireLeaderLock env h (isHealthiest env h s).st).trace ++ rest)) ∨
      ((isHealthiest env h s).val = false ∧ (noLeaderBranch env h s).val = h ∧
        ∃ f, FollowTrace h.podName f ∧
          (noLeaderBranch env h s).trace = (isHealthiest env h s).trace ++ Event.Sleep 2 :: f) := by
  have hrest : ∀ (f : List Event) (m : List Event), FollowTrace h.podName f →
      (∀ e ∈ m, e.op ∈ markerOps) → ∀ e ∈ f ++ m, e.op ∈ followOps ++ markerOps := by
    intro f m hf hm e he
    rcases List.mem_append.mp he with he | he
    · exact List.mem_append.mpr (Or.inl (hf.ops_mem_follow e he))
    · exact List.mem_append.mpr (Or.inr (hm e he))
  have hf := follow_shape env (acquireLeaderLock env h (isHealthiest env h s).st).val.2
    (acquireLeaderLock env h (isHealthiest env h s).st).st
  rw [acquireLeaderLock_podName] at hf
  simp only [noLeaderBranch, ite_run, bind_trace, bind_val, bind_st,
    pure_trace, pure_val, pure_st, call_trace, call_val, call_st, apply_ite Res.trace,
    apply_ite Res.val, apply_ite Res.st, getCluster_trace, getCluster_val, getCluster_st,
    getClusterCompName_trace, getClusterCompName_val, getClusterCompName_st,
    sleep_trace, sleep_st,
    List.singleton_append, List.append_nil, List.nil_append, ne_eq, ite_self]
  split_ifs with h1 h2 h3 h4 h5 h6
  · exact Or.inl ⟨h1, rfl, _, by simp [followOps, markerOps, Event.op], rfl⟩
  · exact Or.inl ⟨h1, rfl, _, by simp [followOps, markerOps, Event.op], rfl⟩
  · exact Or.inl ⟨h1, rfl, _, by simp [followOps, markerOps, Event.op], rfl⟩
  · exact Or.inl ⟨h1, rfl, _, hrest _ _ hf (by simp [markerOps, Event.op]), rfl⟩
  · exact Or.inl ⟨h1, rfl, _, hrest _ _ hf (by simp [markerOps, Event.op]), rfl⟩
  · exact Or.inl ⟨h1, rfl, _, hrest _ _ hf (by simp [markerOps, Event.op]), rfl⟩
  · rw [Bool.not_eq_true] at h1
    exact Or.inr ⟨h1, rfl, _, follow_shape env h _, rfl⟩

/-- A tick that reads the record and finds no valid leader runs the no-leader
case from the decision state. -/
theorem tick_noLeader {σ : Type} (env : Env σ) (h : Ha) (o n : ConfigMap) (s : σ)
    (hread : ReadsRecord env h o n s) (hnl : recordLocked env h s = false) :
    tickTrace env h o n s =
        Event.GetClusterFromKubernetes none :: Event.IsRunning h.podName true ::
          Event.GetCluster (env.cs.GetCluster (decisionState env h s)) ::
          Event.GetCluster (env.cs.GetCluster (decisionState env h s)) ::
          Event.IsLocked false :: (noLeaderBranch env h (decisionState env h s)).trace ∧
      tickHa env h o n s = (noLeaderBranch env h (decisionState env h s)).val := by
  obtain ⟨r1, r2, r3⟩ := hread
  simp only [recordLocked, decisionState] at hnl
  simp only [tickTrace, tickHa, decisionState, clusterControl, ite_run, bind_trace, bind_val,
    bind_st, pure_trace, pure_val, pure_st, call_trace, call_val, call_st, apply_ite Res.trace,
    apply_ite Res.val, apply_ite Res.st, getCluster_trace, getCluster_val, getCluster_st,
    isLocked_trace, isLocked_val, isLocked_st, touchMember_trace, touchMember_st, ite_self,
    List.singleton_append, List.append_nil, List.nil_append]
  split_ifs with h1 h2 h3 h4
  · exact absurd r1 h1
  · exact absurd r2 h2
  · rw [r3] at h3
    exact absurd h3 (by decide)
  · rw [hnl] at h4
    exact absurd h4 (by decide)
  · rw [r2, r3, hnl]
    exact ⟨rfl, rfl⟩

/-- A tick that reads the record and finds a valid leader runs the locked case
from the decision state. -/
theorem tick_locked {σ : Type} (env : Env σ) (h : Ha) (o n : ConfigMap) (s : σ)
    (hread : ReadsRecord env h o n s) (hl : recordLocked env h s = true) :
    tickTrace env h o n s =
        Event.GetClusterFromKubernetes none :: Event.IsRunning h.podName true ::
          Event.GetCluster (env.cs.GetCluster (decisionState env h s)) ::
          Event.GetCluster (env.cs.GetCluster (decisionState env h s)) ::
          Event.IsLocked true :: (lockedBranch env h (decisionState env h s)).trace ∧
      tickHa env h o n s = (lockedBranch env h (decisionState env h s)).val := by
  obtain ⟨r1, r2, r3⟩ := hread
  simp only [recordLocked, decisionState] at hl
  simp only [tickTrace, tickHa, decisionState, clusterControl, ite_run, bind_trace, bind_val,
    bind_st, pure_trace, pure_val, pure_st, call_trace, call_val, call_st, apply_ite Res.trace,
    apply_ite Res.val, apply_ite Res.st, getCluster_trace, getCluster_val, getCluster_st,
    isLocked_trace, isLocked_val, isLocked_st, touchMember_trace, touchMember_st, ite_self,
    List.singleton_append, List.append_nil, List.nil_append]
  split_ifs with h1 h2 h3
  · exact absurd r1 h1
  · exact absurd r2 h2
  · rw [r3] at h3
    exact absurd h3 (by decide)
  · rw [r2, r3, hl]
    exact ⟨rfl, rfl⟩

/-- A tick that does not get to read the record leaves the controller as it
was and calls nothing but the refresh, `IsRunning` and `Start`. -/
theorem tick_stops {σ : Type} (env : Env σ) (h : Ha) (o n : ConfigMap) (s : σ)
    (hread : ¬ ReadsRecord env h o n s) :
    tickHa env h o n s = h ∧
      ∀ e ∈ tickTrace env h o n s,
        e.op ∈ [Op.GetClusterFromKubernetes, Op.IsRunning, Op.Start] := by
  simp only [ReadsRecord] at hread
  simp only [tickTrace, tickHa, clusterControl, ite_run, bind_trace, bind_val,
    bind_st, pure_trace, pure_val, pure_st, call_trace, call_val, call_st, apply_ite Res.trace,
    apply_ite Res.val, apply_ite Res.st, getCluster_trace, getCluster_val, getCluster_st,
    isLocked_trace, isLocked_val, isLocked_st, touchMember_trace, touchMember_st, ite_self,
    List.singleton_append, List.append_nil, List.nil_append]
  split_ifs with h1 h2 h3 h4
  · exact ⟨rfl, by simp⟩
  · exact ⟨rfl, by simp [Event.op]⟩
  · exact ⟨rfl, by simp [Event.op]⟩
  all_goals
    rw [Bool.not_eq_true', Bool.not_eq_false] at h3
    exact absurd ⟨not_not.mp h1, not_not.mp h2, h3⟩ hread

/-- The no-leader case of a tick when the member is not eligible: the pause,
then `follow`, and the controller as it was. -/
theorem noLeaderBranch_notEligible {σ : Type} (env : Env σ) (h : Ha) (s : σ)
    (hne : (isHealthiest env h s).val = false) :
    (noLeaderBranch env h s).trace = (isHealthiest env h s).trace ++
        Event.Sleep 2 :: (follow env h (env.cs.sleep 2 (isHealthiest env h s).st)).trace ∧
      (noLeaderBranch env h s).val = h := by
  simp only [noLeaderBranch, ite_run, bind_trace, bind_val, bind_st,
    pure_trace, pure_val, pure_st, apply_ite Res.trace,
    apply_ite Res.val, sleep_trace, sleep_st,
    List.singleton_append, List.append_nil, hne, Bool.false_eq_true, if_false]
  exact ⟨trivial, trivial⟩

/-- The calls of `follow`, by what its refresh and the role query return. -/
theorem follow_run {σ : Type} (env : Env σ) (h : Ha) (s : σ) :
    (follow env h s).trace =
      if (env.cs.GetClusterFromKubernetes s).1 ≠ none then
        [Event.GetClusterFromKubernetes (env.cs.GetClusterFromKubernetes s).1]
      else if (env.db.IsLeader (env.cs.GetClusterFromKubernetes s).2).1.1 = true ∧
          (env.db.IsLeader (env.cs.GetClusterFromKubernetes s).2).1.2 = none then
        [Event.GetClusterFromKubernetes none, Event.IsLeader true none,
          Event.Demote h.podName
            (env.db.Demote h.podName (env.db.IsLeader (env.cs.GetClusterFromKubernetes s).2).2).1]
      else
        [Event.GetClusterFromKubernetes none,
          Event.IsLeader (env.db.IsLeader (env.cs.GetClusterFromKubernetes s).2).1.1
            (env.db.IsLeader (env.cs.GetClusterFromKubernetes s).2).1.2,
          Event.GetCluster
            (env.cs.GetCluster (env.db.IsLeader (env.cs.GetClusterFromKubernetes s).2).2),
          Event.HandleFollow
            (env.cs.GetCluster (env.db.IsLeader (env.cs.GetClusterFromKubernetes s).2).2).Leader
            h.podName
            (env.db.HandleFollow
              (env.cs.GetCluster (env.db.IsLeader (env.cs.GetClusterFromKubernetes s).2).2).Leader
              h.podName (env.db.IsLeader (env.cs.GetClusterFromKubernetes s).2).2).1] := by
  simp only [follow, ite_run, bind_trace, bind_val, bind_st, pure_trace, call_trace, call_val,
    call_st, apply_ite Res.trace, getCluster_trace, getCluster_val, getCluster_st,
    List.singleton_append, List.append_nil]
  split_ifs with h1 h2
  · rfl
  · rw [not_not.mp h1, h2.1, h2.2]
  · rw [not_not.mp h1]

/-- The value of `isHealthiest`, by what the engine and the store answer. -/
theorem isHealthiest_val {σ : Type} (env : Env σ) (h : Ha) (s : σ) :
    (isHealthiest env h s).val =
      if (env.db.IsRunning h.podName s).1 = false then false
      else if (env.db.IsLeader (env.db.IsRunning h.podName s).2).1.1 = true ∧
          (env.db.IsLeader (env.db.IsRunning h.podName s).2).1.2 = none then
        (if (env.db.GetSysID (env.db.IsLeader (env.db.IsRunning h.podName s).2).2).1.2 ≠ none
          then false
        else decide ((env.db.GetSysID (env.db.IsLeader (env.db.IsRunning h.podName s).2).2).1.1 =
          (env.cs.GetCluster
            (env.db.GetSysID (env.db.IsLeader (env.db.IsRunning h.podName s).2).2).2).SysID))
      else if (env.cs.GetCluster (env.db.IsLeader (env.db.IsRunning h.podName s).2).2).Switchover
          ≠ none then
        (env.db.ProcessManualSwitchoverFromNoLeader h.podName
          (env.db.IsLeader (env.db.IsRunning h.podName s).2).2).1
      else
        (env.db.IsHealthiest h.podName (env.db.IsLeader (env.db.IsRunning h.podName s).2).2).1 := by
  simp only [isHealthiest, ite_run, bind_trace, bind_val, bind_st, pure_trace, pure_val,
    call_trace, call_val, call_st, apply_ite Res.trace, apply_ite Res.val,
    getCluster_trace, getCluster_val, getCluster_st, List.singleton_append, List.append_nil]
  by_cases h1 : (env.db.IsRunning h.podName s).1 = false
  · simp [h1]
  · rw [Bool.not_eq_false] at h1
    simp only [h1, Bool.not_true, Bool.false_eq_true, if_false]
    split_ifs <;> first | rfl | contradiction

/-- Whether a tick that reads the record and finds no valid leader calls the
acquisition is whether `isHealthiest` returned true; a tick of a member that is
not eligible does not delete the switchover marker either. -/
theorem noLeader_acquires_iff_eligible {σ : Type} (env : Env σ) (h : Ha) (o n : ConfigMap)
    (s : σ) (hread : ReadsRecord env h o n s) (hnl : recordLocked env h s = false) :
    ((ops (tickTrace env h o n s)).count Op.AttemptToAcquireLeaderLock =
        if (isHealthiest env h (decisionState env h s)).val = true then 1 else 0) ∧
      ((isHealthiest env h (decisionState env h s)).val = false →
        Op.DeleteConfigMap ∉ ops (tickTrace env h o n s)) := by
  obtain ⟨htr, _⟩ := tick_noLeader env h o n s hread hnl
  rcases noLeaderBranch_cases env h (decisionState env h s) with
    ⟨hv, ht, a, rest, err, h', hh, ha, hrest, hb⟩ | ⟨hv, ht, f, hh, hf, hb⟩
  · have c1 := count_ops_eq_zero hh.ops_mem_health
      (show Op.AttemptToAcquireLeaderLock ∉ healthOps by decide)
    have c2 := ha.count_acquire
    have c3 := count_ops_eq_zero hrest
      (show Op.AttemptToAcquireLeaderLock ∉ followOps ++ markerOps by decide)
    refine ⟨?_, fun hf => ?_⟩
    · rw [htr, hb, if_pos hv]
      simp only [ops] at c1 c2 c3
      simp [ops, Event.op, List.count_cons, c1, c2, c3]
    · rw [hv] at hf
      cases hf
  · have c1 := count_ops_eq_zero hh.ops_mem_health
      (show Op.AttemptToAcquireLeaderLock ∉ healthOps by decide)
    have c2 := count_ops_eq_zero hf.ops_mem_follow
      (show Op.AttemptToAcquireLeaderLock ∉ followOps by decide)
    have d1 : Op.DeleteConfigMap ∉ ops ht := not_mem_ops hh.ops_mem_health (by decide)
    have d2 : Op.DeleteConfigMap ∉ ops f := not_mem_ops hf.ops_mem_follow (by decide)
    refine ⟨?_, fun _ => ?_⟩
    · rw [htr, hb, if_neg (by rw [hv]; decide)]
      simp only [ops] at c1 c2
      simp [ops, Event.op, List.count_cons, c1, c2]
    · rw [htr, hb]
      simp only [ops] at d1 d2
      simp [ops, Event.op, d1, d2]

/-- When a switchover that names another member is pending and the adapter
selects for a switchover only the member it names, `isHealthiest` returns true
exactly for a running engine that reports itself primary with the record's
sysID. -/
theorem eligible_iff_selfPrimary {σ : Type} (env : Env σ) (h : Ha) (s : σ)
    (hsw : ∃ sw, (env.cs.GetCluster (afterRole env h s)).Switchover = some sw ∧
      sw.target ≠ h.podName)
    (hadapter : ∀ st, (∃ sw, (env.cs.GetCluster st).Switchover = some sw ∧
      sw.target ≠ h.podName) → (env.db.ProcessManualSwitchoverFromNoLeader h.podName st).1 = false) :
    (isHealthiest env h (decisionState env h s)).val = true ↔ SelfPrimary env h s := by
  have hsel := hadapter _ hsw
  have hpend : (env.cs.GetCluster (afterRole env h s)).Switchover ≠ none := by
    obtain ⟨sw, h1, _⟩ := hsw
    rw [h1]
    exact Option.some_ne_none _
  rw [isHealthiest_val]
  simp only [SelfPrimary, roleState, afterRole] at hsel hpend ⊢
  by_cases h1 : (env.db.IsRunning h.podName (decisionState env h s)).1 = false
  · simp [h1]
  · rw [Bool.not_eq_false] at h1
    by_cases h2 : (env.db.IsLeader (env.db.IsRunning h.podName (decisionState env h s)).2).1.1
        = true ∧
        (env.db.IsLeader (env.db.IsRunning h.podName (decisionState env h s)).2).1.2 = none
    · have h2' : (env.db.IsLeader (env.db.IsRunning h.podName (decisionState env h s)).2).1 =
          (true, none) := Prod.ext h2.1 h2.2
      by_cases h3 : (env.db.GetSysID
          (env.db.IsLeader (env.db.IsRunning h.podName (decisionState env h s)).2).2).1.2 = none
      · simp [h1, h2, h2', h3]
      · simp [h1, h2, h2', h3]
    · have h2' : ¬ (env.db.IsLeader (env.db.IsRunning h.podName (decisionState env h s)).2).1 =
          (true, none) := fun hp => h2 ⟨by rw [hp], by rw [hp]⟩
      simp [h1, h2, h2', hpend, hsel]

/-- The adapter of `targetEnv` selects for a switchover only the member it
names. -/
theorem targetEnv_selects_target (pod : String) (st : Sim)
    (hsw : ∃ sw, (targetEnv.cs.GetCluster st).Switchover = some sw ∧ sw.target ≠ pod) :
    (targetEnv.db.ProcessManualSwitchoverFromNoLeader pod st).1 = false := by
  obtain ⟨sw, h1, h2⟩ := hsw
  have h3 : st.cluster.Switchover = some sw := h1
  show (match st.cluster.Switchover with
    | some sw => sw.target == pod
    | none => false) = false
  rw [h3]
  simpa using h2
/-! The claims about `Ha.clusterControl`. -/

/-- C1 (the code departs from the claim).  In the world `simLostRace` the record
shows no valid leader, `pod-0` is eligible and its `AttemptToAcquireLeaderLock`
returns an error; the tick follows the winner `pod-1` (`HandleFollow`) and then
still calls `EnforcePrimaryRole`: line 237 is not followed by a `return`. -/
theorem lost_acquisition_still_enforces_primary :
    tickTrace simEnv ha0 cmResync cmResync simLostRace =
      [Event.GetClusterFromKubernetes none, Event.IsRunning "pod-0" true,
        Event.GetCluster recNoLeader, Event.GetCluster recNoLeader, Event.IsLocked false,
        Event.IsRunning "pod-0" true, Event.IsLeader false none, Event.GetCluster recNoLeader,
        Event.IsHealthiest "pod-0" true,
        Event.AttemptToAcquireLeaderLock "pod-0" (some "conflict"),
        Event.GetClusterFromKubernetes none, Event.IsLeader false none,
        Event.GetCluster recLeader1, Event.HandleFollow recLeader1.Leader "pod-0" none,
        Event.GetCluster recLeader1, Event.EnforcePrimaryRole "pod-0" none] := by
  decide

/-- C2 (the code departs from the claim).  In the world `simRenewFails` `pod-0`
is the recorded valid leader, all three `UpdateLeader` attempts fail and the
engine reports itself primary; the tick calls `Demote` and, after
`ProcessManualSwitchoverFromLeader` reported "not done", `EnforcePrimaryRole`
in the same tick. -/
theorem failed_renewal_demotes_then_enforces_primary :
    tickTrace simEnv ha0 cmResync cmResync simRenewFails =
      [Event.GetClusterFromKubernetes none, Event.IsRunning "pod-0" true,
        Event.GetCluster recLeader0, Event.GetCluster recLeader0, Event.IsLocked true,
        Event.GetCluster recLeader0,
        Event.GetOpTime 7 none, Event.GetExtra (some [("lsn", "42")]) none,
        Event.UpdateLeader "pod-0" 7 (some [("lsn", "42")]) (some "conflict"),
        Event.UpdateLeader "pod-0" 7 (some [("lsn", "42")]) (some "conflict"),
        Event.UpdateLeader "pod-0" 7 (some [("lsn", "42")]) (some "conflict"),
        Event.IsLeader true none, Event.Demote "pod-0" none,
        Event.ProcessManualSwitchoverFromLeader "pod-0" false none,
        Event.EnforcePrimaryRole "pod-0" none] := by
  decide

/-- C3.  In a tick in which every refresh of the record succeeds, the engine is
running, the record shows a valid leader, every view of the record names another
member as leader and the adapter reports the engine as primary without error:
`Demote` is called on the local engine, and neither
`AttemptToAcquireLeaderLock`, `UpdateLeader` nor `EnforcePrimaryRole` is. -/
theorem other_leader_demotes_primary {σ : Type} (env : Env σ) (h : Ha) (o n : ConfigMap) (s : σ)
    (href : ∀ e, Event.GetClusterFromKubernetes e ∈ tickTrace env h o n s → e = none)
    (hrun : Event.IsRunning h.podName true ∈ tickTrace env h o n s)
    (hlock : Event.IsLocked true ∈ tickTrace env h o n s)
    (hother : ∀ c, Event.GetCluster c ∈ tickTrace env h o n s → c.leaderName ≠ h.podName)
    (hprim : ∀ b e, Event.IsLeader b e ∈ tickTrace env h o n s → b = true ∧ e = none) :
    (∃ e, Event.Demote h.podName e ∈ tickTrace env h o n s) ∧
      Op.AttemptToAcquireLeaderLock ∉ ops (tickTrace env h o n s) ∧
      Op.UpdateLeader ∉ ops (tickTrace env h o n s) ∧
      Op.EnforcePrimaryRole ∉ ops (tickTrace env h o n s) := by
  have hs := clusterControl_shape env h o n s
  generalize tickTrace env h o n s = tr at *
  generalize tickHa env h o n s = h' at *
  cases hs with
  | ignored hrv => simp at hlock
  | refreshFailed hrv e he => simp at hlock
  | started hrv e => simp at hlock
  | noLeader hrv c h' t ht =>
    simp only [List.mem_cons, reduceCtorEq, Event.IsLocked.injEq, Bool.true_eq_false,
      false_or] at hlock
    exact absurd (ht.ops_mem_noLeader _ hlock) (by decide)
  | locked hrv c h' t ht =>
    cases ht with
    | mine c' hc err u d y hu hd hy =>
      exact absurd hc.symm (hother c' (by simp))
    | notMine c' hc t' hf =>
      cases hf with
      | refreshFailed e he => exact absurd (href e (by simp)) he
      | followed b e c2 e' hn => exact absurd (hprim b e (by simp)) hn
      | demoted e =>
        refine ⟨⟨e, by simp⟩, ?_, ?_, ?_⟩ <;> simp [ops, Event.op]

/-- The tick of `pod-0` in the world `simFormerLeader`. -/
theorem simFormerLeader_trace :
    tickTrace simEnv ha0 cmResync cmResync simFormerLeader =
      [Event.GetClusterFromKubernetes none, Event.IsRunning "pod-0" true,
        Event.GetCluster recLeader1, Event.GetCluster recLeader1, Event.IsLocked true,
        Event.GetCluster recLeader1, Event.GetClusterFromKubernetes none,
        Event.IsLeader true none, Event.Demote "pod-0" none] := by
  decide

/-- C3 at a concrete input: the world `simFormerLeader`, where `pod-1` holds the
lease and the engine of `pod-0` still runs as primary. -/
theorem other_leader_demotes_primary_witness :
    (∃ e, Event.Demote ha0.podName e ∈ tickTrace simEnv ha0 cmResync cmResync simFormerLeader) ∧
      Op.AttemptToAcquireLeaderLock ∉
        ops (tickTrace simEnv ha0 cmResync cmResync simFormerLeader) ∧
      Op.UpdateLeader ∉ ops (tickTrace simEnv ha0 cmResync cmResync simFormerLeader) ∧
      Op.EnforcePrimaryRole ∉ ops (tickTrace simEnv ha0 cmResync cmResync simFormerLeader) :=
  other_leader_demotes_primary simEnv ha0 cmResync cmResync simFormerLeader
    (by rw [simFormerLeader_trace]; simp)
    (by rw [simFormerLeader_trace]; decide)
    (by rw [simFormerLeader_trace]; decide)
    (by rw [simFormerLeader_trace]; simp; decide)
    (by rw [simFormerLeader_trace]; simp)

/-- C6, counterexample.  In the world `simFormerLeader` the record shows the
valid leader `pod-1` and the engine of `pod-0` reports itself primary: the tick
calls `Demote` and ends, `HandleFollow` is not called in it. -/
theorem demote_without_follow :
    Event.IsLocked true ∈ tickTrace simEnv ha0 cmResync cmResync simFormerLeader ∧
      Event.GetCluster recLeader1 ∈ tickTrace simEnv ha0 cmResync cmResync simFormerLeader ∧
      recLeader1.leaderName = "pod-1" ∧
      Event.IsLeader true none ∈ tickTrace simEnv ha0 cmResync cmResync simFormerLeader ∧
      Op.Demote ∈ ops (tickTrace simEnv ha0 cmResync cmResync simFormerLeader) ∧
      Op.HandleFollow ∉ ops (tickTrace simEnv ha0 cmResync cmResync simFormerLeader) := by
  decide

/-- C6, amended.  In a tick in which the record shows a valid leader, every view
of the record names another member as leader, the re-read of the record
succeeds and the adapter reports the engine as primary without error, `Demote`
is the last call of the tick and `HandleFollow` is not called in it. -/
theorem other_leader_demote_ends_tick {σ : Type} (env : Env σ) (h : Ha) (o n : ConfigMap)
    (s : σ)
    (href : ∀ e, Event.GetClusterFromKubernetes e ∈ tickTrace env h o n s → e = none)
    (hlock : Event.IsLocked true ∈ tickTrace env h o n s)
    (hother : ∀ c, Event.GetCluster c ∈ tickTrace env h o n s → c.leaderName ≠ h.podName)
    (hprim : ∀ b e, Event.IsLeader b e ∈ tickTrace env h o n s → b = true ∧ e = none) :
    (∃ pre e, tickTrace env h o n s = pre ++ [Event.Demote h.podName e] ∧
        Op.Demote ∉ ops pre) ∧
      Op.HandleFollow ∉ ops (tickTrace env h o n s) := by
  have hs := clusterControl_shape env h o n s
  generalize tickTrace env h o n s = tr at *
  generalize tickHa env h o n s = h' at *
  cases hs with
  | ignored hrv => simp at hlock
  | refreshFailed hrv e he => simp at hlock
  | started hrv e => simp at hlock
  | noLeader hrv c h' t ht =>
    simp only [List.mem_cons, reduceCtorEq, Event.IsLocked.injEq, Bool.true_eq_false,
      false_or] at hlock
    exact absurd (ht.ops_mem_noLeader _ hlock) (by decide)
  | locked hrv c h' t ht =>
    cases ht with
    | mine c' hc err u d y hu hd hy =>
      exact absurd hc.symm (hother c' (by simp))
    | notMine c' hc t' hf =>
      cases hf with
      | refreshFailed e he => exact absurd (href e (by simp)) he
      | followed b e c2 e' hn => exact absurd (hprim b e (by simp)) hn
      | demoted e =>
        refine ⟨⟨[Event.GetClusterFromKubernetes none, Event.IsRunning h.podName true,
          Event.GetCluster c, Event.GetCluster c, Event.IsLocked true, Event.GetCluster c',
          Event.GetClusterFromKubernetes none, Event.IsLeader true none], e, rfl, ?_⟩, ?_⟩
        · simp [ops, Event.op]
        · simp [ops, Event.op]

/-- C6 amended, at a concrete input: the world `simFormerLeader`. -/
theorem other_leader_demote_ends_tick_witness :
    (∃ pre e, tickTrace simEnv ha0 cmResync cmResync simFormerLeader =
        pre ++ [Event.Demote ha0.podName e] ∧ Op.Demote ∉ ops pre) ∧
      Op.HandleFollow ∉ ops (tickTrace simEnv ha0 cmResync cmResync simFormerLeader) :=
  other_leader_demote_ends_tick simEnv ha0 cmResync cmResync simFormerLeader
    (by rw [simFormerLeader_trace]; simp)
    (by rw [simFormerLeader_trace]; decide)
    (by rw [simFormerLeader_trace]; simp; decide)
    (by rw [simFormerLeader_trace]; simp)

/-- The tick of `pod-0` in the world `simLeaderSwitchover`. -/
theorem simLeaderSwitchover_trace :
    tickTrace simEnv ha0 cmResync cmResync simLeaderSwitchover =
      [Event.GetClusterFromKubernetes none, Event.IsRunning "pod-0" true,
        Event.GetCluster recLeader0Switch1, Event.GetCluster recLeader0Switch1,
        Event.IsLocked true, Event.GetCluster recLeader0Switch1,
        Event.GetOpTime 7 none, Event.GetExtra (some [("lsn", "42")]) none,
        Event.UpdateLeader "pod-0" 7 (some [("lsn", "42")]) none,
        Event.ProcessManualSwitchoverFromLeader "pod-0" true none] := by
  decide

/-- C4, counterexample.  In the world `simLeaderSwitchover` `pod-0` is the
recorded valid leader and a switchover to `pod-1` is pending: the tick calls
`UpdateLeader`. -/
theorem leader_renews_despite_switchover :
    Event.IsLocked true ∈ tickTrace simEnv ha0 cmResync cmResync simLeaderSwitchover ∧
      Event.GetCluster recLeader0Switch1 ∈
        tickTrace simEnv ha0 cmResync cmResync simLeaderSwitchover ∧
      recLeader0Switch1.leaderName = ha0.podName ∧
      recLeader0Switch1.Switchover = some { target := "pod-1" } ∧
      Op.UpdateLeader ∈ ops (tickTrace simEnv ha0 cmResync cmResync simLeaderSwitchover) := by
  decide

/-- C4, amended.  In a tick in which the record shows a valid leader and every
view of the record names this member as leader (a switchover pending or not),
the member renews first: `UpdateLeader` is called at least once and at most
three times before `ProcessManualSwitchoverFromLeader`, never after it, and
when the switchover is reported done nothing is called after it. -/
theorem leader_renews_before_switchover {σ : Type} (env : Env σ) (h : Ha) (o n : ConfigMap)
    (s : σ)
    (hlock : Event.IsLocked true ∈ tickTrace env h o n s)
    (hmine : ∀ c, Event.GetCluster c ∈ tickTrace env h o n s → c.leaderName = h.podName) :
    ∃ pre done e post,
      tickTrace env h o n s =
        pre ++ Event.ProcessManualSwitchoverFromLeader h.podName done e :: post ∧
      1 ≤ (ops pre).count Op.UpdateLeader ∧ (ops pre).count Op.UpdateLeader ≤ 3 ∧
      Op.ProcessManualSwitchoverFromLeader ∉ ops pre ∧
      Op.UpdateLeader ∉ ops post ∧ (done = true → post = []) := by
  have hs := clusterControl_shape env h o n s
  generalize tickTrace env h o n s = tr at *
  generalize tickHa env h o n s = h' at *
  cases hs with
  | ignored hrv => simp at hlock
  | refreshFailed hrv e he => simp at hlock
  | started hrv e => simp at hlock
  | noLeader hrv c h' t ht =>
    simp only [List.mem_cons, reduceCtorEq, Event.IsLocked.injEq, Bool.true_eq_false,
      false_or] at hlock
    exact absurd (ht.ops_mem_noLeader _ hlock) (by decide)
  | locked hrv c h' t ht =>
    cases ht with
    | notMine c' hc t' hf => exact absurd (hmine c' (by simp)).symm hc
    | mine c' hc err u d y hu hd hy =>
      have hcu := hu.count_le
      have hcd : (ops d).count Op.UpdateLeader = 0 :=
        List.count_eq_zero_of_not_mem (not_mem_ops hd.ops_mem_defensive (by decide))
      have hpu : Op.ProcessManualSwitchoverFromLeader ∉ ops u :=
        not_mem_ops hu.ops_mem_update (by decide)
      have hpd : Op.ProcessManualSwitchoverFromLeader ∉ ops d :=
        not_mem_ops hd.ops_mem_defensive (by decide)
      have hpre : (ops ([Event.GetClusterFromKubernetes none, Event.IsRunning h.podName true,
          Event.GetCluster c, Event.GetCluster c, Event.IsLocked true, Event.GetCluster c'] ++
            (u ++ d))).count Op.UpdateLeader = (ops u).count Op.UpdateLeader := by
        simp only [ops, List.map_append, List.count_append] at hcd ⊢
        rw [hcd]
        simp [Event.op]
      have hnot : Op.ProcessManualSwitchoverFromLeader ∉
          ops ([Event.GetClusterFromKubernetes none, Event.IsRunning h.podName true,
            Event.GetCluster c, Event.GetCluster c, Event.IsLocked true, Event.GetCluster c'] ++
              (u ++ d)) := by
        simp only [ops, List.map_append, List.mem_append, not_or] at hpu hpd ⊢
        exact ⟨by simp [Event.op], hpu, hpd⟩
      cases hy with
      | done e =>
        refine ⟨_, true, e, [], ?_, ?_, ?_, hnot, by simp [ops], fun _ => rfl⟩
        · simp
        · rw [hpre]; exact hcu.2 (by decide)
        · rw [hpre]; exact hcu.1
      | enforced e e' =>
        refine ⟨_, false, e, [Event.EnforcePrimaryRole h.podName e'], ?_, ?_, ?_, hnot,
          by simp [ops, Event.op], fun hd => by simp at hd⟩
        · simp
        · rw [hpre]; exact hcu.2 (by decide)
        · rw [hpre]; exact hcu.1

/-- C4 amended, at a concrete input: the world `simLeaderSwitchover`. -/
theorem leader_renews_before_switchover_witness :
    ∃ pre done e post,
      tickTrace simEnv ha0 cmResync cmResync simLeaderSwitchover =
        pre ++ Event.ProcessManualSwitchoverFromLeader ha0.podName done e :: post ∧
      1 ≤ (ops pre).count Op.UpdateLeader ∧ (ops pre).count Op.UpdateLeader ≤ 3 ∧
      Op.ProcessManualSwitchoverFromLeader ∉ ops pre ∧
      Op.UpdateLeader ∉ ops post ∧ (done = true → post = []) :=
  leader_renews_before_switchover simEnv ha0 cmResync cmResync simLeaderSwitchover
    (by rw [simLeaderSwitchover_trace]; decide)
    (by rw [simLeaderSwitchover_trace]; simp; decide)

/-- The tick of `pod-0` in the world `simPrimaryNoLease`. -/
theorem simPrimaryNoLease_trace :
    tickTrace simEnv ha0 cmResync cmResync simPrimaryNoLease =
      [Event.GetClusterFromKubernetes none, Event.IsRunning "pod-0" true,
        Event.GetCluster recSwitch1, Event.GetCluster recSwitch1, Event.IsLocked false,
        Event.IsRunning "pod-0" true, Event.IsLeader true none, Event.GetSysID "sys-1" none,
        Event.GetCluster recSwitch1, Event.AttemptToAcquireLeaderLock "pod-0" none,
        Event.GetCluster (recSwitch1.withLeader "pod-0" 1000 none),
        Event.GetCluster (recSwitch1.withLeader "pod-0" 1000 none),
        Event.GetClusterCompName "pg-cluster",
        Event.DeleteConfigMap "pg-cluster-switchover" none,
        Event.EnforcePrimaryRole "pod-0" none] := by
  decide

/-- C5, counterexample.  In the world `simPrimaryNoLease` the record shows no
valid leader and a switchover to `pod-1` is pending, while the engine of `pod-0`
reports itself primary with the record's sysID: `pod-0` attempts the lease
acquisition and deletes the switchover marker. -/
theorem primary_acquires_despite_switchover :
    Event.IsLocked false ∈ tickTrace simEnv ha0 cmResync cmResync simPrimaryNoLease ∧
      Event.GetCluster recSwitch1 ∈ tickTrace simEnv ha0 cmResync cmResync simPrimaryNoLease ∧
      recSwitch1.Switchover = some { target := "pod-1" } ∧ ha0.podName ≠ "pod-1" ∧
      Op.AttemptToAcquireLeaderLock ∈
        ops (tickTrace simEnv ha0 cmResync cmResync simPrimaryNoLease) ∧
      Event.DeleteConfigMap "pg-cluster-switchover" none ∈
        tickTrace simEnv ha0 cmResync cmResync simPrimaryNoLease := by
  decide

/-- C5, amended.  In a tick that reads the record and finds no valid leader,
with a switchover pending that names another member (the adapter selecting for
a switchover only the member it names), the member attempts the lease
acquisition exactly when its engine is running and reports itself primary,
without error, with the record's sysID; otherwise it neither attempts the
acquisition nor deletes the switchover marker. -/
theorem other_target_acquires_only_as_primary {σ : Type} (env : Env σ) (h : Ha)
    (o n : ConfigMap) (s : σ)
    (hread : ReadsRecord env h o n s) (hnl : recordLocked env h s = false)
    (hsw : ∃ sw, (env.cs.GetCluster (afterRole env h s)).Switchover = some sw ∧
      sw.target ≠ h.podName)
    (hadapter : ∀ st, (∃ sw, (env.cs.GetCluster st).Switchover = some sw ∧
      sw.target ≠ h.podName) → (env.db.ProcessManualSwitchoverFromNoLeader h.podName st).1 = false) :
    (Op.AttemptToAcquireLeaderLock ∈ ops (tickTrace env h o n s) ↔ SelfPrimary env h s) ∧
      (¬ SelfPrimary env h s →
        Op.AttemptToAcquireLeaderLock ∉ ops (tickTrace env h o n s) ∧
          Op.DeleteConfigMap ∉ ops (tickTrace env h o n s)) := by
  have he := eligible_iff_selfPrimary env h s hsw hadapter
  obtain ⟨hc, hd⟩ := noLeader_acquires_iff_eligible env h o n s hread hnl
  have hiff : Op.AttemptToAcquireLeaderLock ∈ ops (tickTrace env h o n s) ↔
      SelfPrimary env h s := by
    rw [← he, ← List.count_pos_iff, hc]
    by_cases hv : (isHealthiest env h (decisionState env h s)).val = true
    · simp [hv]
    · simp [hv]
  refine ⟨hiff, fun hnp => ⟨fun hm => hnp (hiff.mp hm), hd ?_⟩⟩
  cases hv : (isHealthiest env h (decisionState env h s)).val
  · rfl
  · exact absurd (he.mp hv) hnp

/-- The tick of `pod-0` in the world `simNotSelected`. -/
theorem simNotSelected_trace :
    tickTrace simEnv ha0 cmResync cmResync simNotSelected =
      [Event.GetClusterFromKubernetes none, Event.IsRunning "pod-0" true,
        Event.GetCluster recSwitch1, Event.GetCluster recSwitch1, Event.IsLocked false,
        Event.IsRunning "pod-0" true, Event.IsLeader false none, Event.GetCluster recSwitch1,
        Event.ProcessManualSwitchoverFromNoLeader "pod-0" false, Event.Sleep 2,
        Event.GetClusterFromKubernetes none, Event.IsLeader false none,
        Event.GetCluster recSwitch1, Event.HandleFollow none "pod-0" none] := by
  decide

/-- C5 amended, at concrete inputs: the world `simNotSelected`, where a
switchover to `pod-1` is pending and the engine of `pod-0` is a replica, so that
`pod-0` neither attempts the acquisition nor deletes the marker; and the world
`simPrimaryNoLease`, where the engine of `pod-0` is primary of the record's
system and `pod-0` attempts the acquisition. -/
theorem other_target_acquires_only_as_primary_witness :
    (ReadsRecord targetEnv ha0 cmResync cmResync simNotSelected ∧
        recordLocked targetEnv ha0 simNotSelected = false ∧
        (targetEnv.cs.GetCluster (afterRole targetEnv ha0 simNotSelected)).Switchover =
          some { target := "pod-1" } ∧
        ¬ SelfPrimary targetEnv ha0 simNotSelected) ∧
      (Op.AttemptToAcquireLeaderLock ∉
          ops (tickTrace targetEnv ha0 cmResync cmResync simNotSelected) ∧
        Op.DeleteConfigMap ∉ ops (tickTrace targetEnv ha0 cmResync cmResync simNotSelected)) ∧
      SelfPrimary targetEnv ha0 simPrimaryNoLease ∧
      Op.AttemptToAcquireLeaderLock ∈
        ops (tickTrace targetEnv ha0 cmResync cmResync simPrimaryNoLease) :=
  have hnp : ¬ SelfPrimary targetEnv ha0 simNotSelected := fun hp => absurd hp.2.1 (by decide)
  have hp : SelfPrimary targetEnv ha0 simPrimaryNoLease :=
    ⟨by decide, by decide, by decide, by decide⟩
  ⟨⟨⟨rfl, by decide, by decide⟩, by decide, by decide, hnp⟩,
    (other_target_acquires_only_as_primary targetEnv ha0 cmResync cmResync simNotSelected
      ⟨rfl, by decide, by decide⟩ (by decide) ⟨{ target := "pod-1" }, by decide, by decide⟩
      (targetEnv_selects_target ha0.podName)).2 hnp,
    hp,
    (other_target_acquires_only_as_primary targetEnv ha0 cmResync cmResync simPrimaryNoLease
      ⟨rfl, by decide, by decide⟩ (by decide) ⟨{ target := "pod-1" }, by decide, by decide⟩
      (targetEnv_selects_target ha0.podName)).1.mpr hp⟩

/-- The tick of `pod-0` in the world `simDeleteFails`. -/
theorem simDeleteFails_trace :
    tickTrace simEnv ha0 cmResync cmResync simDeleteFails =
      [Event.GetClusterFromKubernetes none, Event.IsRunning "pod-0" true,
        Event.GetCluster recSwitch0, Event.GetCluster recSwitch0, Event.IsLocked false,
        Event.IsRunning "pod-0" true, Event.IsLeader false none, Event.GetCluster recSwitch0,
        Event.ProcessManualSwitchoverFromNoLeader "pod-0" true,
        Event.AttemptToAcquireLeaderLock "pod-0" none,
        Event.GetCluster (recSwitch0.withLeader "pod-0" 1000 none),
        Event.GetCluster (recSwitch0.withLeader "pod-0" 1000 none),
        Event.GetClusterCompName "pg-cluster",
        Event.DeleteConfigMap "pg-cluster-switchover" (some "timeout")] := by
  decide

/-- C7, counterexample.  In the world `simDeleteFails` the lease acquisition of
`pod-0` succeeds, a switchover marker is pending and deleting it fails: the tick
ends without `EnforcePrimaryRole`. -/
theorem failed_marker_delete_skips_enforce :
    Event.AttemptToAcquireLeaderLock ha0.podName none ∈
        tickTrace simEnv ha0 cmResync cmResync simDeleteFails ∧
      Event.DeleteConfigMap "pg-cluster-switchover" (some "timeout") ∈
        tickTrace simEnv ha0 cmResync cmResync simDeleteFails ∧
      Op.EnforcePrimaryRole ∉ ops (tickTrace simEnv ha0 cmResync cmResync simDeleteFails) := by
  decide

/-- C7, amended.  In a tick in which the lease acquisition by this member
succeeds, `EnforcePrimaryRole` is called, whether or not a switchover marker is
pending, exactly when no `DeleteConfigMap` of the tick fails: when clearing a
pending marker fails the tick ends without `EnforcePrimaryRole`. -/
theorem acquired_enforces_unless_delete_fails {σ : Type} (env : Env σ) (h : Ha)
    (o n : ConfigMap) (s : σ)
    (hacq : Event.AttemptToAcquireLeaderLock h.podName none ∈ tickTrace env h o n s) :
    Op.EnforcePrimaryRole ∈ ops (tickTrace env h o n s) ↔
      ∀ k e, Event.DeleteConfigMap k e ∈ tickTrace env h o n s → e = none := by
  have hs := clusterControl_shape env h o n s
  generalize tickTrace env h o n s = tr at *
  generalize tickHa env h o n s = h' at *
  cases hs with
  | ignored hrv => simp at hacq
  | refreshFailed hrv e he => simp at hacq
  | started hrv e => simp at hacq
  | locked hrv c h' t ht =>
    have n1 : Event.AttemptToAcquireLeaderLock h.podName none ∉ t :=
      not_mem_of_op Op.AttemptToAcquireLeaderLock ht.ops_mem_locked rfl (by decide)
    simp [n1] at hacq
  | noLeader hrv c h' t ht =>
    cases ht with
    | notEligible ht f hh hf =>
      have n1 : Event.AttemptToAcquireLeaderLock h.podName none ∉ ht :=
        not_mem_of_op Op.AttemptToAcquireLeaderLock hh.ops_mem_health rfl (by decide)
      have n2 : Event.AttemptToAcquireLeaderLock h.podName none ∉ f :=
        not_mem_of_op Op.AttemptToAcquireLeaderLock hf.ops_mem_follow rfl (by decide)
      simp [n1, n2] at hacq
    | lost err he' ht a f m hh ha hf hm =>
      have n1 : Event.AttemptToAcquireLeaderLock h.podName none ∉ ht :=
        not_mem_of_op Op.AttemptToAcquireLeaderLock hh.ops_mem_health rfl (by decide)
      have n2 : Event.AttemptToAcquireLeaderLock h.podName none ∉ f :=
        not_mem_of_op Op.AttemptToAcquireLeaderLock hf.ops_mem_follow rfl (by decide)
      have n3 : Event.AttemptToAcquireLeaderLock h.podName none ∉ m :=
        not_mem_of_op Op.AttemptToAcquireLeaderLock hm.ops_mem_marker rfl (by decide)
      rw [ha.lost_trace he'] at hacq
      simp [n1, n2, n3, Ne.symm he'] at hacq
    | acquired h2 ht a m hh ha hm =>
      have hd1 : ∀ k e, Event.DeleteConfigMap k e ∉ ht :=
        fun k e => not_mem_of_op Op.DeleteConfigMap hh.ops_mem_health rfl (by decide)
      have hd2 : ∀ k e, Event.DeleteConfigMap k e ∉ a :=
        fun k e => not_mem_of_op Op.DeleteConfigMap ha.ops_mem_acquire rfl (by decide)
      have he1 : Op.EnforcePrimaryRole ∉ ops ht := not_mem_ops hh.ops_mem_health (by decide)
      have he2 : Op.EnforcePrimaryRole ∉ ops a := not_mem_ops ha.ops_mem_acquire (by decide)
      simp only [ops] at he1 he2
      cases hm with
      | noMarker c' hc e => simp [ops, Event.op, hd1, hd2]
      | deleted c' hc name e => simp [ops, Event.op, hd1, hd2]
      | deleteFailed c' hc name e he =>
        simp only [ops, List.map_cons, List.map_append, List.mem_cons, List.mem_append,
          Event.op, reduceCtorEq, false_or, he1, he2, List.map_nil, List.not_mem_nil, or_false,
          false_iff, not_forall]
        exact ⟨name ++ SwitchoverSuffix, e, by simp, he⟩

/-- The tick of `pod-0` in the world `simBase`. -/
theorem simBase_trace :
    tickTrace simEnv ha0 cmResync cmResync simBase =
      [Event.GetClusterFromKubernetes none, Event.IsRunning "pod-0" true,
        Event.GetCluster recNoLeader, Event.GetCluster recNoLeader, Event.IsLocked false,
        Event.IsRunning "pod-0" true, Event.IsLeader false none, Event.GetCluster recNoLeader,
        Event.IsHealthiest "pod-0" true, Event.AttemptToAcquireLeaderLock "pod-0" none,
        Event.GetCluster recLeader0At1000, Event.GetCluster recLeader0At1000,
        Event.EnforcePrimaryRole "pod-0" none] := by
  decide

/-- C7 amended, at a concrete input: the world `simBase`, where the acquisition
succeeds and no marker is pending. -/
theorem acquired_enforces_unless_delete_fails_witness :
    Op.EnforcePrimaryRole ∈ ops (tickTrace simEnv ha0 cmResync cmResync simBase) ↔
      ∀ k e, Event.DeleteConfigMap k e ∈ tickTrace simEnv ha0 cmResync cmResync simBase →
        e = none :=
  acquired_enforces_unless_delete_fails simEnv ha0 cmResync cmResync simBase
    (by rw [simBase_trace]; decide)

/-- C8 (the code departs from the claim).  In the world `simLostRaceSwitchover`
a switchover to `pod-0` is pending, `pod-0` is selected and its
`AttemptToAcquireLeaderLock` returns an error; the tick follows the winner
`pod-1` and then still deletes the switchover marker (and enforces the primary
role): the missing `return` after line 237, as for C1. -/
theorem lost_acquisition_deletes_marker :
    tickTrace simEnv ha0 cmResync cmResync simLostRaceSwitchover =
      [Event.GetClusterFromKubernetes none, Event.IsRunning "pod-0" true,
        Event.GetCluster recSwitch0, Event.GetCluster recSwitch0, Event.IsLocked false,
        Event.IsRunning "pod-0" true, Event.IsLeader false none, Event.GetCluster recSwitch0,
        Event.ProcessManualSwitchoverFromNoLeader "pod-0" true,
        Event.AttemptToAcquireLeaderLock "pod-0" (some "conflict"),
        Event.GetClusterFromKubernetes none, Event.IsLeader false none,
        Event.GetCluster recLeader1Switch0,
        Event.HandleFollow recLeader1Switch0.Leader "pod-0" none,
        Event.GetCluster recLeader1Switch0, Event.GetClusterCompName "pg-cluster",
        Event.DeleteConfigMap "pg-cluster-switchover" none,
        Event.EnforcePrimaryRole "pod-0" none] := by
  decide

/-- C9, counterexample.  An update notification whose new resource version
differs from the old one is dropped: the tick calls nothing, not even the
refresh, and leaves the controller as it was. -/
theorem changed_record_is_ignored :
    cmResync.ResourceVersion ≠ cmChanged.ResourceVersion ∧
      tickTrace simEnv ha0 cmResync cmChanged simBase = [] ∧
      tickHa simEnv ha0 cmResync cmChanged simBase = ha0 := by
  decide

/-- C9, amended.  `clusterControl` runs the decision algorithm (its first call
is the refresh of the record from the store) exactly for the update
notifications whose new resource version equals the old one, the periodic
resync; a notification with a new resource version is dropped before any
call. -/
theorem refresh_iff_resync {σ : Type} (env : Env σ) (h : Ha) (o n : ConfigMap) (s : σ) :
    ((∃ e t, tickTrace env h o n s = Event.GetClusterFromKubernetes e :: t) ↔
        o.ResourceVersion = n.ResourceVersion) ∧
      (tickTrace env h o n s = [] ↔ o.ResourceVersion ≠ n.ResourceVersion) := by
  have hs := clusterControl_shape env h o n s
  generalize tickTrace env h o n s = tr at *
  generalize tickHa env h o n s = h' at *
  cases hs with
  | ignored hrv => simp [hrv]
  | refreshFailed hrv e he => simp [hrv]
  | started hrv e => simp [hrv]
  | locked hrv c h' t ht => simp [hrv]
  | noLeader hrv c h' t ht => simp [hrv]

/-- C10.  In a tick in which the refresh succeeds and the adapter reports the
engine as not running, `Start` is called once and nothing else happens: the
trace is the refresh, the `IsRunning` query and the `Start` call, whatever
`Start` returns, and the controller is unchanged. -/
theorem not_running_only_starts {σ : Type} (env : Env σ) (h : Ha) (o n : ConfigMap) (s : σ)
    (href : Event.GetClusterFromKubernetes none ∈ tickTrace env h o n s)
    (hrun : ∀ b, Event.IsRunning h.podName b ∈ tickTrace env h o n s → b = false) :
    (∃ e, tickTrace env h o n s =
        [Event.GetClusterFromKubernetes none, Event.IsRunning h.podName false,
          Event.Start h.podName e]) ∧
      tickHa env h o n s = h := by
  have hs := clusterControl_shape env h o n s
  generalize tickTrace env h o n s = tr at *
  generalize tickHa env h o n s = h' at *
  cases hs with
  | ignored hrv => simp at href
  | refreshFailed hrv e he =>
    simp only [List.mem_singleton, Event.GetClusterFromKubernetes.injEq] at href
    exact absurd href.symm he
  | started hrv e => exact ⟨⟨e, rfl⟩, rfl⟩
  | locked hrv c h' t ht => exact absurd (hrun true (by simp)) (by decide)
  | noLeader hrv c h' t ht => exact absurd (hrun true (by simp)) (by decide)

/-- The tick of `pod-0` in the world `simStopped`. -/
theorem simStopped_trace :
    tickTrace simEnv ha0 cmResync cmResync simStopped =
      [Event.GetClusterFromKubernetes none, Event.IsRunning "pod-0" false,
        Event.Start "pod-0" (some "exit status 1")] := by
  decide

/-- C10 at a concrete input: the world `simStopped`, where the engine is down
and `Start` fails. -/
theorem not_running_only_starts_witness :
    (∃ e, tickTrace simEnv ha0 cmResync cmResync simStopped =
        [Event.GetClusterFromKubernetes none, Event.IsRunning ha0.podName false,
          Event.Start ha0.podName e]) ∧
      tickHa simEnv ha0 cmResync cmResync simStopped = ha0 :=
  not_running_only_starts simEnv ha0 cmResync cmResync simStopped
    (by rw [simStopped_trace]; decide)
    (by rw [simStopped_trace]; simp)

/-- C11.  In a tick whose first call, the refresh of the record, fails with an
error `e`, nothing else is called (no adapter operation, no write or delete on
the store), the controller and with it `isLeader` is unchanged, and the
collaborators are in the state the failed refresh left. -/
theorem failed_refresh_ends_tick {σ : Type} (env : Env σ) (h : Ha) (o n : ConfigMap) (s : σ)
    (e : Err) (he : e ≠ none)
    (hfirst : (tickTrace env h o n s).head? = some (Event.GetClusterFromKubernetes e)) :
    tickTrace env h o n s = [Event.GetClusterFromKubernetes e] ∧ tickHa env h o n s = h ∧
      tickSt env h o n s = (env.cs.GetClusterFromKubernetes s).2 := by
  simp only [tickHa, tickTrace, tickSt, clusterControl, ite_run, bind_trace, bind_val, bind_st,
    pure_trace, pure_val, pure_st, call_trace, call_val, call_st, apply_ite Res.trace,
    apply_ite Res.val, apply_ite Res.st, getCluster_trace, getCluster_val, getCluster_st,
    isLocked_trace, isLocked_val, isLocked_st, touchMember_trace, touchMember_st, ite_self,
    List.singleton_append, List.append_nil, List.nil_append] at hfirst ⊢
  split_ifs at hfirst ⊢ with h1 h2 h3 h4
  · simp at hfirst
  · simp only [List.head?_cons, Option.some.injEq, Event.GetClusterFromKubernetes.injEq]
      at hfirst
    rw [hfirst]
    exact ⟨rfl, rfl, rfl⟩
  all_goals
    simp only [List.head?_cons, Option.some.injEq, Event.GetClusterFromKubernetes.injEq]
      at hfirst
    exact absurd (hfirst.symm.trans (not_not.mp h2)) he

/-- The tick of `pod-0` in the world `simStoreDown`. -/
theorem simStoreDown_trace :
    tickTrace simEnv ha0 cmResync cmResync simStoreDown =
      [Event.GetClusterFromKubernetes (some "timeout")] := by
  decide

/-- C11 at a concrete input: the world `simStoreDown`, where the refresh times
out. -/
theorem failed_refresh_ends_tick_witness :
    tickTrace simEnv ha0 cmResync cmResync simStoreDown =
        [Event.GetClusterFromKubernetes (some "timeout")] ∧
      tickHa simEnv ha0 cmResync cmResync simStoreDown = ha0 ∧
      tickSt simEnv ha0 cmResync cmResync simStoreDown =
        (simEnv.cs.GetClusterFromKubernetes simStoreDown).2 :=
  failed_refresh_ends_tick simEnv ha0 cmResync cmResync simStoreDown (some "timeout")
    (by decide) (by rw [simStoreDown_trace]; rfl)

/-- C12 (the code departs from the claim).  In the world `simNotMember` the
refresh succeeds, the engine of `pod-0` is running and `pod-0` is not listed in
the members of the record; the tick calls `touchMember`, which is empty, and no
write on the store at all: afterwards neither the record in the store nor the
cached copy lists `pod-0`. -/
theorem touch_member_registers_nothing :
    recLeader1Alone.HasMember ha0.podName = false ∧
      tickTrace simEnv ha0 cmResync cmResync simNotMember =
        [Event.GetClusterFromKubernetes none, Event.IsRunning "pod-0" true,
          Event.GetCluster recLeader1Alone, Event.GetCluster recLeader1Alone,
          Event.IsLocked true, Event.GetCluster recLeader1Alone,
          Event.GetClusterFromKubernetes none, Event.IsLeader false none,
          Event.GetCluster recLeader1Alone,
          Event.HandleFollow recLeader1Alone.Leader "pod-0" none] ∧
      (tickSt simEnv ha0 cmResync cmResync simNotMember).store.HasMember ha0.podName = false ∧
      (tickSt simEnv ha0 cmResync cmResync simNotMember).cluster.HasMember ha0.podName =
        false := by
  decide

/-- C13.  When `isHealthiest` returns true, the adapter reported the engine as
running and (i) it reported the engine as primary without error and a sysID,
without error, equal to the sysID of the record, or (ii) the record has a
switchover pending and `ProcessManualSwitchoverFromNoLeader` selected this
member, or (iii) the adapter's `IsHealthiest` returned true. -/
theorem isHealthiest_true_only_if {σ : Type} (env : Env σ) (h : Ha) (s : σ)
    (hv : (isHealthiest env h s).val = true) :
    Event.IsRunning h.podName true ∈ (isHealthiest env h s).trace ∧
      ((Event.IsLeader true none ∈ (isHealthiest env h s).trace ∧
          ∃ sid c, Event.GetSysID sid none ∈ (isHealthiest env h s).trace ∧
            Event.GetCluster c ∈ (isHealthiest env h s).trace ∧ sid = c.SysID) ∨
        (∃ c, Event.GetCluster c ∈ (isHealthiest env h s).trace ∧ c.Switchover ≠ none ∧
          Event.ProcessManualSwitchoverFromNoLeader h.podName true ∈
            (isHealthiest env h s).trace) ∨
        Event.IsHealthiest h.podName true ∈ (isHealthiest env h s).trace) := by
  have hs := isHealthiest_shape env h s
  rw [hv] at hs
  generalize (isHealthiest env h s).trace = tr at *
  cases hs with
  | primary sid c v hv' =>
    refine ⟨by simp, Or.inl ⟨by simp, sid, c, by simp, by simp, ?_⟩⟩
    simpa using hv'.symm
  | switchover b e c v hn hsw =>
    exact ⟨by simp, Or.inr (Or.inl ⟨c, by simp, hsw, by simp⟩)⟩
  | ranked b e c v hn hsw =>
    exact ⟨by simp, Or.inr (Or.inr (by simp))⟩

/-- C13 at a concrete input: the world `simBase`, where the adapter ranks `pod-0`
as the healthiest. -/
theorem isHealthiest_true_only_if_witness :
    Event.IsRunning ha0.podName true ∈ (isHealthiest simEnv ha0 simBase).trace ∧
      ((Event.IsLeader true none ∈ (isHealthiest simEnv ha0 simBase).trace ∧
          ∃ sid c, Event.GetSysID sid none ∈ (isHealthiest simEnv ha0 simBase).trace ∧
            Event.GetCluster c ∈ (isHealthiest simEnv ha0 simBase).trace ∧ sid = c.SysID) ∨
        (∃ c, Event.GetCluster c ∈ (isHealthiest simEnv ha0 simBase).trace ∧
          c.Switchover ≠ none ∧
          Event.ProcessManualSwitchoverFromNoLeader ha0.podName true ∈
            (isHealthiest simEnv ha0 simBase).trace) ∨
        Event.IsHealthiest ha0.podName true ∈ (isHealthiest simEnv ha0 simBase).trace) :=
  isHealthiest_true_only_if simEnv ha0 simBase (by decide)

/-- C14.  In a tick in which the record shows a valid leader and every view of
the record names this member as leader, `ProcessManualSwitchoverFromLeader` is
called, `EnforcePrimaryRole` is called exactly when it reports the switchover as
not done (with or without an error), and when it reports it done it is the last
call of the tick and the primary role is not re-asserted. -/
theorem leader_enforces_iff_switchover_not_done {σ : Type} (env : Env σ) (h : Ha)
    (o n : ConfigMap) (s : σ)
    (hlock : Event.IsLocked true ∈ tickTrace env h o n s)
    (hmine : ∀ c, Event.GetCluster c ∈ tickTrace env h o n s → c.leaderName = h.podName) :
    Op.ProcessManualSwitchoverFromLeader ∈ ops (tickTrace env h o n s) ∧
      (Op.EnforcePrimaryRole ∈ ops (tickTrace env h o n s) ↔
        ∃ e, Event.ProcessManualSwitchoverFromLeader h.podName false e ∈
          tickTrace env h o n s) ∧
      (∀ e, Event.ProcessManualSwitchoverFromLeader h.podName true e ∈ tickTrace env h o n s →
        Op.EnforcePrimaryRole ∉ ops (tickTrace env h o n s) ∧
        ∃ pre, tickTrace env h o n s =
          pre ++ [Event.ProcessManualSwitchoverFromLeader h.podName true e]) := by
  have hs := clusterControl_shape env h o n s
  generalize tickTrace env h o n s = tr at *
  generalize tickHa env h o n s = h' at *
  cases hs with
  | ignored hrv => simp at hlock
  | refreshFailed hrv e he => simp at hlock
  | started hrv e => simp at hlock
  | noLeader hrv c h' t ht =>
    simp only [List.mem_cons, reduceCtorEq, Event.IsLocked.injEq, Bool.true_eq_false,
      false_or] at hlock
    exact absurd (ht.ops_mem_noLeader _ hlock) (by decide)
  | locked hrv c h' t ht =>
    cases ht with
    | notMine c' hc t' hf => exact absurd (hmine c' (by simp)).symm hc
    | mine c' hc err u d y hu hd hy =>
      have e1 : Op.EnforcePrimaryRole ∉ ops u := not_mem_ops hu.ops_mem_update (by decide)
      have e2 : Op.EnforcePrimaryRole ∉ ops d := not_mem_ops hd.ops_mem_defensive (by decide)
      have p1 : ∀ b e, Event.ProcessManualSwitchoverFromLeader h.podName b e ∉ u :=
        fun b e => not_mem_of_op Op.ProcessManualSwitchoverFromLeader hu.ops_mem_update rfl
          (by decide)
      have p2 : ∀ b e, Event.ProcessManualSwitchoverFromLeader h.podName b e ∉ d :=
        fun b e => not_mem_of_op Op.ProcessManualSwitchoverFromLeader hd.ops_mem_defensive rfl
          (by decide)
      simp only [ops] at e1 e2
      cases hy with
      | done e =>
        refine ⟨by simp [ops, Event.op], by simp [ops, Event.op, e1, e2, p1, p2], ?_⟩
        intro e' he'
        refine ⟨by simp [ops, Event.op, e1, e2], ?_⟩
        have : e' = e := by simpa [p1, p2] using he'
        subst this
        exact ⟨[Event.GetClusterFromKubernetes none, Event.IsRunning h.podName true,
          Event.GetCluster c, Event.GetCluster c, Event.IsLocked true, Event.GetCluster c'] ++
            (u ++ d), by simp⟩
      | enforced e e' =>
        refine ⟨by simp [ops, Event.op], by simp [ops, Event.op, e1, e2, p1, p2], ?_⟩
        intro e2' he2
        simp [p1, p2] at he2

/-- The tick of `pod-0` in the world `simLeader`. -/
theorem simLeader_trace :
    tickTrace simEnv ha0 cmResync cmResync simLeader =
      [Event.GetClusterFromKubernetes none, Event.IsRunning "pod-0" true,
        Event.GetCluster recLeader0, Event.GetCluster recLeader0, Event.IsLocked true,
        Event.GetCluster recLeader0,
        Event.GetOpTime 7 none, Event.GetExtra (some [("lsn", "42")]) none,
        Event.UpdateLeader "pod-0" 7 (some [("lsn", "42")]) none,
        Event.ProcessManualSwitchoverFromLeader "pod-0" false none,
        Event.EnforcePrimaryRole "pod-0" none] := by
  decide

/-- C14 at a concrete input: the world `simLeader`, where `pod-0` holds the lease
and no switchover is done. -/
theorem leader_enforces_iff_switchover_not_done_witness :
    Op.ProcessManualSwitchoverFromLeader ∈
        ops (tickTrace simEnv ha0 cmResync cmResync simLeader) ∧
      (Op.EnforcePrimaryRole ∈ ops (tickTrace simEnv ha0 cmResync cmResync simLeader) ↔
        ∃ e, Event.ProcessManualSwitchoverFromLeader ha0.podName false e ∈
          tickTrace simEnv ha0 cmResync cmResync simLeader) ∧
      (∀ e, Event.ProcessManualSwitchoverFromLeader ha0.podName true e ∈
          tickTrace simEnv ha0 cmResync cmResync simLeader →
        Op.EnforcePrimaryRole ∉ ops (tickTrace simEnv ha0 cmResync cmResync simLeader) ∧
        ∃ pre, tickTrace simEnv ha0 cmResync cmResync simLeader =
          pre ++ [Event.ProcessManualSwitchoverFromLeader ha0.podName true e]) :=
  leader_enforces_iff_switchover_not_done simEnv ha0 cmResync cmResync simLeader
    (by rw [simLeader_trace]; decide)
    (by rw [simLeader_trace]; simp; decide)

/-- C17.  In a tick in which the record shows a valid leader and every view of
the record names this member as leader: when `GetOpTime` fails every
`UpdateLeader` of the tick is passed the operation time 0, when `GetExtra` fails
every `UpdateLeader` is passed the empty map, and whether or not they fail
`UpdateLeader` is called and the tick goes on to
`ProcessManualSwitchoverFromLeader`. -/
theorem renewal_defaults_on_query_failure {σ : Type} (env : Env σ) (h : Ha) (o n : ConfigMap)
    (s : σ)
    (hlock : Event.IsLocked true ∈ tickTrace env h o n s)
    (hmine : ∀ c, Event.GetCluster c ∈ tickTrace env h o n s → c.leaderName = h.podName) :
    (∀ ot oe, Event.GetOpTime ot oe ∈ tickTrace env h o n s → oe ≠ none →
        ∀ p t x e, Event.UpdateLeader p t x e ∈ tickTrace env h o n s → t = 0) ∧
      (∀ ex ee, Event.GetExtra ex ee ∈ tickTrace env h o n s → ee ≠ none →
        ∀ p t x e, Event.UpdateLeader p t x e ∈ tickTrace env h o n s → x = some []) ∧
      Op.UpdateLeader ∈ ops (tickTrace env h o n s) ∧
      Op.ProcessManualSwitchoverFromLeader ∈ ops (tickTrace env h o n s) := by
  have hs := clusterControl_shape env h o n s
  generalize tickTrace env h o n s = tr at *
  generalize tickHa env h o n s = h' at *
  cases hs with
  | ignored hrv => simp at hlock
  | refreshFailed hrv e he => simp at hlock
  | started hrv e => simp at hlock
  | noLeader hrv c h' t ht =>
    simp only [List.mem_cons, reduceCtorEq, Event.IsLocked.injEq, Bool.true_eq_false,
      false_or] at hlock
    exact absurd (ht.ops_mem_noLeader _ hlock) (by decide)
  | locked hrv c h' t ht =>
    cases ht with
    | notMine c' hc t' hf => exact absurd (hmine c' (by simp)).symm hc
    | mine c' hc err u d y hu hd hy =>
      obtain ⟨ot, oe, ex, ee, hot, hex, hup, hcalled⟩ := hu.args
      have u1 : ∀ p t x e, Event.UpdateLeader p t x e ∉ d :=
        fun p t x e => not_mem_of_op Op.UpdateLeader hd.ops_mem_defensive rfl (by decide)
      have u2 : ∀ p t x e, Event.UpdateLeader p t x e ∉ y :=
        fun p t x e => not_mem_of_op Op.UpdateLeader hy.ops_mem_yield rfl (by decide)
      have o1 : ∀ a b, Event.GetOpTime a b ∉ d :=
        fun a b => not_mem_of_op Op.GetOpTime hd.ops_mem_defensive rfl (by decide)
      have o2 : ∀ a b, Event.GetOpTime a b ∉ y :=
        fun a b => not_mem_of_op Op.GetOpTime hy.ops_mem_yield rfl (by decide)
      have x1 : ∀ a b, Event.GetExtra a b ∉ d :=
        fun a b => not_mem_of_op Op.GetExtra hd.ops_mem_defensive rfl (by decide)
      have x2 : ∀ a b, Event.GetExtra a b ∉ y :=
        fun a b => not_mem_of_op Op.GetExtra hy.ops_mem_yield rfl (by decide)
      have hpms : Op.ProcessManualSwitchoverFromLeader ∈ ops y := by
        cases hy <;> simp [ops, Event.op]
      have hupd := hcalled (by decide)
      simp only [ops] at hpms hupd
      refine ⟨?_, ?_, by simp [ops, hupd], by simp [ops, hpms]⟩
      · intro a b hab hb p t x e hmem
        have hab' : Event.GetOpTime a b ∈ u := by simpa [o1, o2] using hab
        have hmem' : Event.UpdateLeader p t x e ∈ u := by simpa [u1, u2] using hmem
        obtain ⟨rfl, rfl⟩ := hot a b hab'
        rw [(hup p t x e hmem').2.1, if_pos hb]
      · intro a b hab hb p t x e hmem
        have hab' : Event.GetExtra a b ∈ u := by simpa [x1, x2] using hab
        have hmem' : Event.UpdateLeader p t x e ∈ u := by simpa [u1, u2] using hmem
        obtain ⟨rfl, rfl⟩ := hex a b hab'
        rw [(hup p t x e hmem').2.2, if_pos hb]

/-- The tick of `pod-0` in the world `simNoProgress`. -/
theorem simNoProgress_trace :
    tickTrace simEnv ha0 cmResync cmResync simNoProgress =
      [Event.GetClusterFromKubernetes none, Event.IsRunning "pod-0" true,
        Event.GetCluster recLeader0, Event.GetCluster recLeader0, Event.IsLocked true,
        Event.GetCluster recLeader0,
        Event.GetOpTime 99 (some "timeout"), Event.GetExtra none (some "timeout"),
        Event.UpdateLeader "pod-0" 0 (some []) none,
        Event.ProcessManualSwitchoverFromLeader "pod-0" false none,
        Event.EnforcePrimaryRole "pod-0" none] := by
  decide

/-- C17 at a concrete input: the world `simNoProgress`, where `pod-0` holds the
lease and both `GetOpTime` and `GetExtra` time out. -/
theorem renewal_defaults_on_query_failure_witness :
    (∀ ot oe, Event.GetOpTime ot oe ∈ tickTrace simEnv ha0 cmResync cmResync simNoProgress →
        oe ≠ none →
        ∀ p t x e, Event.UpdateLeader p t x e ∈
          tickTrace simEnv ha0 cmResync cmResync simNoProgress → t = 0) ∧
      (∀ ex ee, Event.GetExtra ex ee ∈ tickTrace simEnv ha0 cmResync cmResync simNoProgress →
        ee ≠ none →
        ∀ p t x e, Event.UpdateLeader p t x e ∈
          tickTrace simEnv ha0 cmResync cmResync simNoProgress → x = some []) ∧
      Op.UpdateLeader ∈ ops (tickTrace simEnv ha0 cmResync cmResync simNoProgress) ∧
      Op.ProcessManualSwitchoverFromLeader ∈
        ops (tickTrace simEnv ha0 cmResync cmResync simNoProgress) :=
  renewal_defaults_on_query_failure simEnv ha0 cmResync cmResync simNoProgress
    (by rw [simNoProgress_trace]; decide)
    (by rw [simNoProgress_trace]; simp; decide)

/-- C16.  In every tick `AttemptToAcquireLeaderLock` is called at most once, and
it is called once exactly when the tick gets to read the record (a resync
notification, the refresh succeeds, the engine runs), the record shows no valid
leader and `isHealthiest`, run from the state in which the tick decides,
returns true; in every other tick (a valid leader recorded, the member not
eligible, or the tick ended before) it is not called, and a failed call is not
repeated. -/
theorem acquisition_at_most_once {σ : Type} (env : Env σ) (h : Ha) (o n : ConfigMap) (s : σ) :
    (ops (tickTrace env h o n s)).count Op.AttemptToAcquireLeaderLock ≤ 1 ∧
      ((ops (tickTrace env h o n s)).count Op.AttemptToAcquireLeaderLock = 1 ↔
        ReadsRecord env h o n s ∧ recordLocked env h s = false ∧
          (isHealthiest env h (decisionState env h s)).val = true) := by
  by_cases hread : ReadsRecord env h o n s
  · cases hl : recordLocked env h s
    · have hc := (noLeader_acquires_iff_eligible env h o n s hread hl).1
      by_cases hv : (isHealthiest env h (decisionState env h s)).val = true
      · rw [if_pos hv] at hc
        exact ⟨by omega, by simp [hc, hread, hv]⟩
      · rw [if_neg hv] at hc
        exact ⟨by omega, by simp [hc, hv]⟩
    · obtain ⟨htr, _⟩ := tick_locked env h o n s hread hl
      have c1 := count_ops_eq_zero
        (lockedBranch_shape env h (decisionState env h s)).ops_mem_locked
        (show Op.AttemptToAcquireLeaderLock ∉ lockedOps by decide)
      have hc : (ops (tickTrace env h o n s)).count Op.AttemptToAcquireLeaderLock = 0 := by
        rw [htr]
        simp only [ops] at c1
        simp [ops, Event.op, List.count_cons, c1]
      exact ⟨by omega, by simp [hc]⟩
  · have hc := count_ops_eq_zero (tick_stops env h o n s hread).2
      (show Op.AttemptToAcquireLeaderLock ∉
        [Op.GetClusterFromKubernetes, Op.IsRunning, Op.Start] by decide)
    exact ⟨by omega, by simp [hc, hread]⟩

/-- C16 at concrete inputs: in the world `simBase` the tick of `pod-0` reads the
record, finds no valid leader and the member eligible, and calls the
acquisition once; in the world `simFormerLeader`, where `pod-1` holds the lease,
it does not call it. -/
theorem acquisition_at_most_once_witness :
    (ReadsRecord simEnv ha0 cmResync cmResync simBase ∧ recordLocked simEnv ha0 simBase = false ∧
        (isHealthiest simEnv ha0 (decisionState simEnv ha0 simBase)).val = true) ∧
      (ops (tickTrace simEnv ha0 cmResync cmResync simBase)).count
        Op.AttemptToAcquireLeaderLock = 1 ∧
      recordLocked simEnv ha0 simFormerLeader = true ∧
      (ops (tickTrace simEnv ha0 cmResync cmResync simFormerLeader)).count
        Op.AttemptToAcquireLeaderLock ≠ 1 :=
  ⟨⟨⟨rfl, by decide, by decide⟩, by decide, by decide⟩,
    (acquisition_at_most_once simEnv ha0 cmResync cmResync simBase).2.mpr
      ⟨⟨rfl, by decide, by decide⟩, by decide, by decide⟩,
    by decide,
    fun hc => absurd
      ((acquisition_at_most_once simEnv ha0 cmResync cmResync simFormerLeader).2.mp hc).2.1
      (by decide)⟩

/-- C18, counterexample.  In the world `simNotHealthiest` the record shows no
valid leader, `pod-0` is not eligible and the record re-read by `follow` still
has no leader: the tick calls the adapter mutator `HandleFollow`, with no leader
as target. -/
theorem follow_without_leader_calls_handle_follow :
    Event.IsLocked false ∈ tickTrace simEnv ha0 cmResync cmResync simNotHealthiest ∧
      (isHealthiest simEnv ha0 (decisionState simEnv ha0 simNotHealthiest)).val = false ∧
      ops (tickTrace simEnv ha0 cmResync cmResync simNotHealthiest) =
        [Op.GetClusterFromKubernetes, Op.IsRunning, Op.GetCluster, Op.GetCluster, Op.IsLocked,
          Op.IsRunning, Op.IsLeader, Op.GetCluster, Op.IsHealthiest, Op.Sleep,
          Op.GetClusterFromKubernetes, Op.IsLeader, Op.GetCluster, Op.HandleFollow] ∧
      Event.GetCluster recNoLeader ∈ tickTrace simEnv ha0 cmResync cmResync simNotHealthiest ∧
      recNoLeader.Leader = none ∧
      Event.HandleFollow none "pod-0" none ∈
        tickTrace simEnv ha0 cmResync cmResync simNotHealthiest := by
  decide

/-- C18, amended.  In a tick that reads the record, finds no valid leader and
the member not eligible, and whose `follow` re-reads the record without error
and finds no leader in it, the follow step calls exactly one adapter mutator:
`Demote`, once, when the engine reports itself primary without error, and
otherwise `HandleFollow`, once, with no leader as target; `EnforcePrimaryRole`,
`Start` and the lease acquisition are not called. -/
theorem not_eligible_follow_calls_adapter {σ : Type} (env : Env σ) (h : Ha) (o n : ConfigMap)
    (s : σ)
    (hread : ReadsRecord env h o n s) (hnl : recordLocked env h s = false)
    (hne : (isHealthiest env h (decisionState env h s)).val = false)
    (hre : followRefresh env h s = none)
    (hnone : (followRecord env h s).Leader = none) :
    (ops (tickTrace env h o n s)).count Op.EnforcePrimaryRole = 0 ∧
      (ops (tickTrace env h o n s)).count Op.Start = 0 ∧
      (ops (tickTrace env h o n s)).count Op.AttemptToAcquireLeaderLock = 0 ∧
      (followRole env h s = (true, none) →
        (ops (tickTrace env h o n s)).count Op.Demote = 1 ∧
          (ops (tickTrace env h o n s)).count Op.HandleFollow = 0 ∧
          ∃ e, Event.Demote h.podName e ∈ tickTrace env h o n s) ∧
      (followRole env h s ≠ (true, none) →
        (ops (tickTrace env h o n s)).count Op.Demote = 0 ∧
          (ops (tickTrace env h o n s)).count Op.HandleFollow = 1 ∧
          ∃ e, Event.HandleFollow none h.podName e ∈ tickTrace env h o n s) := by
  obtain ⟨htr, _⟩ := tick_noLeader env h o n s hread hnl
  obtain ⟨hnb, _⟩ := noLeaderBranch_notEligible env h (decisionState env h s) hne
  have hfr := follow_run env h (env.cs.sleep 2 (isHealthiest env h (decisionState env h s)).st)
  have hhe := (isHealthiest_shape env h (decisionState env h s)).ops_mem_health
  have c1 := count_ops_eq_zero hhe (show Op.EnforcePrimaryRole ∉ healthOps by decide)
  have c2 := count_ops_eq_zero hhe (show Op.Start ∉ healthOps by decide)
  have c3 := count_ops_eq_zero hhe (show Op.AttemptToAcquireLeaderLock ∉ healthOps by decide)
  have c4 := count_ops_eq_zero hhe (show Op.Demote ∉ healthOps by decide)
  have c5 := count_ops_eq_zero hhe (show Op.HandleFollow ∉ healthOps by decide)
  simp only [followRefresh, followState] at hre
  simp only [followRecord, followRoleState, followState] at hnone
  simp only [followRole, followRoleState, followState]
  rw [if_neg (not_not.mpr hre)] at hfr
  rw [htr, hnb]
  simp only [ops] at c1 c2 c3 c4 c5
  by_cases hp : (env.db.IsLeader (env.cs.GetClusterFromKubernetes
      (env.cs.sleep 2 (isHealthiest env h (decisionState env h s)).st)).2).1 = (true, none)
  · have hp2 : (env.db.IsLeader (env.cs.GetClusterFromKubernetes
        (env.cs.sleep 2 (isHealthiest env h (decisionState env h s)).st)).2).1.1 = true ∧
        (env.db.IsLeader (env.cs.GetClusterFromKubernetes
          (env.cs.sleep 2 (isHealthiest env h (decisionState env h s)).st)).2).1.2 = none := by
      rw [hp]
      exact ⟨rfl, rfl⟩
    rw [if_pos hp2] at hfr
    obtain ⟨e0, hfr⟩ : ∃ e0, (follow env h
        (env.cs.sleep 2 (isHealthiest env h (decisionState env h s)).st)).trace =
        [Event.GetClusterFromKubernetes none, Event.IsLeader true none,
          Event.Demote h.podName e0] := ⟨_, hfr⟩
    rw [hfr]
    generalize (isHealthiest env h (decisionState env h s)).trace = ht at c1 c2 c3 c4 c5 ⊢
    refine ⟨?_, ?_, ?_, fun _ => ⟨?_, ?_, ⟨e0, ?_⟩⟩, fun hn => absurd hp hn⟩
    · simp [ops, Event.op, List.count_cons, c1]
    · simp [ops, Event.op, List.count_cons, c2]
    · simp [ops, Event.op, List.count_cons, c3]
    · simp [ops, Event.op, List.count_cons, c4]
    · simp [ops, Event.op, List.count_cons, c5]
    · simp
  · have hp2 : ¬((env.db.IsLeader (env.cs.GetClusterFromKubernetes
        (env.cs.sleep 2 (isHealthiest env h (decisionState env h s)).st)).2).1.1 = true ∧
        (env.db.IsLeader (env.cs.GetClusterFromKubernetes
          (env.cs.sleep 2 (isHealthiest env h (decisionState env h s)).st)).2).1.2 = none) :=
      fun hc => hp (Prod.ext hc.1 hc.2)
    rw [if_neg hp2, hnone] at hfr
    obtain ⟨b, e, c, e0, hfr⟩ : ∃ b e c e0, (follow env h
        (env.cs.sleep 2 (isHealthiest env h (decisionState env h s)).st)).trace =
        [Event.GetClusterFromKubernetes none, Event.IsLeader b e, Event.GetCluster c,
          Event.HandleFollow none h.podName e0] := ⟨_, _, _, _, hfr⟩
    rw [hfr]
    generalize (isHealthiest env h (decisionState env h s)).trace = ht at c1 c2 c3 c4 c5 ⊢
    refine ⟨?_, ?_, ?_, fun hc => absurd hc hp, fun _ => ⟨?_, ?_, ⟨e0, ?_⟩⟩⟩
    · simp [ops, Event.op, List.count_cons, c1]
    · simp [ops, Event.op, List.count_cons, c2]
    · simp [ops, Event.op, List.count_cons, c3]
    · simp [ops, Event.op, List.count_cons, c4]
    · simp [ops, Event.op, List.count_cons, c5]
    · simp

/-- The tick of `pod-0` in the world `simNotHealthiest`. -/
theorem simNotHealthiest_trace :
    tickTrace simEnv ha0 cmResync cmResync simNotHealthiest =
      [Event.GetClusterFromKubernetes none, Event.IsRunning "pod-0" true,
        Event.GetCluster recNoLeader, Event.GetCluster recNoLeader, Event.IsLocked false,
        Event.IsRunning "pod-0" true, Event.IsLeader false none, Event.GetCluster recNoLeader,
        Event.IsHealthiest "pod-0" false, Event.Sleep 2,
        Event.GetClusterFromKubernetes none, Event.IsLeader false none,
        Event.GetCluster recNoLeader, Event.HandleFollow none "pod-0" none] := by
  decide

/-- C18 amended, at concrete inputs: the world `simNotHealthiest`, where the
engine of `pod-0` is a replica and `follow` calls `HandleFollow` once, and the
world `simRoguePrimary`, where it reports itself primary of another system and
`follow` calls `Demote` once. -/
theorem not_eligible_follow_calls_adapter_witness :
    (ReadsRecord simEnv ha0 cmResync cmResync simNotHealthiest ∧
        recordLocked simEnv ha0 simNotHealthiest = false ∧
        (isHealthiest simEnv ha0 (decisionState simEnv ha0 simNotHealthiest)).val = false ∧
        followRefresh simEnv ha0 simNotHealthiest = none ∧
        (followRecord simEnv ha0 simNotHealthiest).Leader = none ∧
        followRole simEnv ha0 simNotHealthiest ≠ (true, none)) ∧
      ((ops (tickTrace simEnv ha0 cmResync cmResync simNotHealthiest)).count Op.Demote = 0 ∧
        (ops (tickTrace simEnv ha0 cmResync cmResync simNotHealthiest)).count
          Op.HandleFollow = 1 ∧
        ∃ e, Event.HandleFollow none ha0.podName e ∈
          tickTrace simEnv ha0 cmResync cmResync simNotHealthiest) ∧
      followRole simEnv ha0 simRoguePrimary = (true, none) ∧
      ((ops (tickTrace simEnv ha0 cmResync cmResync simRoguePrimary)).count Op.Demote = 1 ∧
        (ops (tickTrace simEnv ha0 cmResync cmResync simRoguePrimary)).count
          Op.HandleFollow = 0 ∧
        ∃ e, Event.Demote ha0.podName e ∈
          tickTrace simEnv ha0 cmResync cmResync simRoguePrimary) :=
  ⟨⟨⟨rfl, by decide, by decide⟩, by decide, by decide, by decide, by decide, by decide⟩,
    (not_eligible_follow_calls_adapter simEnv ha0 cmResync cmResync simNotHealthiest
      ⟨rfl, by decide, by decide⟩ (by decide) (by decide) (by decide) (by decide)).2.2.2.2
      (by decide),
    by decide,
    (not_eligible_follow_calls_adapter simEnv ha0 cmResync cmResync simRoguePrimary
      ⟨rfl, by decide, by decide⟩ (by decide) (by decide) (by decide) (by decide)).2.2.2.1
      (by decide)⟩

/-- C19 (the code departs from the claim).  In the world `simAmbiguousRole` the
adapter's `IsLeader` query fails on all three attempts and carries the boolean
`true`: `Init` goes on as for a leader and initialises the lease store with
`isLeader = true` and the sysID, metadata and operation time of the engine; in
the world `simAmbiguousRoleStopped`, where in addition the engine is down, it
panics. -/
theorem init_trusts_boolean_of_failed_query :
    (Init simEnv ha0 simAmbiguousRole).trace =
        [Event.IsLeader true (some "connection refused"), Event.Sleep 2,
          Event.IsLeader true (some "connection refused"), Event.Sleep 2,
          Event.IsLeader true (some "connection refused"), Event.Sleep 2,
          Event.IsRunning "pod-0" true, Event.GetSysID "sys-1" none,
          Event.GetExtra (some [("lsn", "42")]) none, Event.GetOpTime 7 none,
          Event.Init true "sys-1" (some [("lsn", "42")]) 7 "pod-0" none] ∧
      (Init simEnv ha0 simAmbiguousRole).val = Outcome.returned ∧
      (Init simEnv ha0 simAmbiguousRoleStopped).trace =
        [Event.IsLeader true (some "connection refused"), Event.Sleep 2,
          Event.IsLeader true (some "connection refused"), Event.Sleep 2,
          Event.IsLeader true (some "connection refused"), Event.Sleep 2,
          Event.IsRunning "pod-0" false] ∧
      (Init simEnv ha0 simAmbiguousRoleStopped).val = Outcome.panicked "db is not running" := by
  decide

/-- The run of `Init` for `pod-0` in the world `simSysIDDown`. -/
theorem simSysIDDown_trace :
    (Init simEnv ha0 simSysIDDown).trace =
      [Event.IsLeader true none, Event.IsRunning "pod-0" true,
        Event.GetSysID "" (some "connection refused")] := by
  decide

/-- C20, counterexample.  In the world `simSysIDDown` the engine reports itself
leader and its `GetSysID` query fails with a connection error: `Init` panics
with that error. -/
theorem init_panics_when_sysid_query_fails :
    Event.GetSysID "" (some "connection refused") ∈ (Init simEnv ha0 simSysIDDown).trace ∧
      (Init simEnv ha0 simSysIDDown).val = Outcome.panicked "connection refused" := by
  decide

/-- C20, amended.  When a `GetSysID`, `GetExtra` or `GetOpTime` query of `Init`
returns an error, `Init` panics with that error and the lease store is not
initialised: these adapter errors terminate the process too. -/
theorem init_panics_on_query_error {σ : Type} (env : Env σ) (h : Ha) (s : σ) (e : Err)
    (he : e ≠ none)
    (hq : (∃ sid, Event.GetSysID sid e ∈ (Init env h s).trace) ∨
      (∃ ex, Event.GetExtra ex e ∈ (Init env h s).trace) ∨
      (∃ ot, Event.GetOpTime ot e ∈ (Init env h s).trace)) :
    (Init env h s).val = Outcome.panicked (Err.message e) ∧
      Op.Init ∉ ops (Init env h s).trace := by
  obtain ⟨hl, ht⟩ := Init_shape env h s
  have l1 : ∀ a b, Event.GetSysID a b ∉ (isLeaderLoop env 3 (false, none) s).trace :=
    fun a b => not_mem_of_op Op.GetSysID hl rfl (by decide)
  have l2 : ∀ a b, Event.GetExtra a b ∉ (isLeaderLoop env 3 (false, none) s).trace :=
    fun a b => not_mem_of_op Op.GetExtra hl rfl (by decide)
  have l3 : ∀ a b, Event.GetOpTime a b ∉ (isLeaderLoop env 3 (false, none) s).trace :=
    fun a b => not_mem_of_op Op.GetOpTime hl rfl (by decide)
  have l4 : Op.Init ∉ ops (isLeaderLoop env 3 (false, none) s).trace :=
    not_mem_ops hl (by decide)
  obtain ⟨tail, htail, htr⟩ := ht
  rw [htr] at hq ⊢
  generalize (isLeaderLoop env 3 (false, none) s).trace = loop at *
  generalize (isLeaderLoop env 3 (false, none) s).val.1 = b at *
  generalize (Init env h s).val = out at *
  simp only [ops] at l4
  cases htail with
  | follower => simp [l1, l2, l3] at hq
  | followerFailed e2 he2 => simp [l1, l2, l3] at hq
  | notRunning => simp [l1, l2, l3] at hq
  | sysIDFailed sid e2 he2 =>
    have : e = e2 := by simpa [l1, l2, l3] using hq
    subst this
    exact ⟨rfl, by simp [ops, Event.op, l4]⟩
  | extraFailed sid ex e2 he2 =>
    have : e = e2 := by simpa [l1, l2, l3, he] using hq
    subst this
    exact ⟨rfl, by simp [ops, Event.op, l4]⟩
  | opTimeFailed sid ex ot e2 he2 =>
    have : e = e2 := by simpa [l1, l2, l3, he] using hq
    subst this
    exact ⟨rfl, by simp [ops, Event.op, l4]⟩
  | initFailed sid ex ot e2 he2 => simp [l1, l2, l3, he] at hq
  | leader sid ex ot => simp [l1, l2, l3, he] at hq

/-- C20 amended, at a concrete input: the world `simSysIDDown`. -/
theorem init_panics_on_query_error_witness :
    (Init simEnv ha0 simSysIDDown).val =
        Outcome.panicked (Err.message (some "connection refused")) ∧
      Op.Init ∉ ops (Init simEnv ha0 simSysIDDown).trace :=
  init_panics_on_query_error simEnv ha0 simSysIDDown (some "connection refused") (by decide)
    (Or.inl ⟨"", by rw [simSysIDDown_trace]; decide⟩)


/-- A call that finds the token stale or a valid leader in the loaded record
fails and leaves the shared object as it was, so every later call fails too. -/
theorem acquireAll_none (view : LeaseObject) :
    ∀ (hs : List Ha) (s : Shared),
      (view.record.lockedAt s.now = true ∨ view.token ≠ s.object.token) →
      ∀ r ∈ acquireAll view hs s, r.2.1 ≠ none := by
  intro hs
  induction hs with
  | nil =>
    intro s _ r hr
    cases hr
  | cons h hs ih =>
    intro s hc r hr
    have hrun := acquireLeaderLock_run (casEnv view) h s
    have htry : TryAcquireLeader h.podName view s =
        (some (if view.record.lockedAt s.now = true then "leader exists" else "Conflict"), s) := by
      unfold TryAcquireLeader
      rcases hc with hc | hc
      · simp [hc]
      · by_cases hl : view.record.lockedAt s.now = true
        · simp [hl]
        · simp [hl, hc]
    have h1 : (casEnv view).cs.AttemptToAcquireLeaderLock h.podName s =
        TryAcquireLeader h.podName view s := rfl
    rw [h1, htry] at hrun
    rcases List.mem_cons.mp hr with hr | hr
    · rw [hr]
      simp only [hrun.1]
      exact Option.some_ne_none _
    · rw [hrun.2.1] at hr
      exact ih s hc r hr

/-- C21: `newDbInterface` yields an adapter exactly when the engine type is the
postgresql or the mysql identifier; for every other engine type `NewHa` ends in
a panic or with the process ended by the logger, returns no controller, and has
run no adapter operation. -/
theorem unknown_engine_rejected_at_startup (w : Startup) :
    (∀ h : Ha, (∃ a, newDbInterface w h = Started.returned (some a)) ↔
        (h.dbType = w.Postgresql ∨ h.dbType = w.Mysql)) ∧
      (¬ (w.characterType = w.Postgresql ∨ w.characterType = w.Mysql) →
        (∃ msg, (NewHa w).1 = Started.panicked msg ∨ (NewHa w).1 = Started.exited msg) ∧
          (∀ r, (NewHa w).1 ≠ Started.returned r) ∧ (NewHa w).2 = []) := by
  constructor
  · intro h
    unfold newDbInterface
    by_cases h1 : h.dbType = w.Postgresql
    · rw [if_pos h1]
      exact ⟨fun _ => Or.inl h1, fun _ => ⟨_, rfl⟩⟩
    · rw [if_neg h1]
      by_cases h2 : h.dbType = w.Mysql
      · rw [if_pos h2]
        exact ⟨fun _ => Or.inr h2, fun _ => ⟨_, rfl⟩⟩
      · rw [if_neg h2]
        constructor
        · rintro ⟨a, ha⟩
          split at ha <;> cases ha
        · rintro (h3 | h3)
          · exact absurd h3 h1
          · exact absurd h3 h2
  · intro hn
    rw [not_or] at hn
    unfold NewHa newDbInterface
    by_cases h1 : w.inClusterConfigErr ≠ none ∧ w.buildConfigErr ≠ none
    · simp [h1]
    · by_cases h2 : w.newForConfigErr ≠ none
      · simp [h1, h2]
      · by_cases h3 : w.fatalfExits = true
        · simp [h1, h2, h3, hn.1, hn.2]
        · simp [h1, h2, h3, hn.1, hn.2]

/-- C22: when members that loaded the same record under the same token call
`acquireLeaderLock` one after the other on the shared object, without a reload
in between, at most one of the calls returns nil, and a controller whose call
failed is left as it was. -/
theorem at_most_one_acquisition_per_token (view : LeaseObject) (hs : List Ha) (s : Shared) :
    ((acquireAll view hs s).filter (fun r => r.2.1 = none)).length ≤ 1 ∧
      ∀ r ∈ acquireAll view hs s, r.2.1 ≠ none → r.2.2 = r.1 := by
  constructor
  · cases hs with
    | nil => simp [acquireAll]
    | cons h hs =>
      have hrun := acquireLeaderLock_run (casEnv view) h s
      have h1 : (casEnv view).cs.AttemptToAcquireLeaderLock h.podName s =
          TryAcquireLeader h.podName view s := rfl
      rw [h1] at hrun
      by_cases hc : view.record.lockedAt s.now = true ∨ view.token ≠ s.object.token
      · have hall := acquireAll_none view (h :: hs) s hc
        rw [List.filter_eq_nil_iff.mpr (fun r hr => by simpa using hall r hr)]
        simp
      · rw [not_or, not_not] at hc
        have htry : TryAcquireLeader h.podName view s =
            (none, { s with object :=
              { record := view.record.withLeader h.podName s.now none,
                token := s.object.token + 1 } }) := by
          unfold TryAcquireLeader
          simp [hc.1, hc.2]
        rw [htry] at hrun
        have hrest := acquireAll_none view hs
          { s with object :=
              { record := view.record.withLeader h.podName s.now none,
                token := s.object.token + 1 } }
          (Or.inr (by
            show view.token ≠ s.object.token + 1
            rw [hc.2]
            omega))
        simp only [acquireAll, hrun.2.1]
        rw [List.filter_cons]
        rw [List.filter_eq_nil_iff.mpr (fun r hr => by simpa using hrest r hr)]
        split <;> simp
  · intro r hr hne
    induction hs generalizing s with
    | nil => cases hr
    | cons h hs ih =>
      have hrun := acquireLeaderLock_run (casEnv view) h s
      rcases List.mem_cons.mp hr with hr | hr
      · rw [hr] at hne ⊢
        simp only at hne ⊢
        rw [hrun.1] at hne
        rw [hrun.2.2.1, if_neg hne]
      · exact ih _ hr

/-- C23: a tick leaves the controller with `isLeader` set to the clock reading
plus the record's ttl, both read right after the acquisition and added as
`int64`, when it read the record, found no valid leader and the member
eligible, and the acquisition call returned nil; with `isLeader` reset to 0 when
it read the record and found it locked with another member as leader; and as it
was in every other case. -/
theorem isLeader_changes_in_two_cases {σ : Type} (env : Env σ) (h : Ha) (o n : ConfigMap)
    (s : σ) :
    (ReadsRecord env h o n s → recordLocked env h s = false →
        (isHealthiest env h (decisionState env h s)).val = true →
        acquisitionResult env h s = none →
        tickHa env h o n s =
          { h with isLeader := wrapInt64 (env.cs.now (acquiredState env h s) +
              (env.cs.GetCluster (acquiredState env h s)).ttl) }) ∧
      (ReadsRecord env h o n s → recordLocked env h s = true →
        h.podName ≠ (env.cs.GetCluster (decisionState env h s)).leaderName →
        tickHa env h o n s = { h with isLeader := 0 }) ∧
      (¬ (ReadsRecord env h o n s ∧ recordLocked env h s = false ∧
          (isHealthiest env h (decisionState env h s)).val = true ∧
          acquisitionResult env h s = none) →
        ¬ (ReadsRecord env h o n s ∧ recordLocked env h s = true ∧
          h.podName ≠ (env.cs.GetCluster (decisionState env h s)).leaderName) →
        tickHa env h o n s = h) := by
  have hrun := acquireLeaderLock_run env h (isHealthiest env h (decisionState env h s)).st
  have hval := lockedBranch_val env h (decisionState env h s)
  obtain ⟨_, _, hv2, _⟩ := hrun
  refine ⟨fun hread hnl he hacq => ?_, fun hread hl hne => ?_, fun hn1 hn2 => ?_⟩
  · rw [(tick_noLeader env h o n s hread hnl).2]
    rcases noLeaderBranch_run env h (decisionState env h s) with ⟨_, hv, _⟩ | ⟨h3, _⟩
    · rw [hv, hv2]
      exact if_pos hacq
    · rw [he] at h3
      cases h3
  · rw [(tick_locked env h o n s hread hl).2, hval, if_neg hne]
  · by_cases hread : ReadsRecord env h o n s
    · cases hl : recordLocked env h s
      · rw [(tick_noLeader env h o n s hread hl).2]
        rcases noLeaderBranch_run env h (decisionState env h s) with ⟨h1, hv, _⟩ | ⟨_, hv, _⟩
        · rw [hv, hv2]
          exact if_neg (fun hacq => hn1 ⟨hread, hl, h1, hacq⟩)
        · rw [hv]
      · rw [(tick_locked env h o n s hread hl).2, hval]
        by_cases hm : h.podName = (env.cs.GetCluster (decisionState env h s)).leaderName
        · rw [if_pos hm]
        · exact absurd ⟨hread, hl, hm⟩ hn2
    · exact (tick_stops env h o n s hread).1

/-- C23 at concrete inputs: in the world `simBase` the tick of `pod-0` acquires
at time 1000 with ttl 30 and leaves `isLeader` at 1030; with the largest `int64`
as ttl the sum wraps around; in the world `simFormerLeader`, where `pod-1` holds
the lease, the tick resets `isLeader` from 1025 to 0; in the world `simStopped`,
where the engine is down, it leaves 1025. -/
theorem isLeader_changes_in_two_cases_witness :
    tickHa simEnv ha0 cmResync cmResync simBase = { ha0 with isLeader := 1030 } ∧
      tickHa simEnv ha0 cmResync cmResync simHugeTtl =
        { ha0 with isLeader := -9223372036854774809 } ∧
      tickHa simEnv ha0Leader cmResync cmResync simFormerLeader =
        { ha0Leader with isLeader := 0 } ∧
      tickHa simEnv ha0Leader cmResync cmResync simStopped = ha0Leader :=
  ⟨((isLeader_changes_in_two_cases simEnv ha0 cmResync cmResync simBase).1
      ⟨rfl, by decide, by decide⟩ (by decide) (by decide) (by decide)).trans (by decide),
    ((isLeader_changes_in_two_cases simEnv ha0 cmResync cmResync simHugeTtl).1
      ⟨rfl, by decide, by decide⟩ (by decide) (by decide) (by decide)).trans (by decide),
    (isLeader_changes_in_two_cases simEnv ha0Leader cmResync cmResync simFormerLeader).2.1
      ⟨rfl, by decide, by decide⟩ (by decide) (by decide),
    (isLeader_changes_in_two_cases simEnv ha0Leader cmResync cmResync simStopped).2.2
      (fun hc => absurd hc.1.2.2 (by decide)) (fun hc => absurd hc.1.2.2 (by decide))⟩

/-- C30 (the code departs from the claim).  The lease record object without
annotations passes the name filter, and the add handler panics on it before it
writes anything;
on the object with an annotation it sets the renew time to the clock reading
plus 1 and writes the object back. -/
theorem add_handler_panics_without_annotations :
    (FilterFunc simEnv cmBare simBase).val = true ∧
      (AddFunc simEnv "renewTime" cmBare simBase).val =
        Outcome.panicked "assignment to entry in nil map" ∧
      (AddFunc simEnv "renewTime" cmBare simBase).trace = [] ∧
      (AddFunc simEnv "renewTime" cmAnnotated simBase).val = Outcome.returned ∧
      (AddFunc simEnv "renewTime" cmAnnotated simBase).trace =
        [Event.UpdateConfigMap
          { cmAnnotated with Annotations := some [("ttl", "30"), ("renewTime", "1001")] }
          none] := by
  decide

end ha

namespace dag

theorem mem_outAdj {d : DAG} {u v : Vertex} : u ∈ d.outAdj v ↔ d.HasEdge v u := by
  simp only [DAG.outAdj, DAG.HasEdge, List.mem_map, List.mem_filter, decide_eq_true_eq]
  constructor
  · rintro ⟨e, ⟨he, h1⟩, h2⟩
    exact ⟨e, he, h1, h2⟩
  · rintro ⟨e, he, h1, h2⟩
    exact ⟨e, ⟨he, h1⟩, h2⟩

theorem mem_inAdj {d : DAG} {u v : Vertex} : u ∈ d.inAdj v ↔ d.HasEdge u v := by
  simp only [DAG.inAdj, DAG.HasEdge, List.mem_map, List.mem_filter, decide_eq_true_eq]
  constructor
  · rintro ⟨e, ⟨he, h1⟩, h2⟩
    exact ⟨e, he, h2, h1⟩
  · rintro ⟨e, he, h1, h2⟩
    exact ⟨e, ⟨he, h2⟩, h1⟩

theorem HasEdge.mem_left {d : DAG} (hcl : d.Closed) {a b : Vertex} (h : d.HasEdge a b) :
    a ∈ d.vertices := by
  obtain ⟨e, he, h1, _⟩ := h
  exact h1 ▸ (hcl e he).1

theorem HasEdge.mem_right {d : DAG} (hcl : d.Closed) {a b : Vertex} (h : d.HasEdge a b) :
    b ∈ d.vertices := by
  obtain ⟨e, he, _, h2⟩ := h
  exact h2 ▸ (hcl e he).2

theorem length_le_of_nodup_subset {l V : List Vertex} (hn : l.Nodup) (hs : ∀ x ∈ l, x ∈ V) :
    l.length ≤ V.length :=
  (List.Nodup.subperm hn hs).length_le

/-- The loop over the adjacent vertices in the closure of `validate` comes back
and leaves the marks as they were, when every call in it does. -/
theorem validate_forEach (d : DAG) (fuel : Nat) (mk : List Vertex)
    (ih : ∀ u m, u ∈ d.vertices → m.marked = mk →
      ∃ r m1, validateWalk d fuel u m = some (r, m1) ∧ m1.marked = mk) :
    ∀ (us : List Vertex) (m : Marks), (∀ u ∈ us, u ∈ d.vertices) → m.marked = mk →
      ∃ m1, forEach (fun vertex m1 => (validateWalk d fuel vertex m1).map Prod.snd) us m = some m1 ∧
        m1.marked = mk := by
  intro us
  induction us with
  | nil =>
    intro m _ hm
    exact ⟨m, rfl, hm⟩
  | cons u us ihl =>
    intro m hus hm
    obtain ⟨r, m1, h1, h2⟩ := ih u m (hus u (List.mem_cons_self _ _)) hm
    obtain ⟨m2, h3, h4⟩ := ihl m1 (fun x hx => hus x (List.mem_cons_of_mem _ hx)) h2
    refine ⟨m2, ?_, h4⟩
    simp only [forEach, h1, Option.map_some']
    exact h3

/-- The closure of `validate` comes back on every graph whose edges stay inside
the vertex set, with the marks as they were, and with nil unless the vertex it
is called on is marked. -/
theorem validateWalk_returns (d : DAG) (hcl : d.Closed) :
    ∀ (fuel : Nat) (v : Vertex) (m : Marks), v ∈ d.vertices → m.marked.Nodup →
      (∀ x ∈ m.marked, x ∈ d.vertices) → d.vertices.length + 1 ≤ fuel + m.marked.length →
      ∃ r m1, validateWalk d fuel v m = some (r, m1) ∧ m1.marked = m.marked ∧
        (v ∉ m.marked → r = none) := by
  intro fuel
  induction fuel with
  | zero =>
    intro v m _ hn hs hf
    have := length_le_of_nodup_subset hn hs
    omega
  | succ n ih =>
    intro v m hv hn hs hf
    by_cases hw : v ∈ m.walked
    · exact ⟨none, m, by simp [validateWalk, hw], rfl, fun _ => rfl⟩
    by_cases hm : v ∈ m.marked
    · exact ⟨some "cycle found", m, by simp [validateWalk, hw, hm], rfl, fun h => absurd hm h⟩
    have hn1 : (v :: m.marked).Nodup := List.nodup_cons.mpr ⟨hm, hn⟩
    have hs1 : ∀ x ∈ v :: m.marked, x ∈ d.vertices := by
      intro x hx
      rcases List.mem_cons.mp hx with h | h
      · exact h ▸ hv
      · exact hs x h
    obtain ⟨m1, h1, h2⟩ := validate_forEach d n (v :: m.marked)
      (fun u m0 hu hm0 => by
        obtain ⟨r, m1, h1, h2, _⟩ := ih u m0 hu (hm0 ▸ hn1) (hm0 ▸ hs1)
          (by rw [hm0, List.length_cons]; omega)
        exact ⟨r, m1, h1, h2.trans hm0⟩)
      (d.outAdj v) { m with marked := v :: m.marked }
      (fun u hu => HasEdge.mem_right hcl (mem_outAdj.mp hu)) rfl
    refine ⟨none, { walked := v :: m1.walked, marked := m1.marked.filter (fun x => x ≠ v) }, ?_, ?_,
      fun _ => rfl⟩
    · simp only [validateWalk, hw, hm, if_false, h1]
    · show m1.marked.filter (fun x => x ≠ v) = m.marked
      rw [h2, List.filter_cons_of_neg (by simp)]
      exact List.filter_eq_self.mpr (fun x hx => by
        have : x ≠ v := fun h => hm (h ▸ hx)
        simpa using this)

/-- The last loop of `validate` returns nil on every graph whose edges stay
inside the vertex set. -/
theorem validateLoop_nil (d : DAG) (hcl : d.Closed) (fuel : Nat)
    (hf : d.vertices.length < fuel) :
    ∀ (vs : List Vertex) (m : Marks), (∀ v ∈ vs, v ∈ d.vertices) → m.marked = [] →
      validateLoop d fuel vs m = some none := by
  intro vs
  induction vs with
  | nil =>
    intro m _ _
    rfl
  | cons v vs ih =>
    intro m hvs hm
    obtain ⟨r, m1, h1, h2, h3⟩ := validateWalk_returns d hcl fuel v m
      (hvs v (List.mem_cons_self _ _)) (by rw [hm]; exact List.nodup_nil)
      (by rw [hm]; intro x hx; cases hx) (by rw [hm]; simp; omega)
    have hr : r = none := h3 (by rw [hm]; exact List.not_mem_nil _)
    subst hr
    simp only [validateLoop, h1]
    exact ih m1 (fun x hx => hvs x (List.mem_cons_of_mem _ hx)) (h2.trans hm)

end dag

namespace dag

theorem GoodOrder.nodup {R : Vertex → Vertex → Prop} {l : List Vertex} (h : GoodOrder R l) :
    l.Nodup := by
  induction h with
  | nil => exact List.nodup_nil
  | snoc l v _ hv _ ih =>
    rw [List.nodup_append]
    exact ⟨ih, List.nodup_singleton v, by
      intro a ha hb
      rw [List.mem_singleton] at hb
      exact hv (hb ▸ ha)⟩

theorem GoodOrder.before {R : Vertex → Vertex → Prop} {l : List Vertex} (h : GoodOrder R l) :
    ∀ (pre : List Vertex) (v : Vertex) (post : List Vertex), l = pre ++ v :: post →
      ∀ u, R u v → u ∈ pre := by
  induction h with
  | nil =>
    intro pre v post h
    simp at h
  | snoc l x _ _ hx ih =>
    intro pre v post h u hu
    rcases List.eq_nil_or_concat post with hp | ⟨post1, y, hp⟩
    · subst hp
      have h1 := List.append_inj' h rfl
      have h2 : x = v := by simpa using h1.2
      rw [← h1.1]
      exact hx u (h2 ▸ hu)
    · subst hp
      have h0 : l ++ [x] = (pre ++ v :: post1) ++ [y] := by
        rw [h]
        simp
      have h1 := List.append_inj' h0 rfl
      exact ih pre v post1 h1.1 u hu

/-- The loop over the adjacent vertices in the closure of `topologicalOrder`. -/
theorem topo_forEach (d : DAG) (reverse : Bool) (fuel : Nat) (v : Vertex)
    (R : Vertex → Vertex → Prop)
    (ih : ∀ u w, R u v → GoodWalk R w →
      ∃ w1, topoWalk d reverse fuel u w = some w1 ∧ GoodWalk R w1 ∧ u ∈ w1.orders ∧
        ∃ ext, w1.orders = w.orders ++ ext ∧ ∀ x ∈ ext, Relation.ReflTransGen R x u) :
    ∀ (us : List Vertex) (w : Walk), (∀ u ∈ us, R u v) → GoodWalk R w →
      ∃ w1, forEach (fun vertex w1 => topoWalk d reverse fuel vertex w1) us w = some w1 ∧
        GoodWalk R w1 ∧ (∀ u ∈ us, u ∈ w1.orders) ∧
        ∃ ext, w1.orders = w.orders ++ ext ∧ ∀ x ∈ ext, Relation.TransGen R x v := by
  intro us
  induction us with
  | nil =>
    intro w _ hw
    exact ⟨w, rfl, hw, fun u hu => (by cases hu), [], by simp, fun x hx => (by cases hx)⟩
  | cons u us ihl =>
    intro w hus hw
    have hu := hus u (List.mem_cons_self _ _)
    obtain ⟨w1, h1, g1, m1, e1, x1, r1⟩ := ih u w hu hw
    obtain ⟨w2, h2, g2, m2, e2, x2, r2⟩ := ihl w1 (fun x hx => hus x (List.mem_cons_of_mem _ hx)) g1
    refine ⟨w2, ?_, g2, ?_, e1 ++ e2, ?_, ?_⟩
    · simp only [forEach, h1]
      exact h2
    · intro y hy
      rcases List.mem_cons.mp hy with h | h
      · rw [h, x2]
        exact List.mem_append_left _ m1
      · exact m2 y h
    · rw [x2, x1, List.append_assoc]
    · intro x hx
      rcases List.mem_append.mp hx with h | h
      · exact Relation.TransGen.tail' (r1 x h) hu
      · exact r2 x h

/-- The closure of `topologicalOrder` comes back on a graph without cycle, on
which it appends the vertex it is called on after everything before it. -/
theorem topoWalk_returns (d : DAG) (reverse : Bool) (R : Vertex → Vertex → Prop)
    (hR : ∀ u v, u ∈ d.adjacent reverse v ↔ R u v)
    (hac : ∀ v, ¬ Relation.TransGen R v v) (hcl : ∀ u v, R u v → u ∈ d.vertices) :
    ∀ (fuel : Nat) (v : Vertex) (w : Walk) (path : List Vertex), GoodWalk R w → v ∈ d.vertices →
      path.Nodup → (∀ p ∈ path, p ∈ d.vertices) → (∀ p ∈ path, Relation.TransGen R v p) →
      d.vertices.length ≤ fuel + path.length →
      ∃ w1, topoWalk d reverse fuel v w = some w1 ∧ GoodWalk R w1 ∧ v ∈ w1.orders ∧
        ∃ ext, w1.orders = w.orders ++ ext ∧ ∀ x ∈ ext, Relation.ReflTransGen R x v := by
  intro fuel
  induction fuel with
  | zero =>
    intro v w path _ hv hn hs hp hf
    have hvp : v ∉ path := fun h => hac v (hp v h)
    have := length_le_of_nodup_subset (List.nodup_cons.mpr ⟨hvp, hn⟩) (by
      intro x hx
      rcases List.mem_cons.mp hx with h | h
      · exact h ▸ hv
      · exact hs x h)
    simp only [List.length_cons] at this
    omega
  | succ n ih =>
    intro v w path hw hv hn hs hp hf
    have hvp : v ∉ path := fun h => hac v (hp v h)
    by_cases hwk : v ∈ w.walked
    · exact ⟨w, by simp [topoWalk, hwk], hw, (hw.2 v).mp hwk, [], by simp,
        fun x hx => (by cases hx)⟩
    obtain ⟨w1, h1, g1, m1, ext, x1, r1⟩ := topo_forEach d reverse n v R
      (fun u w0 hu hw0 => ih u w0 (v :: path) hw0 (hcl u v hu) (List.nodup_cons.mpr ⟨hvp, hn⟩)
        (by
          intro x hx
          rcases List.mem_cons.mp hx with h | h
          · exact h ▸ hv
          · exact hs x h)
        (by
          intro x hx
          rcases List.mem_cons.mp hx with h | h
          · exact h ▸ Relation.TransGen.single hu
          · exact Relation.TransGen.head hu (hp x h))
        (by rw [List.length_cons]; omega))
      (d.adjacent reverse v) w (fun u hu => (hR u v).mp hu) hw
    have hv1 : v ∉ w1.orders := by
      rw [x1, List.mem_append]
      rintro (h | h)
      · exact hwk ((hw.2 v).mpr h)
      · exact hac v (r1 v h)
    refine ⟨{ walked := v :: w1.walked, orders := w1.orders ++ [v] }, ?_, ⟨?_, ?_⟩, ?_,
      ext ++ [v], ?_, ?_⟩
    · simp only [topoWalk, hwk, if_false, h1]
    · exact GoodOrder.snoc w1.orders v g1.1 hv1 (fun u hu => m1 u ((hR u v).mpr hu))
    · intro x
      simp only [List.mem_cons, List.mem_append, List.mem_singleton, g1.2 x]
      tauto
    · simp
    · show w1.orders ++ [v] = w.orders ++ (ext ++ [v])
      rw [x1, List.append_assoc]
    · intro x hx
      rcases List.mem_append.mp hx with h | h
      · exact (r1 x h).to_reflTransGen
      · rw [List.mem_singleton.mp h]

end dag

namespace dag

/-- The loop of `topologicalOrder` over the vertices. -/
theorem topo_top (d : DAG) (reverse : Bool) (R : Vertex → Vertex → Prop)
    (hR : ∀ u v, u ∈ d.adjacent reverse v ↔ R u v)
    (hac : ∀ v, ¬ Relation.TransGen R v v) (hcl : ∀ u v, R u v → u ∈ d.vertices)
    (fuel : Nat) (hf : d.vertices.length ≤ fuel) :
    ∀ (vs : List Vertex) (w : Walk), (∀ v ∈ vs, v ∈ d.vertices) → GoodWalk R w →
      (∀ x ∈ w.orders, x ∈ d.vertices) →
      ∃ w1, forEach (fun v w => topoWalk d reverse fuel v w) vs w = some w1 ∧ GoodWalk R w1 ∧
        (∀ x ∈ w1.orders, x ∈ d.vertices) ∧ (∀ v ∈ vs, v ∈ w1.orders) ∧
        ∀ x ∈ w.orders, x ∈ w1.orders := by
  intro vs
  induction vs with
  | nil =>
    intro w _ hw hin
    exact ⟨w, rfl, hw, hin, fun v hv => (by cases hv), fun x hx => hx⟩
  | cons v vs ih =>
    intro w hvs hw hin
    have hv := hvs v (List.mem_cons_self _ _)
    obtain ⟨w1, h1, g1, m1, ext, x1, r1⟩ := topoWalk_returns d reverse R hR hac hcl fuel v w []
      hw hv List.nodup_nil (fun p hp => by cases hp) (fun p hp => by cases hp) (by simpa using hf)
    have hin1 : ∀ x ∈ w1.orders, x ∈ d.vertices := by
      intro x hx
      rw [x1, List.mem_append] at hx
      rcases hx with h | h
      · exact hin x h
      · rcases (r1 x h).cases_head with h2 | ⟨c, h2, _⟩
        · exact h2 ▸ hv
        · exact hcl x c h2
    obtain ⟨w2, h2, g2, hin2, m2, s2⟩ := ih w1 (fun x hx => hvs x (List.mem_cons_of_mem _ hx))
      g1 hin1
    refine ⟨w2, ?_, g2, hin2, ?_, ?_⟩
    · simp only [forEach, h1]
      exact h2
    · intro y hy
      rcases List.mem_cons.mp hy with h | h
      · exact h ▸ s2 v m1
      · exact m2 y h
    · intro x hx
      exact s2 x (by rw [x1]; exact List.mem_append_left _ hx)

/-- On a graph without cycle whose edges stay inside the vertex set,
`topologicalOrder` returns a list that holds each vertex once, every vertex
after the vertices `R` puts before it. -/
theorem topologicalOrder_returns (d : DAG) (reverse : Bool) (R : Vertex → Vertex → Prop)
    (hR : ∀ u v, u ∈ d.adjacent reverse v ↔ R u v)
    (hac : ∀ v, ¬ Relation.TransGen R v v) (hcl : ∀ u v, R u v → u ∈ d.vertices)
    (hn : d.vertices.Nodup) (fuel : Nat) (hf : d.vertices.length ≤ fuel) :
    ∃ orders, d.topologicalOrder fuel reverse = some orders ∧ orders.Perm d.vertices ∧
      ∀ pre v post, orders = pre ++ v :: post → ∀ u, R u v → u ∈ pre := by
  obtain ⟨w1, h1, g1, hin, hall, _⟩ := topo_top d reverse R hR hac hcl fuel hf d.vertices
    { walked := [], orders := [] } (fun v hv => hv) ⟨GoodOrder.nil, fun x => Iff.rfl⟩
    (fun x hx => by cases hx)
  refine ⟨w1.orders, ?_, ?_, g1.1.before⟩
  · simp only [DAG.topologicalOrder, h1, Option.map_some']
  · exact (List.perm_ext_iff_of_nodup g1.1.nodup hn).mpr (fun x => ⟨hin x, hall x⟩)

/-- With a walk function that never fails, the loop of the walk returns nil,
has called the function on every vertex of the list in order, and leaves the
state these calls produce one after the other. -/
theorem walkAll_ok {σ : Type} (walkFunc : Vertex → σ → Err × σ)
    (hok : ∀ v s, (walkFunc v s).1 = none) :
    ∀ (l : List Vertex) (s : σ),
      walkAll walkFunc l s = (none, l, l.foldl (fun st v => (walkFunc v st).2) s) := by
  intro l
  induction l with
  | nil =>
    intro s
    rfl
  | cons v vs ih =>
    intro s
    have h := hok v s
    rcases hw : walkFunc v s with ⟨e, s1⟩
    rw [hw] at h
    simp only at h
    subst h
    simp only [walkAll, hw, List.foldl_cons, ih s1]

theorem inAdj_length_eq_zero {d : DAG} {v : Vertex} :
    (d.inAdj v).length = 0 ↔ ∀ e ∈ d.edges, e.To ≠ v := by
  rw [List.length_eq_zero, List.eq_nil_iff_forall_not_mem]
  constructor
  · intro h e he hv
    exact h e.From (mem_inAdj.mpr ⟨e, he, rfl, hv⟩)
  · rintro h u hu
    obtain ⟨e, he, _, h2⟩ := mem_inAdj.mp hu
    exact h e he h2

/-- The method `root` finds the root of a graph that has a single one. -/
theorem root_of_singleRoot (d : DAG) (hwf : d.WellFormed) (hroot : d.SingleRoot) :
    d.root ≠ Vertex.nil := by
  obtain ⟨r, hr, hiff⟩ := hroot
  have hfil : d.vertices.filter (fun n => (d.inAdj n).length = 0) = [r] := by
    have h1 : d.vertices.filter (fun n => (d.inAdj n).length = 0) =
        d.vertices.filter (fun n => n = r) := by
      apply List.filter_congr
      intro x hx
      have := hiff x hx
      rw [← inAdj_length_eq_zero] at this
      simp only [this]
    rw [h1, List.filter_eq, List.count_eq_one_of_mem hwf.1 hr]
    rfl
  have hroot : d.root = r := by
    simp only [DAG.root, hfil]
    rfl
  rw [hroot]
  exact fun h => hwf.2 (h ▸ hr)

/-- The method `validate` returns nil exactly on the graphs with one root and
no edge from a vertex to itself, whatever other cycles they have. -/
theorem validate_eq_nil_iff (d : DAG) (hcl : d.Closed) (fuel : Nat)
    (hf : d.vertices.length < fuel) :
    d.validate fuel = some none ↔ d.root ≠ Vertex.nil ∧ ∀ e ∈ d.edges, e.From ≠ e.To := by
  have hloop := validateLoop_nil d hcl fuel hf d.vertices { walked := [], marked := [] }
    (fun v hv => hv) rfl
  by_cases h1 : d.root = Vertex.nil
  · simp [DAG.validate, h1]
  by_cases h2 : d.edges.any (fun e => e.From = e.To) = true
  · have h3 := h2
    rw [List.any_eq_true] at h3
    obtain ⟨e, he, hee⟩ := h3
    simp only [DAG.validate, h1, h2, if_false, if_true]
    constructor
    · intro h
      cases h
    · intro h
      exact absurd (by simpa using hee) (h.2 e he)
  · have h3 : ∀ e ∈ d.edges, e.From ≠ e.To := by
      intro e he hee
      apply h2
      rw [List.any_eq_true]
      exact ⟨e, he, by simpa using hee⟩
    have h4 : d.edges.any (fun e => e.From = e.To) = false := by
      simpa using h2
    constructor
    · intro _
      exact ⟨h1, h3⟩
    · intro _
      simp only [DAG.validate, h1, h4, if_false, hloop, Bool.false_eq_true]

theorem acyclic_of_rank (d : DAG) (rank : Vertex → Nat)
    (h : ∀ e ∈ d.edges, rank e.From < rank e.To) : d.Acyclic := by
  have hlt : ∀ a b, Relation.TransGen d.HasEdge a b → rank a < rank b := by
    intro a b hab
    induction hab with
    | single h1 =>
      obtain ⟨e, he, h2, h3⟩ := h1
      exact h2 ▸ h3 ▸ h e he
    | tail _ h1 ih =>
      obtain ⟨e, he, h2, h3⟩ := h1
      exact lt_trans ih (h2 ▸ h3 ▸ h e he)
  intro v hv
  exact lt_irrefl _ (hlt v v hv)

end dag

namespace dag

theorem dCycle_closed : dCycle.Closed := by
  unfold DAG.Closed
  decide

theorem dCycle_not_acyclic : ¬ dCycle.Acyclic := by
  intro h
  have h1 : dCycle.HasEdge vA vB := ⟨{ F := vA, T := vB }, by decide, rfl, rfl⟩
  have h2 : dCycle.HasEdge vB vA := ⟨{ F := vB, T := vA }, by decide, rfl, rfl⟩
  exact h vA ((Relation.TransGen.single h1).tail h2)

theorem dCycle_validate (fuel : Nat) : dCycle.validate (fuel + 4) = some none :=
  (validate_eq_nil_iff dCycle dCycle_closed (fuel + 4)
    (by show 3 < fuel + 4; omega)).mpr (by decide)

/-- On the graph root → a → b → a the closure of `topologicalOrder` never comes
back from `a` or from `b`, whatever the bound on its depth. -/
theorem dCycle_topoWalk (reverse : Bool) :
    ∀ (fuel : Nat) (w : Walk), vA ∉ w.walked → vB ∉ w.walked →
      topoWalk dCycle reverse fuel vA w = none ∧ topoWalk dCycle reverse fuel vB w = none := by
  intro fuel
  induction fuel with
  | zero =>
    intro w _ _
    exact ⟨rfl, rfl⟩
  | succ n ih =>
    intro w ha hb
    have hA : ∃ rest, dCycle.adjacent reverse vA = vB :: rest := by
      cases reverse
      · exact ⟨[vRoot], by decide⟩
      · exact ⟨[], by decide⟩
    have hB : dCycle.adjacent reverse vB = [vA] := by
      cases reverse <;> decide
    obtain ⟨rest, hA⟩ := hA
    constructor
    · simp only [topoWalk, ha, if_false, hA, forEach, (ih w ha hb).2]
    · simp only [topoWalk, hb, if_false, hB, forEach, (ih w ha hb).1]

theorem dCycle_topologicalOrder (fuel : Nat) (reverse : Bool) :
    dCycle.topologicalOrder fuel reverse = none := by
  cases fuel with
  | zero => rfl
  | succ n =>
    cases reverse
    · have h := (dCycle_topoWalk false (n + 1) { walked := [vRoot], orders := [] ++ [vRoot] }
        (by decide) (by decide)).1
      have h0 : topoWalk dCycle false (n + 1) vRoot { walked := [], orders := [] } =
          some { walked := [vRoot], orders := [] ++ [vRoot] } := by
        have hR : dCycle.adjacent false vRoot = [] := by decide
        simp only [topoWalk, hR, forEach]
        rfl
      have hv : dCycle.vertices = [vRoot, vA, vB] := rfl
      simp only [DAG.topologicalOrder, hv, forEach, h0, h, Option.map_none']
    · have h := (dCycle_topoWalk true n { walked := [], orders := [] } (by decide) (by decide)).1
      have hR : dCycle.adjacent true vRoot = [vA] := by decide
      have h0 : topoWalk dCycle true (n + 1) vRoot { walked := [], orders := [] } = none := by
        simp only [topoWalk]
        rw [hR]
        simp only [forEach, h]
        rfl
      have hv : dCycle.vertices = [vRoot, vA, vB] := rfl
      simp only [DAG.topologicalOrder, hv, forEach, h0, Option.map_none']

/-- C24 (the code departs from the claim).  The graph root → a → b → a has a
single root and holds the cycle a → b → a, and `validate` returns nil on it,
whatever the bound on the depth of its recursion from 4 on: the error of a
nested `walk` is dropped. -/
theorem validate_accepts_cycle :
    ¬ dCycle.Acyclic ∧ ∀ fuel, dCycle.validate (fuel + 4) = some none :=
  ⟨dCycle_not_acyclic, dCycle_validate⟩

/-- C26 (the code departs from the claim).  On the graph root → a → b → a
`validate` returns nil, and the recursion of `topologicalOrder` hits every bound
on its depth, in either direction, so neither walk returns: the cycle that
`validate` let through, as for C24. -/
theorem topologicalOrder_never_returns_on_accepted_cycle :
    dCycle.validate 4 = some none ∧
      (∀ fuel reverse, dCycle.topologicalOrder fuel reverse = none) ∧
      ∀ fuel, dCycle.WalkTopoOrder (fuel + 4) countCalls 0 = none ∧
        dCycle.WalkReverseTopoOrder (fuel + 4) countCalls 0 = none := by
  refine ⟨dCycle_validate 0, dCycle_topologicalOrder, fun fuel => ⟨?_, ?_⟩⟩
  · simp only [DAG.WalkTopoOrder, DAG.walkOrder, dCycle_validate fuel,
      dCycle_topologicalOrder (fuel + 4) false]
  · simp only [DAG.WalkReverseTopoOrder, DAG.walkOrder, dCycle_validate fuel,
      dCycle_topologicalOrder (fuel + 4) true]

/-- C27 (the code departs from the claim).  The method `RemoveVertex` leaves the
vertex set as it was, so the vertex `a` of the diamond is still in it after
`RemoveVertex(a)`; only the edges at `a` are gone. -/
theorem removeVertex_keeps_the_vertex :
    (∀ (d : DAG) (v : Vertex), (d.RemoveVertex v).2.vertices = d.vertices) ∧
      vA ∈ dDiamond.vertices ∧ vA ∈ (dDiamond.RemoveVertex vA).2.vertices ∧
      (dDiamond.RemoveVertex vA).2.edges = [{ F := vRoot, T := vB }, { F := vB, T := vC }] := by
  refine ⟨fun d v => ?_, by decide, by decide, by decide⟩
  unfold DAG.RemoveVertex
  split <;> rfl

/-- C25: on a graph without cycle, with a single root and every edge inside the
vertex set (its vertex map holding distinct keys, none of them nil), and with a
walk function that never fails, `WalkTopoOrder` returns nil after calling the
function once on each vertex, on a vertex only after the source of every edge
into it: the state it leaves is the one these calls produce, one after the
other in that order.  `WalkReverseTopoOrder` does so on a vertex only after the
target of every edge out of it.  The recursion needs no more depth than there
are vertices, plus one. -/
theorem walk_calls_each_vertex_once_in_order {σ : Type} (d : DAG)
    (walkFunc : Vertex → σ → Err × σ) (s : σ) (fuel : Nat) (hwf : d.WellFormed)
    (hac : d.Acyclic) (hroot : d.SingleRoot) (hcl : d.Closed)
    (hok : ∀ v s, (walkFunc v s).1 = none) (hf : d.vertices.length < fuel) :
    (∃ calls, d.WalkTopoOrder fuel walkFunc s =
          some (none, calls, calls.foldl (fun st v => (walkFunc v st).2) s) ∧
        calls.Perm d.vertices ∧
        ∀ pre v post, calls = pre ++ v :: post → ∀ e ∈ d.edges, e.To = v → e.From ∈ pre) ∧
      ∃ calls, d.WalkReverseTopoOrder fuel walkFunc s =
          some (none, calls, calls.foldl (fun st v => (walkFunc v st).2) s) ∧
        calls.Perm d.vertices ∧
        ∀ pre v post, calls = pre ++ v :: post → ∀ e ∈ d.edges, e.From = v → e.To ∈ pre := by
  have hval : d.validate fuel = some none :=
    (validate_eq_nil_iff d hcl fuel hf).mpr ⟨root_of_singleRoot d hwf hroot, fun e he hee =>
      hac e.From (Relation.TransGen.single ⟨e, he, rfl, hee.symm⟩)⟩
  constructor
  · obtain ⟨orders, h1, h2, h3⟩ := topologicalOrder_returns d false (fun u v => d.HasEdge u v)
      (fun u v => by simp only [DAG.adjacent, Bool.false_eq_true, if_false, mem_inAdj]) hac
      (fun u v h => HasEdge.mem_left hcl h) hwf.1 fuel (le_of_lt hf)
    refine ⟨orders, ?_, h2, fun pre v post hp e he hev =>
      h3 pre v post hp e.From ⟨e, he, rfl, hev⟩⟩
    simp only [DAG.WalkTopoOrder, DAG.walkOrder, hval, h1, walkAll_ok walkFunc hok orders s]
  · obtain ⟨orders, h1, h2, h3⟩ := topologicalOrder_returns d true (fun u v => d.HasEdge v u)
      (fun u v => by simp only [DAG.adjacent, if_true, mem_outAdj])
      (fun v h => hac v (Relation.transGen_swap.mp h))
      (fun u v h => HasEdge.mem_right hcl h) hwf.1 fuel (le_of_lt hf)
    refine ⟨orders, ?_, h2, fun pre v post hp e he hev =>
      h3 pre v post hp e.To ⟨e, he, hev, rfl⟩⟩
    simp only [DAG.WalkReverseTopoOrder, DAG.walkOrder, hval, h1,
      walkAll_ok walkFunc hok orders s]

end dag

namespace dag

/-- C25 at a concrete input: the diamond root → a → c, root → b → c, walked with
a function that writes down the vertices it is called on: what it has written
down at the end is the list of the calls. -/
theorem walk_calls_each_vertex_once_in_order_witness :
    dDiamond.WellFormed ∧ dDiamond.Acyclic ∧ dDiamond.SingleRoot ∧ dDiamond.Closed ∧
      (∀ v s, (recordCall v s).1 = none) ∧ dDiamond.vertices.length < 5 ∧
      dDiamond.WalkTopoOrder 5 recordCall [] =
        some (none, [vRoot, vA, vB, vC], [vRoot, vA, vB, vC]) ∧
      dDiamond.WalkReverseTopoOrder 5 recordCall [] =
        some (none, [vC, vA, vB, vRoot], [vC, vA, vB, vRoot]) ∧
      (∃ calls, dDiamond.WalkTopoOrder 5 recordCall [] =
          some (none, calls, calls.foldl (fun st v => (recordCall v st).2) []) ∧
        calls.Perm dDiamond.vertices ∧
        ∀ pre v post, calls = pre ++ v :: post →
          ∀ e ∈ dDiamond.edges, e.To = v → e.From ∈ pre) ∧
      ∃ calls, dDiamond.WalkReverseTopoOrder 5 recordCall [] =
          some (none, calls, calls.foldl (fun st v => (recordCall v st).2) []) ∧
        calls.Perm dDiamond.vertices ∧
        ∀ pre v post, calls = pre ++ v :: post →
          ∀ e ∈ dDiamond.edges, e.From = v → e.To ∈ pre :=
  have hwf : dDiamond.WellFormed := ⟨by decide, by decide⟩
  have hac : dDiamond.Acyclic := acyclic_of_rank dDiamond diamondRank (by decide)
  have hroot : dDiamond.SingleRoot := ⟨vRoot, by decide, by decide⟩
  have hcl : dDiamond.Closed := by unfold DAG.Closed; decide
  ⟨hwf, hac, hroot, hcl, fun _ _ => rfl, by decide, by decide, by decide,
    walk_calls_each_vertex_once_in_order dDiamond recordCall [] 5 hwf hac hroot hcl
      (fun _ _ => rfl) (by decide)⟩

end dag

namespace lifecycle

/-- C28: `updateClusterPhaseWhenConditionsError` returns the cluster as it was
unless its phase is ConditionsError; then the new phase is Creating when
ObservedGeneration is 0, else SpecUpdating when the slice of OpsRequests is
empty, else the ToClusterPhase of the first entry; and the cluster differs from
the one passed in at most in its phase. -/
theorem updateClusterPhase_cases (k : Phases)
    (GetOpsRequestSliceFromCluster : Cluster → List OpsRecorder × Err) (cluster : Cluster) :
    (cluster.Status.Phase ≠ k.ConditionsErrorPhase →
        updateClusterPhaseWhenConditionsError k GetOpsRequestSliceFromCluster cluster = cluster) ∧
      (cluster.Status.Phase = k.ConditionsErrorPhase →
        (cluster.Status.ObservedGeneration = 0 →
          (updateClusterPhaseWhenConditionsError k GetOpsRequestSliceFromCluster
            cluster).Status.Phase = k.CreatingPhase) ∧
        (cluster.Status.ObservedGeneration ≠ 0 →
          (GetOpsRequestSliceFromCluster cluster).1.length = 0 →
          (updateClusterPhaseWhenConditionsError k GetOpsRequestSliceFromCluster
            cluster).Status.Phase = k.SpecUpdatingPhase) ∧
        (cluster.Status.ObservedGeneration ≠ 0 →
          ∀ first, (GetOpsRequestSliceFromCluster cluster).1.head? = some first →
          (updateClusterPhaseWhenConditionsError k GetOpsRequestSliceFromCluster
            cluster).Status.Phase = first.ToClusterPhase)) ∧
      (updateClusterPhaseWhenConditionsError k GetOpsRequestSliceFromCluster cluster).setPhase
        cluster.Status.Phase = cluster := by
  refine ⟨fun h => ?_, fun h => ⟨fun h0 => ?_, fun h0 hl => ?_, fun h0 first hf => ?_⟩, ?_⟩
  · simp [updateClusterPhaseWhenConditionsError, h]
  · simp [updateClusterPhaseWhenConditionsError, h, h0, Cluster.setPhase]
  · rw [List.length_eq_zero] at hl
    simp [updateClusterPhaseWhenConditionsError, h, h0, hl, Cluster.setPhase]
  · rcases hs : (GetOpsRequestSliceFromCluster cluster).1 with _ | ⟨r, rest⟩
    · rw [hs] at hf
      cases hf
    · rw [hs] at hf
      simp only [List.head?_cons, Option.some.injEq] at hf
      subst hf
      simp [updateClusterPhaseWhenConditionsError, h, h0, hs, Cluster.setPhase]
  · unfold updateClusterPhaseWhenConditionsError
    split
    · rfl
    · split
      · rfl
      · split <;> rfl

end lifecycle

namespace operations

theorem lookup_mapSet {α : Type} (m : List (String × α)) (k : String) (v : α) (k1 : String) :
    (mapSet m k v).lookup k1 = if k1 = k then some v else m.lookup k1 := by
  induction m with
  | nil =>
    by_cases h : k1 = k
    · simp [mapSet, List.lookup, h]
    · have hb : (k1 == k) = false := by simpa using h
      simp [mapSet, List.lookup, h, hb]
  | cons e m ih =>
    obtain ⟨a, b⟩ := e
    by_cases hk : k = a
    · subst hk
      by_cases h : k1 = k
      · simp [mapSet, List.lookup, h]
      · have hb : (k1 == k) = false := by simpa using h
        simp [mapSet, List.lookup, h, hb]
    · by_cases h : k1 = k
      · subst h
        have : (k1 == a) = false := by simpa using hk
        simp [mapSet, List.lookup, hk, this, ih]
      · by_cases h1 : k1 = a
        · subst h1
          simp [mapSet, List.lookup, hk, h]
        · have : (k1 == a) = false := by simpa using h1
          simp [mapSet, List.lookup, hk, this, ih, h]

theorem names_inner (c : ComponentOps) (k : String) :
    ∀ (names : List String) (m : List (String × ComponentOps)),
      ((names.foldl (fun m1 v => mapSet m1 v c) m).lookup k).isSome =
        (decide (k ∈ names) || (m.lookup k).isSome) := by
  intro names
  induction names with
  | nil =>
    intro m
    simp
  | cons n names ih =>
    intro m
    rw [List.foldl_cons, ih, lookup_mapSet]
    by_cases h : k = n
    · simp [h]
    · simp [h]

theorem names_outer (k : String) :
    ∀ (l : List ComponentOps) (m : List (String × ComponentOps)),
      ((l.foldl (fun m componentOps => componentOps.ComponentNames.foldl
        (fun m1 v => mapSet m1 v componentOps) m) m).lookup k).isSome =
        (l.any (fun c => decide (k ∈ c.ComponentNames)) || (m.lookup k).isSome) := by
  intro l
  induction l with
  | nil =>
    intro m
    simp
  | cons c l ih =>
    intro m
    rw [List.foldl_cons, ih, names_inner, List.any_cons]
    cases decide (k ∈ c.ComponentNames) <;> simp [Bool.or_comm]

/-- The map `getAllComponentsNameMap` builds has a key exactly for the
components named in the request's list. -/
theorem nameMap_isSome (o : OpsRequest) (k : String) :
    ((getAllComponentsNameMap o).lookup k).isSome = o.Names k := by
  unfold getAllComponentsNameMap OpsRequest.Names
  cases o.ComponentOpsList with
  | none => simp
  | some l =>
    simp only [names_outer, Option.getD_some]
    simp

theorem loopBody_of_not_named (r : Phase) (nm : List (String × ComponentOps)) (st : LoopState)
    (kv : String × ClusterStatusComponent) (h : (nm.lookup kv.1).isSome = false) :
    loopBody r nm st kv = st := by
  unfold loopBody
  cases hl : nm.lookup kv.1 with
  | none => rfl
  | some c => simp [hl] at h

theorem loopBody_isOk (r : Phase) (nm : List (String × ComponentOps)) (st : LoopState)
    (kv : String × ClusterStatusComponent) :
    (loopBody r nm st kv).isOk =
      (st.isOk && !((nm.lookup kv.1).isSome && decide (kv.2.Phase ≠ r))) := by
  unfold loopBody
  cases hl : nm.lookup kv.1 with
  | none => simp
  | some c =>
    by_cases hp : kv.2.Phase = r
    · simp only [hp, ne_eq, not_true_eq_false, if_false]
      split
      · simp
      · split <;> simp
    · simp only [hp, ne_eq, not_false_eq_true, if_true]
      split
      · simp
      · split <;> simp

theorem loopBody_lookup (r : Phase) (nm : List (String × ComponentOps)) (st : LoopState)
    (kv : String × ClusterStatusComponent) (k : String) (h : (nm.lookup k).isSome = false) :
    (loopBody r nm st kv).components.lookup k = st.components.lookup k := by
  unfold loopBody
  cases hl : nm.lookup kv.1 with
  | none => rfl
  | some c =>
    have hk : k ≠ kv.1 := by
      intro hk
      rw [hk, hl] at h
      simp at h
    simp only
    split
    · simp [lookup_mapSet, hk]
      split <;> rfl
    · split
      · simp [lookup_mapSet, hk]
        split <;> rfl
      · split <;> rfl

theorem loop_isOk (r : Phase) (nm : List (String × ComponentOps)) :
    ∀ (l : List (String × ClusterStatusComponent)) (st : LoopState),
      (l.foldl (loopBody r nm) st).isOk = true ↔
        st.isOk = true ∧ ∀ kv ∈ l, (nm.lookup kv.1).isSome = true → kv.2.Phase = r := by
  intro l
  induction l with
  | nil =>
    intro st
    simp
  | cons kv l ih =>
    intro st
    rw [List.foldl_cons, ih, loopBody_isOk]
    simp only [List.mem_cons, forall_eq_or_imp, Bool.and_eq_true, Bool.not_eq_true',
      Bool.and_eq_false_imp, decide_eq_false_iff_not, ne_eq, not_not]
    tauto

theorem loop_lookup (r : Phase) (nm : List (String × ComponentOps)) (k : String)
    (h : (nm.lookup k).isSome = false) :
    ∀ (l : List (String × ClusterStatusComponent)) (st : LoopState),
      (l.foldl (loopBody r nm) st).components.lookup k = st.components.lookup k := by
  intro l
  induction l with
  | nil =>
    intro st
    rfl
  | cons kv l ih =>
    intro st
    rw [List.foldl_cons, ih, loopBody_lookup r nm st kv k h]

theorem loop_filter (r : Phase) (nm : List (String × ComponentOps)) :
    ∀ (l : List (String × ClusterStatusComponent)) (st : LoopState),
      l.foldl (loopBody r nm) st =
        (l.filter (fun kv => (nm.lookup kv.1).isSome)).foldl (loopBody r nm) st := by
  intro l
  induction l with
  | nil =>
    intro st
    rfl
  | cons kv l ih =>
    intro st
    by_cases h : (nm.lookup kv.1).isSome = true
    · rw [List.filter_cons]
      simp only [h, if_true, List.foldl_cons]
      exact ih _
    · rw [List.filter_cons]
      simp only [h, if_false, List.foldl_cons, Bool.false_eq_true]
      rw [loopBody_of_not_named r nm st kv (Bool.eq_false_iff.mpr h)]
      exact ih _

/-- C29: when the status patch succeeds, `ReconcileActionWithComponentOps`
returns nil exactly when every component of the cluster status that the
request's ComponentOpsList names has phase Running; the entries of
`OpsRequest.Status.Components` of components the list does not name are left as
they were; and two clusters that agree on the named components give the same
result. -/
theorem reconcile_component_ops (Patch : OpsRequest → Err) (RunningPhase : Phase)
    (opsRes : OpsResource) (hp : ∀ o, Patch o = none) :
    ((ReconcileActionWithComponentOps Patch RunningPhase opsRes).1 = none ↔
        ∀ kv ∈ opsRes.Cluster.StatusComponents, opsRes.OpsRequest.Names kv.1 = true →
          kv.2.Phase = RunningPhase) ∧
      (∀ k, opsRes.OpsRequest.Names k = false →
        ((ReconcileActionWithComponentOps Patch RunningPhase
            opsRes).2.1.StatusComponents.getD []).lookup k =
          (opsRes.OpsRequest.StatusComponents.getD []).lookup k) ∧
      ∀ cluster : Cluster,
        cluster.StatusComponents.filter (fun kv => opsRes.OpsRequest.Names kv.1) =
          opsRes.Cluster.StatusComponents.filter (fun kv => opsRes.OpsRequest.Names kv.1) →
        ReconcileActionWithComponentOps Patch RunningPhase
            { OpsRequest := opsRes.OpsRequest, Cluster := cluster } =
          ReconcileActionWithComponentOps Patch RunningPhase opsRes := by
  refine ⟨?_, ?_, ?_⟩
  · have h := loop_isOk RunningPhase (getAllComponentsNameMap opsRes.OpsRequest)
      opsRes.Cluster.StatusComponents
      { isOk := true, isChanged := false,
        components := opsRes.OpsRequest.StatusComponents.getD [], events := [] }
    simp only [nameMap_isSome, true_and] at h
    rw [← h]
    simp only [ReconcileActionWithComponentOps, hp, ne_eq, not_true_eq_false, and_false, if_false]
    split
    · rename_i h1
      simp only [Bool.not_eq_true', ] at h1
      simp [h1]
    · rename_i h1
      simp only [Bool.not_eq_true', Bool.not_eq_false] at h1
      simp [h1]
  · intro k hk
    have h := loop_lookup RunningPhase (getAllComponentsNameMap opsRes.OpsRequest) k
      (by rw [nameMap_isSome]; exact hk) opsRes.Cluster.StatusComponents
      { isOk := true, isChanged := false,
        components := opsRes.OpsRequest.StatusComponents.getD [], events := [] }
    simp only [ReconcileActionWithComponentOps]
    split
    · exact h
    · split <;> exact h
  · intro cluster hc
    simp only [ReconcileActionWithComponentOps]
    rw [loop_filter RunningPhase _ cluster.StatusComponents,
      loop_filter RunningPhase _ opsRes.Cluster.StatusComponents]
    simp only [nameMap_isSome, hc]

end operations

namespace operations

/-- C29 at a concrete input: a request that names `mysql` and `proxy`, on a
cluster where both run and the component `etcd`, not named, is updating. -/
theorem reconcile_component_ops_witness :
    (∀ o : OpsRequest, (fun _ => none : OpsRequest → Err) o = none) ∧
      ((ReconcileActionWithComponentOps (fun _ => none) "Running"
          { OpsRequest := opsTwo, Cluster := clusterRunning }).1 = none ↔
        ∀ kv ∈ clusterRunning.StatusComponents, opsTwo.Names kv.1 = true →
          kv.2.Phase = "Running") :=
  ⟨fun _ => rfl,
    (reconcile_component_ops (fun _ => none) "Running"
      { OpsRequest := opsTwo, Cluster := clusterRunning } (fun _ => rfl)).1⟩

end operations
